import Mathlib

/-!
# Siyathumeka KwaNdebele: order fulfilment and wallet ledger

A shallow embedding of the business logic of `src/app.js` (the tables are those
of the schema in `src/supabase.js`).

Modelling conventions.

* JavaScript numbers are binary64 numbers.  They are kept as the rationals
  they denote (`ℚ`), and every arithmetic operation of the program is the
  exact operation followed by rounding to the nearest binary64 number, ties to
  the even significand (`binary64`, `jsAdd`, `jsSub`, `jsMul`, `jsDiv`); a
  decimal literal such as `0.70` is the binary64 number nearest to it.
  Magnitudes from `2 ^ 1024` on, which JavaScript turns into `Infinity`, are
  not represented.  `x || 0` on a possibly missing number is `orZero`.
* The columns of the tables that hold numbers are `NUMERIC`: a number is stored
  and read back as it was written.
* The Supabase tables are lists of rows in insertion order.  `insert` appends,
  `update(...).eq('id', i)` rewrites every row whose id is `i`, and
  `select(...).eq('id', i).single()` yields a row only when exactly one row
  matches.  Row ids, which the database draws with `gen_random_uuid()`, are
  taken from the counter `Store.seq`.  The columns the database fills by
  default with `NOW()` (`created_at`, `requested_at`) are not represented:
  a row inserted later has a larger id, and where the order in time of rows of
  two tables matters it is read off their ids.
* Every call to the store may fail.  An operation receives a `Net`, which tells
  for the k-th store call in the text of the operation whether it goes
  through; a failed write leaves the tables as they are and a failed read
  yields no data.  `online` is the `Net` on which every call goes through.
* `new Date().toISOString()` is a parameter `now`; `Math.random()` is a
  parameter giving the successive draws; the index arithmetic on a draw in
  `generateOrderCode` and `generateWaybill` is kept exact.  `Math.round` is
  the nearest integer with halves upwards.  The haversine distance of
  `calcDistance` is not evaluated: `syncSatellite` receives the position
  together with its distance.
* Of the document only the `gi-<item id>` elements that `renderPickerMission`
  writes are represented (`State.gi`), because `markItem` consults them.
  Toasts and the other renderers touch neither the tables nor the fields of
  `State` kept here.
* A JavaScript `TypeError` (reading a property of `null` or `undefined`) ends
  the operation at that point; what was written before it stays written.
-/

namespace Siyathumeka

/-! ## Binary64 numbers -/

/-- The integer nearest to `x`; a half goes to the even neighbour. -/
def roundHalfEven (x : ℚ) : ℤ :=
  if x - ⌊x⌋ < 1 / 2 then ⌊x⌋
  else if 1 / 2 < x - ⌊x⌋ then ⌊x⌋ + 1
  else if ⌊x⌋ % 2 = 0 then ⌊x⌋ else ⌊x⌋ + 1

/-- The exponent of the last binary digit that a binary64 number near `x`
holds: 52 below the leading digit of `x`, and -1074 at the least. -/
def ulpExponent (x : ℚ) : ℤ := max (Int.log 2 |x| - 52) (-1074)

/-- The binary64 number nearest to `x`, a tie going to the even significand:
the value of a decimal literal, and the rounding every operation ends with. -/
def binary64 (x : ℚ) : ℚ := roundHalfEven (x / 2 ^ ulpExponent x) * 2 ^ ulpExponent x

/-- The operator `+` on numbers. -/
def jsAdd (a b : ℚ) : ℚ := binary64 (a + b)

/-- The operator `-` on numbers. -/
def jsSub (a b : ℚ) : ℚ := binary64 (a - b)

/-- The operator `*` on numbers. -/
def jsMul (a b : ℚ) : ℚ := binary64 (a * b)

/-- The operator `/` on numbers, for a divisor other than 0. -/
def jsDiv (a b : ℚ) : ℚ := binary64 (a / b)

/-! ## Constants (`app.js` lines 33-38) -/

def BASE_FEE : ℚ := 20
def PER_KM_FEE : ℚ := 7
def VAT_RATE : ℚ := binary64 0.15
def DRIVER_SHARE : ℚ := binary64 0.70
def MIN_WITHDRAWAL : ℚ := binary64 15.01

/-! ## Tables -/

inductive OrderStatus where
  | pending | gathering | packed | in_transit | delivered | cancelled
  deriving DecidableEq, Repr

inductive ItemStatus where
  | pending | found | missing
  deriving DecidableEq, Repr

inductive TxnType where
  | refund | earning | withdrawal | fee
  deriving DecidableEq, Repr

inductive WithdrawalStatus where
  | pending | approved | rejected | paid
  deriving DecidableEq, Repr

structure Profile where
  id : Nat
  first_name : Option String
  last_name : Option String
  phone : Option String
  email : Option String
  role : String
  wallet_balance : Option ℚ
  deriving DecidableEq

structure Order where
  id : Nat
  order_code : String
  customer_id : Option Nat
  picker_id : Option Nat
  driver_id : Option Nat
  status : OrderStatus
  subtotal : ℚ
  vat : ℚ
  travel_fee : Option ℚ
  total : ℚ
  delivery_address : String
  delivery_lat : Option ℚ
  delivery_lng : Option ℚ
  distance_km : Option ℚ
  waybill : String
  citizen_first_name : Option String
  citizen_last_name : Option String
  citizen_phone : Option String
  citizen_email : Option String
  payment_method : String
  packed_at : Option Nat
  delivered_at : Option Nat
  deriving DecidableEq

structure OrderItem where
  id : Nat
  order_id : Nat
  product_id : Nat
  product_name : String
  store_id : Option String
  store_name : Option String
  quantity : ℤ
  price : ℚ
  status : ItemStatus
  deriving DecidableEq

structure WalletTransaction where
  id : Nat
  user_id : Option Nat
  order_id : Option Nat
  type : TxnType
  amount : ℚ
  description : String
  deriving DecidableEq

structure Withdrawal where
  id : Nat
  user_id : Option Nat
  amount : ℚ
  net_payout : ℚ
  status : WithdrawalStatus
  processed_at : Option Nat
  deriving DecidableEq

/-- The durable store: one list of rows per table, and the id counter. -/
structure Store where
  profiles : List Profile
  orders : List Order
  order_items : List OrderItem
  wallet_transactions : List WalletTransaction
  withdrawals : List Withdrawal
  seq : Nat
  deriving DecidableEq

/-! ## Client state (`State`, `app.js` lines 19-31) -/

/-- A cart entry: the product row with a quantity. -/
structure CartEntry where
  id : Nat
  name : String
  store_id : Option String
  price : ℚ
  quantity : ℤ
  deriving DecidableEq

structure DeliveryInfo where
  address : String
  lat : Option ℚ
  lng : Option ℚ
  distance : Option ℚ
  fee : Option ℚ
  deriving DecidableEq

structure CustomerInfo where
  firstName : String
  lastName : String
  phone : String
  email : String
  deriving DecidableEq

/-- What `State.currentOrder` holds: an order row, with its items when it was
read with `select('*, order_items(*)')`. -/
structure OrderView where
  row : Order
  order_items : Option (List OrderItem)
  deriving DecidableEq

structure State where
  user : Option Nat
  profile : Option Profile
  cart : List CartEntry
  currentOrder : Option OrderView
  deliveryInfo : DeliveryInfo
  customerInfo : CustomerInfo
  gi : List Nat
  deriving DecidableEq

/-- The whole system seen from one browser session. -/
structure App where
  db : Store
  st : State
  deriving DecidableEq

/-- Outcome of the store calls of one operation, by position. -/
abbrev Net := Nat → Bool

/-- Every store call goes through. -/
def online : Net := fun _ => true

/-! ## JavaScript and store primitives -/

/-- The idiom `x || 0` on a number that may be missing. -/
def orZero (x : Option ℚ) : ℚ := x.getD 0

/-- The idiom `a || b` on strings: the empty string is falsy. -/
def orStr (a : String) (b : Option String) : Option String :=
  if a = "" then b else some a

/-- The result of `.single()`: the row when exactly one row was selected. -/
def single {α : Type} : List α → Option α
  | [x] => some x
  | _ => none

def selectProfile (db : Store) (id : Option Nat) : Option Profile :=
  match id with
  | none => none
  | some i => single (db.profiles.filter (fun p => p.id = i))

def selectOrder (db : Store) (id : Nat) : Option Order :=
  single (db.orders.filter (fun o => o.id = id))

/-- The call `from('profiles').update({ wallet_balance: b }).eq('id', id)`. -/
def setWalletBalance (db : Store) (id : Option Nat) (b : ℚ) : Store :=
  match id with
  | none => db
  | some i =>
    { db with
      profiles := db.profiles.map (fun p =>
        if p.id = i then { p with wallet_balance := some b } else p) }

/-- The rows of `select('*, order_items(*)').eq('id', id).single()`. -/
def selectOrderWithItems (db : Store) (id : Nat) : Option OrderView :=
  (selectOrder db id).map (fun o =>
    { row := o, order_items := some (db.order_items.filter (fun i => i.order_id = id)) })

/-- The call `from('wallet_transactions').insert(...)`. -/
def insertTransaction (db : Store) (user : Option Nat) (order : Option Nat)
    (type : TxnType) (amount : ℚ) (description : String) : Store :=
  { db with
    wallet_transactions := db.wallet_transactions ++
      [{ id := db.seq, user_id := user, order_id := order, type := type,
         amount := amount, description := description }]
    seq := db.seq + 1 }

/-! ## Cart (`app.js` lines 150-181) -/

/-- A row of `products`, as far as the cart and the order items use it. -/
structure Product where
  id : Nat
  name : String
  store_id : Option String
  price : ℚ
  deriving DecidableEq

/-- An assignment to `quantity` on the entry that `cart.find(i => i.id === id)`
returns, the first one with this id: the new quantity is `f` of the old one. -/
def setFirstQuantity (cart : List CartEntry) (id : Nat) (f : ℤ → ℤ) : List CartEntry :=
  match cart with
  | [] => []
  | i :: rest =>
    if i.id = id then { i with quantity := f i.quantity } :: rest
    else i :: setFirstQuantity rest id f

/-- The function `addToCart`: one more of a product already in the cart, or a
new entry with quantity 1 at the end. -/
def addToCart (product : Product) (st : State) : State :=
  match st.cart.find? (fun i => i.id = product.id) with
  | some _ => { st with cart := setFirstQuantity st.cart product.id (fun q => q + 1) }
  | none =>
    { st with
      cart := st.cart ++
        [{ id := product.id, name := product.name, store_id := product.store_id,
           price := product.price, quantity := 1 }] }

/-- The function `removeFromCart`. -/
def removeFromCart (productId : Nat) (st : State) : State :=
  { st with cart := st.cart.filter (fun i => i.id ≠ productId) }

/-- The function `updateCartQty`: `Math.max(1, quantity + delta)` on the entry
found, nothing when there is none. -/
def updateCartQty (productId : Nat) (delta : ℤ) (st : State) : State :=
  match st.cart.find? (fun i => i.id = productId) with
  | some _ => { st with cart := setFirstQuantity st.cart productId (fun q => max 1 (q + delta)) }
  | none => st

def getCartTotal (st : State) : ℚ :=
  st.cart.foldl (fun sum i => jsAdd sum (jsMul i.price i.quantity)) 0

/-! ## Orders (`app.js` lines 199-299) -/

/-- The code `'RSA-' + Math.floor(10000 + Math.random() * 90000)`. -/
def generateOrderCode (r : ℚ) : String :=
  "RSA-" ++ toString ⌊10000 + r * 90000⌋

def waybillChars : List Char := "ABCDEFGHJKLMNPQRSTUVWXYZ0123456789".toList

/-- Indexing `chars[i]`: nothing outside the string. -/
def charAt (cs : List Char) (i : ℤ) : Option Char :=
  if i < 0 then none else cs.get? i.toNat

/-- Fourteen characters, the k-th chosen by the k-th draw; `join` writes
nothing for an index outside the alphabet. -/
def generateWaybill (draw : Nat → ℚ) : String :=
  String.mk ((List.range 14).filterMap
    (fun k => charAt waybillChars ⌊draw k * (waybillChars.length : ℚ)⌋))

/-- The row `createOrder` hands to `from('orders').insert`, completed with the
columns the database fills (`id`, and the null `picker_id`, `driver_id`,
`packed_at`, `delivered_at`). -/
def newOrder (st : State) (uid : Nat) (prof : Profile) (id : Nat)
    (rnd : Nat → ℚ) (paymentMethod : String) : Order :=
  let subtotal := getCartTotal st
  let vat := jsMul subtotal VAT_RATE
  let travelFee := orZero st.deliveryInfo.fee
  let total := jsAdd (jsAdd subtotal vat) travelFee
  { id := id
    order_code := generateOrderCode (rnd 0)
    customer_id := some uid
    picker_id := none
    driver_id := none
    status := OrderStatus.pending
    subtotal := subtotal
    vat := vat
    travel_fee := some travelFee
    total := total
    delivery_address := st.deliveryInfo.address
    delivery_lat := st.deliveryInfo.lat
    delivery_lng := st.deliveryInfo.lng
    distance_km := st.deliveryInfo.distance
    waybill := generateWaybill (fun k => rnd (k + 1))
    citizen_first_name := orStr st.customerInfo.firstName prof.first_name
    citizen_last_name := orStr st.customerInfo.lastName prof.last_name
    citizen_phone := orStr st.customerInfo.phone prof.phone
    citizen_email := orStr st.customerInfo.email prof.email
    payment_method := paymentMethod
    packed_at := none
    delivered_at := none }

/-- The rows `createOrder` hands to `from('order_items').insert`, numbered from
`base`. -/
def newItems (cart : List CartEntry) (orderId : Nat) (base : Nat) : List OrderItem :=
  cart.enum.map (fun (k, item) =>
    { id := base + k
      order_id := orderId
      product_id := item.id
      product_name := item.name
      store_id := item.store_id
      store_name := item.store_id.map String.toUpper
      quantity := item.quantity
      price := item.price
      status := ItemStatus.pending })

/-- The function `createOrder`.  Store calls: 0 inserts the order, 1 inserts
the items.  Returns the new state and the order handed back (`null` when the
session is not signed in or the order insert fails). -/
def createOrder (net : Net) (rnd : Nat → ℚ) (paymentMethod : String) (a : App) :
    App × Option Order :=
  match a.st.user, a.st.profile with
  | some uid, some prof =>
    if net 0 then
      let order := newOrder a.st uid prof a.db.seq rnd paymentMethod
      let db1 : Store := { a.db with orders := a.db.orders ++ [order], seq := a.db.seq + 1 }
      let items := newItems a.st.cart order.id db1.seq
      let db2 : Store :=
        if net 1 then
          { db1 with order_items := db1.order_items ++ items, seq := db1.seq + items.length }
        else db1
      ({ db := db2
         st := { a.st with cart := [], currentOrder := some { row := order, order_items := none } } },
       some order)
    else (a, none)
  | _, _ => (a, none)

/-- The function `updateOrderStatus`: one update of the rows with this id, which
sets `status` and the extra columns; the result is `!error`. -/
def updateOrderStatus (ok : Bool) (db : Store) (orderId : Nat) (status : OrderStatus)
    (extraData : Order → Order) : Store × Bool :=
  if ok then
    ({ db with
       orders := db.orders.map (fun o =>
         if o.id = orderId then extraData { o with status := status } else o) },
     true)
  else (db, false)

/-- The function `updateItemStatus`. -/
def updateItemStatus (ok : Bool) (db : Store) (itemId : Nat) (status : ItemStatus) :
    Store × Bool :=
  if ok then
    ({ db with
       order_items := db.order_items.map (fun i =>
         if i.id = itemId then { i with status := status } else i) },
     true)
  else (db, false)

/-! ## Wallet (`app.js` lines 304-338) -/

/-- The balance a session of user `u` reads: `profile?.wallet_balance || 0`. -/
def walletBalance (db : Store) (u : Nat) : ℚ :=
  orZero ((selectProfile db (some u)).bind (fun p => p.wallet_balance))

def transactionsOf (db : Store) (u : Nat) : List WalletTransaction :=
  db.wallet_transactions.filter (fun t => t.user_id = some u)

def withdrawalsOf (db : Store) (u : Nat) : List Withdrawal :=
  db.withdrawals.filter (fun w => w.user_id = some u)

structure Wallet where
  balance : ℚ
  transactions : List WalletTransaction
  withdrawals : List Withdrawal

/-- The function `loadWallet`.  Store calls: 0 reads the profile, 1 the
transactions, 2 the withdrawals, both latest first. -/
def loadWallet (net : Net) (a : App) : Wallet :=
  match a.st.user with
  | none => { balance := 0, transactions := [], withdrawals := [] }
  | some u =>
    { balance := if net 0 then walletBalance a.db u else 0
      transactions := if net 1 then (transactionsOf a.db u).reverse else []
      withdrawals := if net 2 then (withdrawalsOf a.db u).reverse else [] }

/-- The fee of a withdrawal of the whole balance: `balance * 0.03`. -/
def withdrawalFee (balance : ℚ) : ℚ := jsMul balance (binary64 0.03)

/-- The payout of a withdrawal: `balance - fee`. -/
def netPayout (balance : ℚ) : ℚ := jsSub balance (withdrawalFee balance)

/-- The function `requestWithdrawal`.  Store calls: 0 reads the balance of the
signed-in user, 1 inserts the withdrawal, 2 zeroes the balance (made only
when the insert went through). -/
def requestWithdrawal (net : Net) (a : App) : App :=
  match a.st.user with
  | none => a
  | some uid =>
    let profile := if net 0 then selectProfile a.db (some uid) else none
    let balance := orZero (profile.bind (fun p => p.wallet_balance))
    if balance < MIN_WITHDRAWAL then a
    else if net 1 then
      let db1 : Store :=
        { a.db with
          withdrawals := a.db.withdrawals ++
            [{ id := a.db.seq, user_id := some uid, amount := balance,
               net_payout := netPayout balance, status := WithdrawalStatus.pending,
               processed_at := none }]
          seq := a.db.seq + 1 }
      let db2 := if net 2 then setWalletBalance db1 (some uid) 0 else db1
      { a with db := db2 }
    else a

/-- The read-add-write-insert sequence that `markItem` (lines 1257-1260) and
`completeDelivery` (lines 1341-1344) both run: read the balance of `user`, add
`amount` to it (a missing balance counts as 0), write the sum back, and insert
a wallet transaction.  The three flags are the outcomes of the read, the write
and the insert. -/
def creditWallet (okRead okWrite okInsert : Bool) (db : Store) (user : Option Nat)
    (order : Option Nat) (type : TxnType) (amount : ℚ) (description : String) : Store :=
  let profile := if okRead then selectProfile db user else none
  let newBalance := jsAdd (orZero (profile.bind (fun p => p.wallet_balance))) amount
  let db1 := if okWrite then setWalletBalance db user newBalance else db
  if okInsert then insertTransaction db1 user order type amount description else db1

/-! ## Picker (`app.js` lines 1201-1275) -/

/-- The function `renderPickerMission`, as far as the `gi-` elements go: with a
current order the page is rewritten with one element per item of it. -/
def renderPickerMission (st : State) : State :=
  match st.currentOrder with
  | none => st
  | some v => { st with gi := (v.order_items.getD []).map (fun i => i.id) }

/-- The function `secureMission`.  Store calls: 0 updates the order, 1 reads it
back with its items. -/
def secureMission (net : Net) (orderId : Nat) (a : App) : App :=
  match a.st.user with
  | none => a
  | some uid =>
    let db1 := (updateOrderStatus (net 0) a.db orderId OrderStatus.gathering
      (fun o => { o with picker_id := some uid })).1
    let data := if net 1 then selectOrderWithItems db1 orderId else none
    match data with
    | some v => { db := db1, st := renderPickerMission { a.st with currentOrder := some v } }
    | none => { db := db1, st := a.st }

/-- The assignment `item.status = status` on the first item of the current
order with this id. -/
def markLocal (items : List OrderItem) (itemId : Nat) (status : ItemStatus) :
    List OrderItem :=
  match items with
  | [] => []
  | i :: rest =>
    if i.id = itemId then { i with status := status } :: rest
    else i :: markLocal rest itemId status

/-- The function `markItem`.  Store calls: 0 updates the item, 1 reads the
customer of the current order, 2 reads the customer's balance, 3 writes the
new balance, 4 inserts the refund transaction. -/
def markItem (net : Net) (itemId : Nat) (status : ItemStatus) (a : App) : App :=
  let db1 := (updateItemStatus (net 0) a.db itemId status).1
  if itemId ∈ a.st.gi then
    match a.st.currentOrder with
    | none => { a with db := db1 }
    | some v =>
      let item := v.order_items.bind (fun l => l.find? (fun i => i.id = itemId))
      let st1 : State :=
        match item with
        | some _ =>
          { a.st with
            currentOrder := some
              { v with order_items := v.order_items.map (fun l => markLocal l itemId status) } }
        | none => a.st
      if status = ItemStatus.missing then
        let orderData := if net 1 then selectOrder db1 v.row.id else none
        match orderData with
        | some o =>
          match item with
          | some it =>
            let price := jsMul it.price it.quantity
            { db := creditWallet (net 2) (net 3) (net 4) db1 o.customer_id (some v.row.id)
                TxnType.refund price ("Refund: " ++ it.product_name)
              st := st1 }
          | none => { db := db1, st := st1 }
        | none => { db := db1, st := st1 }
      else { db := db1, st := st1 }
  else { a with db := db1 }

/-- The function `finishAndPack`.  Store call 0 updates the order. -/
def finishAndPack (net : Net) (now : Nat) (orderId : Nat) (a : App) : App :=
  { a with
    db := (updateOrderStatus (net 0) a.db orderId OrderStatus.packed
      (fun o => { o with packed_at := some now })).1 }

/-! ## Driver (`app.js` lines 1329-1349) -/

/-- The function `claimDelivery`.  Store call 0 updates the order. -/
def claimDelivery (net : Net) (orderId : Nat) (a : App) : App :=
  match a.st.user with
  | none => a
  | some uid =>
    { a with
      db := (updateOrderStatus (net 0) a.db orderId OrderStatus.in_transit
        (fun o => { o with driver_id := some uid })).1 }

/-- The function `completeDelivery`.  Store calls: 0 reads the order, 1 reads
the driver's balance, 2 writes the new balance, 3 inserts the earning
transaction, 4 updates the order. -/
def completeDelivery (net : Net) (now : Nat) (orderId : Nat) (a : App) : App :=
  let order := if net 0 then selectOrder a.db orderId else none
  let db1 :=
    match order with
    | some o =>
      let driverEarning := jsMul (orZero o.travel_fee) DRIVER_SHARE
      creditWallet (net 1) (net 2) (net 3) a.db o.driver_id (some orderId)
        TxnType.earning driverEarning "Delivery completed"
    | none => a.db
  { a with
    db := (updateOrderStatus (net 4) db1 orderId OrderStatus.delivered
      (fun o => { o with delivered_at := some now })).1 }

/-! ## Admin (`app.js` lines 1521-1530) -/

/-- The update both admin actions make: status and `processed_at` of the
withdrawals with this id. -/
def settleWithdrawal (ok : Bool) (db : Store) (id : Nat) (status : WithdrawalStatus)
    (now : Nat) : Store :=
  if ok then
    { db with
      withdrawals := db.withdrawals.map (fun w =>
        if w.id = id then { w with status := status, processed_at := some now } else w) }
  else db

/-- The function `approveWithdrawal`.  Store call 0 updates the withdrawal. -/
def approveWithdrawal (net : Net) (now : Nat) (id : Nat) (a : App) : App :=
  { a with db := settleWithdrawal (net 0) a.db id WithdrawalStatus.paid now }

/-- The function `rejectWithdrawal`.  Store call 0 updates the withdrawal. -/
def rejectWithdrawal (net : Net) (now : Nat) (id : Nat) (a : App) : App :=
  { a with db := settleWithdrawal (net 0) a.db id WithdrawalStatus.rejected now }

/-! ## Admin figures (`app.js` lines 382-407) -/

structure AdminStats where
  todayProfit : ℚ
  lifetimeRevenue : ℚ
  activeConsignments : Nat
  adminFees : ℚ

/-- The summand of both revenue sums, `o.travel_fee * (1 - DRIVER_SHARE)`; a
null fee multiplies to 0. -/
def platformRevenue (o : Order) : ℚ := jsMul (orZero o.travel_fee) (jsSub 1 DRIVER_SHARE)

/-- The filter `.eq('status', 'delivered').gte('delivered_at', today)`; a null
`delivered_at` does not pass. -/
def deliveredSince (today : Nat) (o : Order) : Bool :=
  decide (o.status = OrderStatus.delivered) &&
    (o.delivered_at.map (fun t => decide (today ≤ t))).getD false

/-- The function `loadAdminStats`; `today` is the start of the current day.
Store calls: 0 reads the orders delivered today, 1 all delivered orders, 2 the
active orders, 3 the paid withdrawals; a failed read counts as no rows. -/
def loadAdminStats (net : Net) (today : Nat) (db : Store) : AdminStats :=
  let todayOrders := if net 0 then db.orders.filter (deliveredSince today) else []
  let allOrders :=
    if net 1 then db.orders.filter (fun o => o.status = OrderStatus.delivered) else []
  let activeOrders :=
    if net 2 then
      db.orders.filter (fun o =>
        o.status ∈ [OrderStatus.pending, OrderStatus.gathering, OrderStatus.packed,
          OrderStatus.in_transit])
    else []
  let withdrawals :=
    if net 3 then db.withdrawals.filter (fun w => w.status = WithdrawalStatus.paid) else []
  { todayProfit := todayOrders.foldl (fun s o => jsAdd s (platformRevenue o)) 0
    lifetimeRevenue := allOrders.foldl (fun s o => jsAdd s (platformRevenue o)) 0
    activeConsignments := activeOrders.length
    adminFees := withdrawals.foldl (fun s w => jsAdd s (jsMul w.amount (binary64 0.03))) 0 }

/-! ## GPS and distance (`app.js` lines 39-41 and 343-377) -/

def HUB_LAT : ℚ := binary64 (-25.1530)
def HUB_LNG : ℚ := binary64 29.0500

/-- The function `Math.round`: the nearest integer, a half going upwards. -/
def mathRound (x : ℚ) : ℤ := ⌊x + 1 / 2⌋

/-- What `getLocation` resolves to, with the value `distance` of
`calcDistance(HUB_LAT, HUB_LNG, lat, lng)` at that position.  The haversine
formula of `calcDistance` (sin, cos, sqrt, atan2) is not evaluated in this
development: its result is taken as given. -/
structure Located where
  lat : ℚ
  lng : ℚ
  distance : ℚ

/-- The function `syncSatellite`: `pos` is the position when `getLocation`
resolves, and `none` when it rejects (the demo distance is then used). -/
def syncSatellite (pos : Option Located) (st : State) : State :=
  match pos with
  | some p =>
    let distance := p.distance
    let fee := jsAdd BASE_FEE (jsMul distance PER_KM_FEE)
    { st with
      deliveryInfo :=
        { st.deliveryInfo with
          lat := some p.lat
          lng := some p.lng
          distance := some (jsDiv (mathRound (jsMul distance 10)) 10)
          fee := some (jsDiv (mathRound (jsMul fee 100)) 100) } }
  | none =>
    let demo : ℚ := binary64 16.1
    let fee := jsAdd BASE_FEE (jsMul demo PER_KM_FEE)
    { st with
      deliveryInfo :=
        { st.deliveryInfo with
          lat := some (binary64 (-25.1))
          lng := some (binary64 29.1)
          distance := some demo
          fee := some (jsDiv (mathRound (jsMul fee 100)) 100) } }

/-! ## Sequences of calls

The durable store is shared by all sessions; a call comes with the `State` of
the session that makes it, and only the store is threaded from one call to the
next.  In a sequence every store call goes through. -/

/-- The order pipeline of the picker and driver pages. -/
def pipeline : List OrderStatus :=
  [OrderStatus.pending, OrderStatus.gathering, OrderStatus.packed,
   OrderStatus.in_transit, OrderStatus.delivered]

/-- A call of one of the four operations that move an order. -/
inductive OrderCall where
  | secureMission (st : State)
  | finishAndPack (st : State) (now : Nat)
  | claimDelivery (st : State)
  | completeDelivery (st : State) (now : Nat)

namespace OrderCall

/-- The session that makes the call. -/
def session : OrderCall → State
  | secureMission st => st
  | finishAndPack st _ => st
  | claimDelivery st => st
  | completeDelivery st _ => st

/-- The status the call writes. -/
def target : OrderCall → OrderStatus
  | secureMission _ => OrderStatus.gathering
  | finishAndPack _ _ => OrderStatus.packed
  | claimDelivery _ => OrderStatus.in_transit
  | completeDelivery _ _ => OrderStatus.delivered

/-- The store after the call is made on order `orderId`. -/
def run (orderId : Nat) : OrderCall → Store → Store
  | secureMission st, db => (Siyathumeka.secureMission online orderId ⟨db, st⟩).db
  | finishAndPack st now, db => (Siyathumeka.finishAndPack online now orderId ⟨db, st⟩).db
  | claimDelivery st, db => (Siyathumeka.claimDelivery online orderId ⟨db, st⟩).db
  | completeDelivery st now, db =>
    (Siyathumeka.completeDelivery online now orderId ⟨db, st⟩).db

end OrderCall

/-- The status of the order with this id, as a session reads it. -/
def orderStatus (db : Store) (orderId : Nat) : Option OrderStatus :=
  (selectOrder db orderId).map (fun o => o.status)

/-- The status of the order after each call of a sequence, in call order. -/
def statusTrace (orderId : Nat) : List OrderCall → Store → List (Option OrderStatus)
  | [], _ => []
  | c :: cs, db =>
    orderStatus (c.run orderId db) orderId :: statusTrace orderId cs (c.run orderId db)

/-- A call of one of the five operations that touch wallets or withdrawals. -/
inductive WalletCall where
  | markItem (st : State) (itemId : Nat) (status : ItemStatus)
  | completeDelivery (st : State) (now : Nat) (orderId : Nat)
  | requestWithdrawal (st : State)
  | approveWithdrawal (st : State) (now : Nat) (id : Nat)
  | rejectWithdrawal (st : State) (now : Nat) (id : Nat)

/-- The store after the call. -/
def WalletCall.run : WalletCall → Store → Store
  | WalletCall.markItem st itemId status, db =>
    (Siyathumeka.markItem online itemId status ⟨db, st⟩).db
  | WalletCall.completeDelivery st now orderId, db =>
    (Siyathumeka.completeDelivery online now orderId ⟨db, st⟩).db
  | WalletCall.requestWithdrawal st, db => (Siyathumeka.requestWithdrawal online ⟨db, st⟩).db
  | WalletCall.approveWithdrawal st now id, db =>
    (Siyathumeka.approveWithdrawal online now id ⟨db, st⟩).db
  | WalletCall.rejectWithdrawal st now id, db =>
    (Siyathumeka.rejectWithdrawal online now id ⟨db, st⟩).db

/-- The store after a sequence of calls. -/
def runCalls (cs : List WalletCall) (db : Store) : Store :=
  cs.foldl (fun d c => c.run d) db

/-- A store with zero balances, no wallet transactions and no withdrawals, in
which profile ids are unique (`id` is the primary key of `profiles`). -/
def Fresh (db : Store) : Prop :=
  (db.profiles.map (fun p => p.id)).Nodup ∧
  (∀ p ∈ db.profiles, orZero p.wallet_balance = 0) ∧
  db.wallet_transactions = [] ∧ db.withdrawals = []

/-- The sum of the amounts of the wallet transactions of user `u`. -/
def transactionSum (db : Store) (u : Nat) : ℚ :=
  ((transactionsOf db u).map (fun t => t.amount)).sum

/-- One past the id of the latest withdrawal request of user `u`, and 0 when
`u` has made none.  Ids are drawn from `Store.seq`, so a row inserted later has
a larger id, and the rows of `u` with an id from this one on are those
inserted after the latest withdrawal request of `u`. -/
def sinceWithdrawal (db : Store) (u : Nat) : Nat :=
  ((withdrawalsOf db u).map (fun w => w.id + 1)).foldl max 0

/-- The amounts of the wallet transactions of user `u` inserted after the latest
withdrawal request of `u`, in insertion order. -/
def creditsSinceWithdrawal (db : Store) (u : Nat) : List ℚ :=
  ((transactionsOf db u).filter (fun t => sinceWithdrawal db u ≤ t.id)).map
    (fun t => t.amount)

/-- The ledger invariant the operations keep: profile ids are unique, the ids
of the wallet transactions and of the withdrawals lie below the counter, and
every stored balance is the sum of the amounts credited to the user since the
user's latest withdrawal request, added one after the other in binary64. -/
def Ledger (db : Store) : Prop :=
  (db.profiles.map (fun p => p.id)).Nodup ∧
  (∀ t ∈ db.wallet_transactions, t.id < db.seq) ∧
  (∀ w ∈ db.withdrawals, w.id < db.seq) ∧
  ∀ p ∈ db.profiles,
    orZero p.wallet_balance = (creditsSinceWithdrawal db p.id).foldl jsAdd 0

instance (db : Store) : Decidable (Fresh db) := by
  unfold Fresh; infer_instance

/-- A call of one of the three cart operations. -/
inductive CartCall where
  | addToCart (product : Product)
  | updateCartQty (productId : Nat) (delta : ℤ)
  | removeFromCart (productId : Nat)

/-- The session after the call. -/
def CartCall.run : CartCall → State → State
  | CartCall.addToCart product, st => Siyathumeka.addToCart product st
  | CartCall.updateCartQty productId delta, st => Siyathumeka.updateCartQty productId delta st
  | CartCall.removeFromCart productId, st => Siyathumeka.removeFromCart productId st

/-- The session after a sequence of cart calls. -/
def runCart (cs : List CartCall) (st : State) : State :=
  cs.foldl (fun s c => c.run s) st

/-- The sum of the amounts of the wallet transactions of type earning. -/
def earningSum (db : Store) : ℚ :=
  ((db.wallet_transactions.filter (fun t => t.type = TxnType.earning)).map
    (fun t => t.amount)).sum

/-- The sum of the travel fees of the delivered orders. -/
def deliveredFeeSum (db : Store) : ℚ :=
  ((db.orders.filter (fun o => o.status = OrderStatus.delivered)).map
    (fun o => orZero o.travel_fee)).sum

/-- In a sequence of calls, every `completeDelivery` names an order that is read
and is not delivered yet: each order is delivered at most once. -/
def DeliversOnce : List WalletCall → Store → Prop
  | [], _ => True
  | c :: cs, db =>
    (match c with
      | WalletCall.completeDelivery _ _ orderId =>
        ∃ o, selectOrder db orderId = some o ∧ o.status ≠ OrderStatus.delivered
      | _ => True) ∧
    DeliversOnce cs (c.run db)

/-- The sum of the platform revenues of the delivered orders. -/
def deliveredRevenueSum (db : Store) : ℚ :=
  ((db.orders.filter (fun o => o.status = OrderStatus.delivered)).map platformRevenue).sum

/-- The travel fees of the delivered orders are accounted for up to rounding: no
fee is negative, and what the drivers earned plus what the platform keeps
differs from what the customers paid by at most a part in `2 ^ 53` of it and
`2 ^ -1074` for each delivered order. -/
def SplitOk (db : Store) : Prop :=
  (∀ o ∈ db.orders, 0 ≤ orZero o.travel_fee) ∧
  |earningSum db + deliveredRevenueSum db - deliveredFeeSum db| ≤
    deliveredFeeSum db / 2 ^ 53 +
      ((db.orders.filter (fun o => o.status = OrderStatus.delivered)).length : ℚ) / 2 ^ 1074

/-- Every withdrawal carries the payout that `requestWithdrawal` computes from
its amount. -/
def PayoutsAsRequested (db : Store) : Prop :=
  ∀ w ∈ db.withdrawals, w.net_payout = netPayout w.amount

/-- The columns of a withdrawal that the admin actions do not write. -/
def frozenWithdrawalColumns (w : Withdrawal) : Nat × Option Nat × ℚ × ℚ :=
  (w.id, w.user_id, w.amount, w.net_payout)

/-- What an admin action naming withdrawal `id` may do to a row: keep the
frozen columns, and keep the whole row when it is another withdrawal. -/
def SettleFrameOk (id : Nat) (w w' : Withdrawal) : Prop :=
  frozenWithdrawalColumns w' = frozenWithdrawalColumns w ∧ (w.id ≠ id → w' = w)

/-- No stored balance is negative and no order has a negative travel fee. -/
def NonNegative (db : Store) : Prop :=
  (∀ p ∈ db.profiles, 0 ≤ orZero p.wallet_balance) ∧
  ∀ o ∈ db.orders, 0 ≤ orZero o.travel_fee

/-- The items a `markItem` call may refund, those of the current order of its
session, have non-negative price and quantity. -/
def WalletCall.NonNegativeItems : WalletCall → Prop
  | WalletCall.markItem st _ _ =>
    ∀ v items, st.currentOrder = some v → v.order_items = some items →
      ∀ i ∈ items, 0 ≤ i.price ∧ 0 ≤ i.quantity
  | _ => True

/-! ## Sample data -/

def sampleProfile (id : Nat) (role : String) (balance : Option ℚ) : Profile :=
  { id := id, first_name := some "Thandi", last_name := some "Mahlangu",
    phone := none, email := none, role := role, wallet_balance := balance }

def sampleOrder (id : Nat) (customer picker driver : Option Nat) (status : OrderStatus)
    (fee : ℚ) : Order :=
  { id := id, order_code := "RSA-12345", customer_id := customer, picker_id := picker,
    driver_id := driver, status := status, subtotal := 200, vat := 30,
    travel_fee := some fee, total := jsAdd 230 fee, delivery_address := "Siyabuswa",
    delivery_lat := none, delivery_lng := none, distance_km := none,
    waybill := "ABCDEFGHJKLMNP", citizen_first_name := none, citizen_last_name := none,
    citizen_phone := none, citizen_email := none, payment_method := "card",
    packed_at := none, delivered_at := none }

def sampleItem (id orderId : Nat) (price : ℚ) (quantity : ℤ) (status : ItemStatus) :
    OrderItem :=
  { id := id, order_id := orderId, product_id := 1, product_name := "FULL CREAM MILK 2L",
    store_id := some "shoprite", store_name := some "SHOPRITE", quantity := quantity,
    price := price, status := status }

/-- A session of user `user` with an empty cart and no current order. -/
def sampleSession (user : Option Nat) : State :=
  { user := user, profile := none, cart := [], currentOrder := none,
    deliveryInfo := { address := "", lat := none, lng := none, distance := none, fee := none },
    customerInfo := { firstName := "", lastName := "", phone := "", email := "" },
    gi := [] }

/-- A store with the given profiles and orders and nothing else. -/
def sampleStore (profiles : List Profile) (orders : List Order) (items : List OrderItem) :
    Store :=
  { profiles := profiles, orders := orders, order_items := items,
    wallet_transactions := [], withdrawals := [], seq := 100 }

/-- A picker session on the mission page of an order with one item. -/
def pickerOnMission (user : Nat) (o : Order) (item : OrderItem) : State :=
  { sampleSession (some user) with
    currentOrder := some { row := o, order_items := some [item] }
    gi := [item.id] }

def sampleCart : List CartEntry :=
  [{ id := 1, name := "FULL CREAM MILK 2L", store_id := some "shoprite", price := 32.5,
     quantity := 2 },
   { id := 2, name := "COCA COLA 2L", store_id := some "spar", price := binary64 28.99,
     quantity := 1 }]

/-- A signed-in customer at checkout with two cart entries and no stored fee. -/
def checkoutApp : App :=
  { db := sampleStore [sampleProfile 1 "customer" none] [] []
    st := { sampleSession (some 1) with
      profile := some (sampleProfile 1 "customer" none)
      cart := sampleCart } }

def ledgerOrder : Order :=
  sampleOrder 10 (some 1) (some 2) none OrderStatus.gathering (binary64 132.7)

def ledgerItem : OrderItem := sampleItem 20 10 20 1 ItemStatus.pending

/-- A customer (1) and a picker (2), one order of the customer being gathered,
with one pending item of price 20. -/
def ledgerStore : Store :=
  sampleStore [sampleProfile 1 "customer" (some 0), sampleProfile 2 "picker" none]
    [ledgerOrder] [ledgerItem]

/-- The picker marks the item missing, then the customer withdraws. -/
def ledgerCalls : List WalletCall :=
  [WalletCall.markItem (pickerOnMission 2 ledgerOrder ledgerItem) 20 ItemStatus.missing,
   WalletCall.requestWithdrawal (sampleSession (some 1))]

/-- The picker of `ledgerStore` on the mission page of the order. -/
def ledgerApp : App :=
  { db := ledgerStore, st := pickerOnMission 2 ledgerOrder ledgerItem }

/-- One order, with picker 2 and driver 4, in the given status. -/
def storeWithOrder (status : OrderStatus) (picker driver : Option Nat) : Store :=
  sampleStore [sampleProfile 2 "picker" none, sampleProfile 3 "picker" none,
      sampleProfile 4 "driver" none, sampleProfile 5 "driver" none]
    [sampleOrder 10 (some 1) picker driver status (binary64 132.7)] []

/-- One user (1) with the given balance, signed in. -/
def walletApp (balance : Option ℚ) : App :=
  { db := sampleStore [sampleProfile 1 "driver" balance] [] []
    st := sampleSession (some 1) }

/-- The columns of an order that no picker or driver operation writes. -/
def frozenColumns (o : Order) :
    Nat × ℚ × ℚ × Option ℚ × ℚ × String × String × Option Nat :=
  (o.id, o.subtotal, o.vat, o.travel_fee, o.total, o.order_code, o.waybill, o.customer_id)

/-- What an operation naming order `orderId` may do to a row: keep the frozen
columns, and keep the whole row when it is another order. -/
def FrameOk (orderId : Nat) (o o' : Order) : Prop :=
  frozenColumns o' = frozenColumns o ∧ (o.id ≠ orderId → o' = o)

/-- A customer (1) at checkout with a cart worth 200 and a stored travel fee of
132.70; a picker (2) and a driver (4) with empty wallets. -/
def endToEndApp : App :=
  { db := sampleStore [sampleProfile 1 "customer" none, sampleProfile 2 "picker" none,
      sampleProfile 4 "driver" none] [] []
    st := { sampleSession (some 1) with
      profile := some (sampleProfile 1 "customer" none)
      cart := [{ id := 7, name := "FRESH CHICKEN BRAAI PACK 1KG", store_id := some "roots",
                 price := 75, quantity := 2 },
               { id := 8, name := "FULL CREAM MILK 2L", store_id := some "shoprite",
                 price := 25, quantity := 2 }]
      deliveryInfo := { address := "45 MATHE STREET", lat := none, lng := none,
                        distance := some (binary64 16.1), fee := some (binary64 132.7) } } }

/-- The store after the customer of `endToEndApp` has paid, picker 2 has secured
and packed the new order (id 100), and driver 4 has claimed it. -/
def endToEndInTransit : Store :=
  (claimDelivery online 100
    ⟨(finishAndPack online 8 100
        (secureMission online 100
          ⟨(createOrder online (fun _ => 0) "card" endToEndApp).1.db,
           sampleSession (some 2)⟩)).db,
     sampleSession (some 4)⟩).db

/-- The order of `endToEndInTransit`, as the driver reads it. -/
def endToEndOrder : Order :=
  { newOrder endToEndApp.st 1 (sampleProfile 1 "customer" none) 100 (fun _ => 0) "card" with
    status := OrderStatus.in_transit
    picker_id := some 2
    driver_id := some 4
    packed_at := some 8 }

/-- The store after driver 4 has completed the delivery at time 9. -/
def endToEndDelivered : Store :=
  (completeDelivery online 9 100 ⟨endToEndInTransit, sampleSession (some 4)⟩).db

/-- User 1 with an empty wallet and a pending withdrawal of 50. -/
def pendingWithdrawalStore : Store :=
  { sampleStore [sampleProfile 1 "driver" (some 0)] [] [] with
    withdrawals := [{ id := 30, user_id := some 1, amount := 50, net_payout := 48.5,
                      status := WithdrawalStatus.pending, processed_at := none }] }

/-- User 1 with an empty wallet and a withdrawal of 50 already paid at time 3. -/
def paidWithdrawalStore : Store :=
  { sampleStore [sampleProfile 1 "driver" (some 0)] [] [] with
    withdrawals := [{ id := 30, user_id := some 1, amount := 50, net_payout := 48.5,
                      status := WithdrawalStatus.paid, processed_at := some 3 }] }

/-- User 1 requests the withdrawal of a balance of 50 and the admin approves it
(the withdrawal gets id 100). -/
def settledCalls : List WalletCall :=
  [WalletCall.requestWithdrawal (sampleSession (some 1)),
   WalletCall.approveWithdrawal (sampleSession (some 9)) 5 100]

/-- Only the first store call of an operation goes through. -/
def firstCallOnly : Net := fun k => decide (k = 0)

/-- A signed-in customer at checkout with three of one product at 40.62 and a
stored travel fee of 132.70. -/
def roundingApp : App :=
  { db := sampleStore [sampleProfile 1 "customer" none] [] []
    st := { sampleSession (some 1) with
      profile := some (sampleProfile 1 "customer" none)
      cart := [{ id := 1, name := "FULL CREAM MILK 2L", store_id := some "shoprite",
                 price := binary64 40.62, quantity := 3 }]
      deliveryInfo := { address := "45 MATHE STREET", lat := none, lng := none,
                        distance := some (binary64 16.1), fee := some (binary64 132.7) } } }

/-- The read and the insert go through; the third store call fails. -/
def zeroingFails : Net := fun k => decide (k ≠ 2)

/-- A position north of the hub, with the distance 16.14 that the haversine
formula of `calcDistance` gives for it. -/
def north16_14 : Located :=
  { lat := binary64 (-25.00784954), lng := binary64 29.050129235791427,
    distance := binary64 16.14 }

/-- A position north of the hub, with the distance 1.8499999999999999 that the
haversine formula of `calcDistance` gives for it. -/
def north1_85 : Located :=
  { lat := binary64 (-25.136362556), lng := binary64 29.050015226311828,
    distance := binary64 1.8499999999999999 }

/-- A position north of the hub, with the distance 1.0007142857142857 that the
haversine formula of `calcDistance` gives for it. -/
def north1_0007 : Located :=
  { lat := binary64 (-25.144000361), lng := binary64 29.05000415238971,
    distance := binary64 1.0007142857142857 }

/-- The hub itself, for which `calcDistance` returns 0. -/
def atHub : Located := { lat := HUB_LAT, lng := HUB_LNG, distance := 0 }

/-- A position north of the hub, with the distance 16.1 that the haversine
formula of `calcDistance` gives for it. -/
def north16_1 : Located :=
  { lat := binary64 (-25.008209268), lng := binary64 29.05012819431801,
    distance := binary64 16.1 }

/-- User 1 with a balance of 40.62, signed in. -/
def roundingWalletApp : App := walletApp (some (binary64 40.62))

/-- One order in transit with driver 4 and a travel fee of 27.70, which is the
fee stored for a distance of 1.1. -/
def feeSplitStore : Store :=
  sampleStore [sampleProfile 4 "driver" none]
    [sampleOrder 10 (some 1) (some 2) (some 4) OrderStatus.in_transit (binary64 27.7)] []

/-! ## Rounding to binary64 -/

theorem roundHalfEven_eq_of_abs_lt (x : ℚ) (m : ℤ) (h : |x - m| < 1 / 2) :
    roundHalfEven x = m := by
  rw [abs_lt] at h
  obtain ⟨h1, h2⟩ := h
  unfold roundHalfEven
  by_cases hx : (m : ℚ) ≤ x
  · have hf : ⌊x⌋ = m := by
      rw [Int.floor_eq_iff]; constructor <;> linarith
    rw [hf, if_pos (by linarith)]
  · push_neg at hx
    have hf : ⌊x⌋ = m - 1 := by
      rw [Int.floor_eq_iff]; push_cast; constructor <;> linarith
    rw [hf]
    push_cast
    rw [if_neg (by linarith), if_pos (by linarith)]
    ring

theorem roundHalfEven_intCast (n : ℤ) : roundHalfEven n = n :=
  roundHalfEven_eq_of_abs_lt _ n (by simp)

theorem roundHalfEven_half_even (m : ℤ) (hm : m % 2 = 0) :
    roundHalfEven (m + 1 / 2) = m ∧ roundHalfEven (m - 1 / 2) = m := by
  constructor
  · have hf : ⌊(m : ℚ) + 1 / 2⌋ = m := by
      rw [Int.floor_eq_iff]; constructor <;> linarith
    unfold roundHalfEven
    rw [hf, if_neg (by linarith), if_neg (by linarith), if_pos hm]
  · have hf : ⌊(m : ℚ) - 1 / 2⌋ = m - 1 := by
      rw [Int.floor_eq_iff]; push_cast; constructor <;> linarith
    unfold roundHalfEven
    rw [hf]
    push_cast
    rw [if_neg (by linarith), if_neg (by linarith), if_neg (by omega)]
    ring

theorem abs_roundHalfEven_sub_le (x : ℚ) : |(roundHalfEven x : ℚ) - x| ≤ 1 / 2 := by
  have h1 := Int.floor_le x
  have h2 := Int.lt_floor_add_one x
  unfold roundHalfEven
  rw [abs_le]
  split_ifs with ha hb hc
  · constructor <;> linarith
  · push_cast; constructor <;> linarith
  · constructor <;> linarith
  · push_cast; constructor <;> linarith

theorem roundHalfEven_mono {x y : ℚ} (h : x ≤ y) : roundHalfEven x ≤ roundHalfEven y := by
  have hx1 := Int.floor_le x
  have hx2 := Int.lt_floor_add_one x
  have hy1 := Int.floor_le y
  have hy2 := Int.lt_floor_add_one y
  have hfl : ⌊x⌋ ≤ ⌊y⌋ := Int.floor_mono h
  have hxle : roundHalfEven x ≤ ⌊x⌋ + 1 := by
    unfold roundHalfEven; split_ifs <;> omega
  have hyge : ⌊y⌋ ≤ roundHalfEven y := by
    unfold roundHalfEven; split_ifs <;> omega
  rcases hfl.lt_or_eq with hlt | heq
  · omega
  · unfold roundHalfEven
    rw [← heq]
    have hy1' : (⌊x⌋ : ℚ) ≤ y := by rw [heq]; exact hy1
    split_ifs <;> first | omega | (exfalso; linarith)

theorem roundHalfEven_nonneg {x : ℚ} (h : 0 ≤ x) : 0 ≤ roundHalfEven x := by
  have := roundHalfEven_mono h
  rwa [show ((0 : ℚ) = ((0 : ℤ) : ℚ)) by simp, roundHalfEven_intCast] at this

theorem log_eq_of_bounds (x : ℚ) (k : ℤ) (hlo : (2 : ℚ) ^ k ≤ x) (hhi : x < 2 ^ (k + 1)) :
    Int.log 2 x = k := by
  have hx : 0 < x := lt_of_lt_of_le (by positivity) hlo
  apply le_antisymm
  · have := (Int.lt_zpow_iff_log_lt (b := 2) (by norm_num) hx (x := k + 1)).mp
      (by simpa using hhi)
    omega
  · exact (Int.zpow_le_iff_le_log (b := 2) (by norm_num) hx).mp (by simpa using hlo)

theorem ulpExponent_eq (x : ℚ) (k : ℤ) (hlo : (2 : ℚ) ^ k ≤ x) (hhi : x < 2 ^ (k + 1))
    (hk : -1022 ≤ k) : ulpExponent x = k - 52 := by
  have hx : 0 < x := lt_of_lt_of_le (by positivity) hlo
  unfold ulpExponent
  rw [abs_of_pos hx, log_eq_of_bounds x k hlo hhi]
  omega

/-- Evaluation of `binary64` at a positive number in the normal range. -/
theorem binary64_eq (x : ℚ) (k m : ℤ) (hlo : (2 : ℚ) ^ k ≤ x) (hhi : x < 2 ^ (k + 1))
    (hk : -1022 ≤ k) (hm : |x / 2 ^ (k - 52) - m| < 1 / 2) :
    binary64 x = m * 2 ^ (k - 52) := by
  unfold binary64
  rw [ulpExponent_eq x k hlo hhi hk, roundHalfEven_eq_of_abs_lt _ m hm]

theorem binary64_zero : binary64 0 = 0 := by
  unfold binary64
  rw [zero_div, show ((0 : ℚ) = ((0 : ℤ) : ℚ)) by simp, roundHalfEven_intCast]
  simp

theorem binary64_nonneg {x : ℚ} (h : 0 ≤ x) : 0 ≤ binary64 x := by
  unfold binary64
  have h2 : (0 : ℚ) < 2 ^ ulpExponent x := by positivity
  have : 0 ≤ roundHalfEven (x / 2 ^ ulpExponent x) :=
    roundHalfEven_nonneg (div_nonneg h h2.le)
  have : (0 : ℚ) ≤ (roundHalfEven (x / 2 ^ ulpExponent x) : ℚ) := by exact_mod_cast this
  positivity

theorem ulpExponent_ge (x : ℚ) : -1074 ≤ ulpExponent x := le_max_right _ _

theorem ulpExponent_mono {x y : ℚ} (hx : 0 < x) (h : x ≤ y) : ulpExponent x ≤ ulpExponent y := by
  unfold ulpExponent
  rw [abs_of_pos hx, abs_of_pos (lt_of_lt_of_le hx h)]
  have := Int.log_mono_right (b := 2) hx h
  exact max_le_max (by omega) le_rfl

/-- The quotient by the unit in the last place stays below `2 ^ 53`. -/
theorem div_ulp_lt {x : ℚ} (hx : 0 < x) : x / 2 ^ ulpExponent x < 2 ^ (53 : ℤ) := by
  have h2 : (0 : ℚ) < 2 ^ ulpExponent x := by positivity
  rw [div_lt_iff₀ h2, ← zpow_add₀ (by norm_num : (2 : ℚ) ≠ 0)]
  have h1 : x < (2 : ℚ) ^ (Int.log 2 x + 1) := by
    simpa using Int.lt_zpow_succ_log_self (b := 2) (by norm_num) x
  refine lt_of_lt_of_le h1 (zpow_le_zpow_right₀ (by norm_num) ?_)
  have : Int.log 2 x - 52 ≤ ulpExponent x := by
    unfold ulpExponent; rw [abs_of_pos hx]; exact le_max_left _ _
  omega

/-- In the normal range the quotient by the unit in the last place reaches
`2 ^ 52`. -/
theorem le_div_ulp {x : ℚ} (hx : 0 < x) (h : -1074 < ulpExponent x) :
    (2 : ℚ) ^ (52 : ℤ) ≤ x / 2 ^ ulpExponent x := by
  have h2 : (0 : ℚ) < 2 ^ ulpExponent x := by positivity
  rw [le_div_iff₀ h2, ← zpow_add₀ (by norm_num : (2 : ℚ) ≠ 0)]
  have he : ulpExponent x = Int.log 2 x - 52 := by
    unfold ulpExponent at h ⊢
    rw [abs_of_pos hx] at h ⊢
    rcases max_cases (Int.log 2 x - 52) (-1074) with ⟨h1, _⟩ | ⟨h1, _⟩
    · exact h1
    · rw [h1] at h; omega
  have h1 : (2 : ℚ) ^ Int.log 2 x ≤ x := by
    simpa using Int.zpow_log_le_self (b := 2) (by norm_num) hx
  refine le_trans (le_of_eq ?_) h1
  rw [he]; congr 1; ring

theorem roundHalfEven_div_ulp_le {x : ℚ} (hx : 0 < x) :
    roundHalfEven (x / 2 ^ ulpExponent x) ≤ 2 ^ 53 := by
  have := roundHalfEven_mono (div_ulp_lt hx).le
  rwa [show ((2 : ℚ) ^ (53 : ℤ) = (((2 ^ 53 : ℤ)) : ℚ)) by norm_num, roundHalfEven_intCast]
    at this

theorem le_roundHalfEven_div_ulp {x : ℚ} (hx : 0 < x) (h : -1074 < ulpExponent x) :
    2 ^ 52 ≤ roundHalfEven (x / 2 ^ ulpExponent x) := by
  have := roundHalfEven_mono (le_div_ulp hx h)
  rwa [show ((2 : ℚ) ^ (52 : ℤ) = (((2 ^ 52 : ℤ)) : ℚ)) by norm_num, roundHalfEven_intCast]
    at this

/-- Rounding to binary64 keeps the order of non-negative numbers. -/
theorem binary64_mono {x y : ℚ} (hx : 0 ≤ x) (h : x ≤ y) : binary64 x ≤ binary64 y := by
  rcases hx.lt_or_eq with hx | hx
  · have hy : 0 < y := lt_of_lt_of_le hx h
    rcases (ulpExponent_mono hx h).lt_or_eq with hlt | heq
    · have h1 : binary64 x ≤ 2 ^ (ulpExponent x + 53) := by
        unfold binary64
        rw [zpow_add₀ (by norm_num : (2 : ℚ) ≠ 0), mul_comm ((2 : ℚ) ^ ulpExponent x)]
        have : (roundHalfEven (x / 2 ^ ulpExponent x) : ℚ) ≤ 2 ^ (53 : ℤ) := by
          have := roundHalfEven_div_ulp_le hx
          exact_mod_cast this
        exact mul_le_mul_of_nonneg_right this (by positivity)
      have h2 : (2 : ℚ) ^ (ulpExponent y + 52) ≤ binary64 y := by
        unfold binary64
        rw [zpow_add₀ (by norm_num : (2 : ℚ) ≠ 0), mul_comm ((2 : ℚ) ^ ulpExponent y)]
        have : (2 : ℚ) ^ (52 : ℤ) ≤ (roundHalfEven (y / 2 ^ ulpExponent y) : ℚ) := by
          have := le_roundHalfEven_div_ulp hy (lt_of_le_of_lt (ulpExponent_ge x) hlt)
          exact_mod_cast this
        exact mul_le_mul_of_nonneg_right this (by positivity)
      refine le_trans h1 (le_trans (zpow_le_zpow_right₀ (by norm_num) ?_) h2)
      omega
    · unfold binary64
      rw [← heq]
      have h2 : (0 : ℚ) < 2 ^ ulpExponent x := by positivity
      have : roundHalfEven (x / 2 ^ ulpExponent x) ≤ roundHalfEven (y / 2 ^ ulpExponent x) :=
        roundHalfEven_mono (div_le_div_of_nonneg_right h h2.le)
      have : (roundHalfEven (x / 2 ^ ulpExponent x) : ℚ) ≤
          (roundHalfEven (y / 2 ^ ulpExponent x) : ℚ) := by exact_mod_cast this
      exact mul_le_mul_of_nonneg_right this h2.le
  · rw [← hx, binary64_zero]
    exact binary64_nonneg (hx ▸ h)

theorem binary64_of_scaled (m e : ℤ) (hm0 : 0 ≤ m) (hm53 : m ≤ 2 ^ 53) (he : -1074 ≤ e)
    (hlow : -1074 < e → 2 ^ 52 ≤ m) :
    binary64 ((m : ℚ) * 2 ^ e) = (m : ℚ) * 2 ^ e := by
  have h2 : (0 : ℚ) < 2 ^ e := by positivity
  rcases hm0.lt_or_eq with hpos | hzero
  swap
  · rw [← hzero]; simp [binary64_zero]
  rcases hm53.lt_or_eq with hlt | heq
  · have hy : (0 : ℚ) < (m : ℚ) * 2 ^ e := by
      have : (0 : ℚ) < m := by exact_mod_cast hpos
      positivity
    have hup : Int.log 2 ((m : ℚ) * 2 ^ e) < e + 53 := by
      apply (Int.lt_zpow_iff_log_lt (b := 2) (by norm_num) hy).mp
      rw [add_comm, zpow_add₀ (by norm_num : ((2 : ℕ) : ℚ) ≠ 0)]
      have : (m : ℚ) < ((2 : ℕ) : ℚ) ^ (53 : ℤ) := by
        have : (m : ℚ) < ((2 ^ 53 : ℤ) : ℚ) := by exact_mod_cast hlt
        norm_num at this ⊢
        exact this
      simpa using mul_lt_mul_of_pos_right this h2
    have hu : ulpExponent ((m : ℚ) * 2 ^ e) = e := by
      unfold ulpExponent
      rw [abs_of_pos hy]
      rcases he.lt_or_eq with hn | hs
      · have hlo : e + 52 ≤ Int.log 2 ((m : ℚ) * 2 ^ e) := by
          apply (Int.zpow_le_iff_le_log (b := 2) (by norm_num) hy).mp
          rw [add_comm, zpow_add₀ (by norm_num : ((2 : ℕ) : ℚ) ≠ 0)]
          have : ((2 : ℕ) : ℚ) ^ (52 : ℤ) ≤ (m : ℚ) := by
            have : ((2 ^ 52 : ℤ) : ℚ) ≤ (m : ℚ) := by exact_mod_cast hlow hn
            norm_num at this ⊢
            exact this
          simpa using mul_le_mul_of_nonneg_right this h2.le
        rw [max_eq_left (by omega)]
        omega
      · rw [max_eq_right (by omega)]
        exact hs
    unfold binary64
    rw [hu, mul_div_assoc, div_self h2.ne', mul_one, roundHalfEven_intCast]
  · subst heq
    rw [binary64_eq _ (e + 53) (2 ^ 52)]
    · push_cast
      rw [show e + 53 - 52 = e + 1 by ring, zpow_add₀ (by norm_num : (2 : ℚ) ≠ 0)]
      ring
    · push_cast
      rw [add_comm, zpow_add₀ (by norm_num : (2 : ℚ) ≠ 0)]
      norm_num
    · push_cast
      rw [show e + 53 + 1 = 54 + e by ring, zpow_add₀ (by norm_num : (2 : ℚ) ≠ 0)]
      have : (2 : ℚ) ^ 53 < 2 ^ (54 : ℤ) := by norm_num
      exact mul_lt_mul_of_pos_right this h2
    · omega
    · push_cast
      rw [show e + 53 - 52 = e + 1 by ring, zpow_add₀ (by norm_num : (2 : ℚ) ≠ 0)]
      have : (9007199254740992 : ℚ) * 2 ^ e / (2 ^ e * 2 ^ (1 : ℤ)) - 4503599627370496 = 0 := by
        field_simp
        ring
      rw [this]; norm_num

/-- A binary64 number is its own rounding. -/
theorem binary64_binary64 {x : ℚ} (hx : 0 ≤ x) : binary64 (binary64 x) = binary64 x := by
  rcases hx.lt_or_eq with hx | hx
  swap
  · rw [← hx, binary64_zero, binary64_zero]
  have h2 : (0 : ℚ) < 2 ^ ulpExponent x := by positivity
  unfold binary64
  exact binary64_of_scaled _ _ (roundHalfEven_nonneg (div_nonneg hx.le h2.le))
    (roundHalfEven_div_ulp_le hx) (ulpExponent_ge x) (le_roundHalfEven_div_ulp hx)

/-- Rounding to binary64 moves a number by at most half a unit in the last
place: a part in `2 ^ 53` of it, or `2 ^ -1075` near zero. -/
theorem abs_binary64_sub_le (x : ℚ) : |binary64 x - x| ≤ |x| / 2 ^ 53 + 1 / 2 ^ 1075 := by
  by_cases hx0 : x = 0
  · subst hx0; rw [binary64_zero]; norm_num
  have h2 : (0 : ℚ) < 2 ^ ulpExponent x := by positivity
  have h := abs_roundHalfEven_sub_le (x / 2 ^ ulpExponent x)
  have h1 : |binary64 x - x| ≤ 2 ^ ulpExponent x / 2 := by
    have e : binary64 x - x =
        ((roundHalfEven (x / 2 ^ ulpExponent x) : ℚ) - x / 2 ^ ulpExponent x) *
          2 ^ ulpExponent x := by
      unfold binary64; field_simp
    rw [e, abs_mul, abs_of_pos h2]
    calc _ ≤ 1 / 2 * 2 ^ ulpExponent x := mul_le_mul_of_nonneg_right h h2.le
      _ = _ := by ring
  refine le_trans h1 ?_
  unfold ulpExponent
  rcases max_cases (Int.log 2 |x| - 52) (-1074) with ⟨h3, h4⟩ | ⟨h3, h4⟩
  · rw [h3]
    have hx : 0 < |x| := abs_pos.mpr hx0
    have h5 : (2 : ℚ) ^ Int.log 2 |x| ≤ |x| := by
      simpa using Int.zpow_log_le_self (b := 2) (by norm_num) hx
    rw [zpow_sub₀ (by norm_num : (2 : ℚ) ≠ 0)]
    have : (2 : ℚ) ^ Int.log 2 |x| / 2 ^ (52 : ℤ) / 2 ≤ |x| / 2 ^ 53 := by
      rw [div_div]
      norm_num
      linarith
    linarith [show (0 : ℚ) ≤ 1 / 2 ^ 1075 by positivity]
  · rw [h3]
    have : (2 : ℚ) ^ (-1074 : ℤ) / 2 = 1 / 2 ^ 1075 := by
      rw [zpow_neg]; norm_num
    rw [this]
    linarith [show (0 : ℚ) ≤ |x| / 2 ^ 53 by positivity]

/-- Evaluation of `binary64` at a positive number in the normal range that is
nearer to `m` units in the last place than to any other number of units. -/
theorem binary64_eq_near (x r : ℚ) (k m : ℤ) (hlo : (2 : ℚ) ^ k ≤ x)
    (hhi : x < 2 ^ (k + 1)) (hk : -1022 ≤ k) (hm : |x / 2 ^ (k - 52) - m| < 1 / 2)
    (hr : r = m * 2 ^ (k - 52)) : binary64 x = r := by
  rw [hr]; exact binary64_eq x k m hlo hhi hk hm

/-- Evaluation of `binary64` at a positive number in the normal range that
lies half-way between two numbers of units in the last place, `m` being the
even one. -/
theorem binary64_eq_tie (x r : ℚ) (k m : ℤ) (hlo : (2 : ℚ) ^ k ≤ x)
    (hhi : x < 2 ^ (k + 1)) (hk : -1022 ≤ k)
    (hm : (x / 2 ^ (k - 52) = m + 1 / 2 ∨ x / 2 ^ (k - 52) = m - 1 / 2) ∧ m % 2 = 0)
    (hr : r = m * 2 ^ (k - 52)) : binary64 x = r := by
  rw [hr]
  unfold binary64
  rw [ulpExponent_eq x k hlo hhi hk]
  rcases hm.1 with h | h
  · rw [h, (roundHalfEven_half_even m hm.2).1]
  · rw [h, (roundHalfEven_half_even m hm.2).2]

/-! ## Values of the constants -/

theorem VAT_RATE_eq :
    VAT_RATE = 5404319552844595 / 36028797018963968 := by
  exact binary64_eq_near _ _ (-3) 5404319552844595 (by norm_num) (by norm_num) (by norm_num)
    (by norm_num [abs_lt]) (by norm_num)

theorem DRIVER_SHARE_eq :
    DRIVER_SHARE = 3152519739159347 / 4503599627370496 := by
  exact binary64_eq_near _ _ (-1) 6305039478318694 (by norm_num) (by norm_num) (by norm_num)
    (by norm_num [abs_lt]) (by norm_num)

theorem MIN_WITHDRAWAL_eq :
    MIN_WITHDRAWAL = 8449878800853893 / 562949953421312 := by
  exact binary64_eq_near _ _ (3) 8449878800853893 (by norm_num) (by norm_num) (by norm_num)
    (by norm_num [abs_lt]) (by norm_num)

theorem BASE_FEE_eq : BASE_FEE = 20 := rfl

theorem PER_KM_FEE_eq : PER_KM_FEE = 7 := rfl

/-! ## Lemmas on lists and reads -/

theorem single_eq_some {α : Type} {l : List α} {x : α} (h : single l = some x) : l = [x] := by
  match l, h with
  | [y], h => simp [single] at h; simp [h]

theorem filter_id_of_nodup (ps : List Profile) (hnd : (ps.map (fun p => p.id)).Nodup)
    (p : Profile) (hp : p ∈ ps) : ps.filter (fun q => q.id = p.id) = [p] := by
  induction ps with
  | nil => simp at hp
  | cons q qs ih =>
    simp only [List.map_cons, List.nodup_cons, List.mem_map, not_exists, not_and] at hnd
    obtain ⟨hq, hqs⟩ := hnd
    rcases List.mem_cons.mp hp with rfl | hmem
    · have : qs.filter (fun q => q.id = p.id) = [] := by
        rw [List.filter_eq_nil_iff]
        intro x hx
        simpa using hq x hx
      simp [List.filter_cons, this]
    · have hne : q.id ≠ p.id := fun h => hq p hmem h.symm
      simp [List.filter_cons, hne, ih hqs hmem]

theorem selectProfile_of_mem (db : Store) (hnd : (db.profiles.map (fun p => p.id)).Nodup)
    (p : Profile) (hp : p ∈ db.profiles) : selectProfile db (some p.id) = some p := by
  simp [selectProfile, filter_id_of_nodup db.profiles hnd p hp, single]

theorem map_id_setBalance (ps : List Profile) (i : Nat) (b : ℚ) :
    (ps.map (fun p => if p.id = i then { p with wallet_balance := some b } else p)).map
      (fun p => p.id) = ps.map (fun p => p.id) := by
  rw [List.map_map]
  apply List.map_congr_left
  intro p _
  by_cases h : p.id = i <;> simp [h]

theorem selectOrder_congr (db db' : Store) (h : db'.orders = db.orders) (id : Nat) :
    selectOrder db' id = selectOrder db id := by
  simp [selectOrder, h]

theorem selectOrder_updateOrderStatus (db : Store) (orderId : Nat) (status : OrderStatus)
    (f : Order → Order) (hf : ∀ o, (f o).id = o.id) (o : Order)
    (h : selectOrder db orderId = some o) :
    selectOrder (updateOrderStatus true db orderId status f).1 orderId =
      some (f { o with status := status }) := by
  unfold selectOrder at h ⊢
  have hl := single_eq_some h
  have ho : o.id = orderId := by
    have : o ∈ db.orders.filter (fun o => o.id = orderId) := by rw [hl]; simp
    simpa using (List.mem_filter.mp this).2
  simp only [updateOrderStatus, if_true, List.filter_map]
  have hcomp : ((fun o : Order => decide (o.id = orderId)) ∘
      fun o => if o.id = orderId then f { o with status := status } else o) =
      fun o => decide (o.id = orderId) := by
    funext x
    by_cases hx : x.id = orderId <;> simp [hx, hf]
  rw [hcomp, hl]
  simp [single, ho]

theorem creditWallet_orders (r w i : Bool) (db : Store) (user order : Option Nat)
    (type : TxnType) (amount : ℚ) (description : String) :
    (creditWallet r w i db user order type amount description).orders = db.orders := by
  cases r <;> cases w <;> cases i <;> cases user <;>
    simp [creditWallet, setWalletBalance, insertTransaction]

theorem selectProfile_setWalletBalance (db : Store) (c : Nat) (b : ℚ) (p : Profile)
    (h : selectProfile db (some c) = some p) :
    selectProfile (setWalletBalance db (some c) b) (some c) =
      some { p with wallet_balance := some b } := by
  simp only [selectProfile] at h ⊢
  have hl := single_eq_some h
  have hp : p.id = c := by
    have : p ∈ db.profiles.filter (fun q => q.id = c) := by rw [hl]; simp
    simpa using (List.mem_filter.mp this).2
  simp only [setWalletBalance, List.filter_map]
  have hcomp : ((fun q : Profile => decide (q.id = c)) ∘
      fun q => if q.id = c then { q with wallet_balance := some b } else q) =
      fun q => decide (q.id = c) := by
    funext x
    by_cases hx : x.id = c <;> simp [hx]
  rw [hcomp, hl]
  simp [single, hp]

theorem walletBalance_setWalletBalance_same (db : Store) (c : Nat) (b : ℚ) (p : Profile)
    (h : selectProfile db (some c) = some p) :
    walletBalance (setWalletBalance db (some c) b) c = b := by
  simp only [walletBalance, selectProfile_setWalletBalance db c b p h]
  rfl

theorem walletBalance_setWalletBalance_of_ne (db : Store) (c u : Nat) (b : ℚ) (h : u ≠ c) :
    walletBalance (setWalletBalance db (some c) b) u = walletBalance db u := by
  simp only [walletBalance, selectProfile, setWalletBalance]
  congr 3
  induction db.profiles with
  | nil => rfl
  | cons q qs ih =>
    by_cases hq : q.id = c
    · have hqu : ¬ q.id = u := fun hh => h (hh.symm.trans hq)
      simp [List.filter_cons, hq, hqu, h.symm, ih]
    · simp [List.filter_cons, hq, ih]

theorem walletBalance_insertTransaction (db : Store) (user order : Option Nat) (type : TxnType)
    (amount : ℚ) (description : String) (u : Nat) :
    walletBalance (insertTransaction db user order type amount description) u =
      walletBalance db u := rfl

theorem walletBalance_updateItemStatus (ok : Bool) (db : Store) (itemId : Nat)
    (status : ItemStatus) (u : Nat) :
    walletBalance (updateItemStatus ok db itemId status).1 u = walletBalance db u := by
  cases ok <;> rfl

theorem selectProfile_updateItemStatus (ok : Bool) (db : Store) (itemId : Nat)
    (status : ItemStatus) (u : Option Nat) :
    selectProfile (updateItemStatus ok db itemId status).1 u = selectProfile db u := by
  cases ok <;> rfl

theorem selectProfile_insertTransaction (db : Store) (user order : Option Nat) (type : TxnType)
    (amount : ℚ) (description : String) (u : Option Nat) :
    selectProfile (insertTransaction db user order type amount description) u =
      selectProfile db u := rfl

/-- The profile and the balance a customer reads after one credit. -/
theorem walletBalance_creditWallet (db : Store) (c : Nat) (p : Profile) (order : Option Nat)
    (type : TxnType) (amount : ℚ) (description : String)
    (h : selectProfile db (some c) = some p) :
    selectProfile (creditWallet true true true db (some c) order type amount description)
        (some c) = some { p with wallet_balance := some (jsAdd (orZero p.wallet_balance) amount) } ∧
    walletBalance (creditWallet true true true db (some c) order type amount description) c =
      jsAdd (walletBalance db c) amount := by
  have h1 := selectProfile_setWalletBalance db c (jsAdd (orZero p.wallet_balance) amount) p h
  constructor
  · simp only [creditWallet, if_true, h, selectProfile_insertTransaction]
    exact h1
  · simp only [creditWallet, if_true, h, walletBalance_insertTransaction]
    simp only [walletBalance, h, Option.some_bind, h1]
    rfl

theorem walletBalance_creditWallet_of_ne (db : Store) (c u : Nat) (order : Option Nat)
    (type : TxnType) (amount : ℚ) (description : String) (h : u ≠ c) :
    walletBalance (creditWallet true true true db (some c) order type amount description) u =
      walletBalance db u := by
  simp only [creditWallet, if_true, walletBalance_insertTransaction]
  exact walletBalance_setWalletBalance_of_ne db c u _ h

theorem find_markLocal (items : List OrderItem) (itemId : Nat) (status : ItemStatus)
    (item : OrderItem) (h : items.find? (fun i => i.id = itemId) = some item) :
    (markLocal items itemId status).find? (fun i => i.id = itemId) =
      some { item with status := status } := by
  induction items with
  | nil => simp at h
  | cons i rest ih =>
    by_cases hi : i.id = itemId
    · simp [List.find?_cons, hi] at h
      subst h
      simp [markLocal, hi, List.find?_cons]
    · simp [List.find?_cons, hi] at h
      simp [markLocal, hi, List.find?_cons, ih h]

/-! ## What single calls do -/

/-- After any of the four order calls by a signed-in session, the order row is
still read and carries the status the call writes. -/
theorem selectOrder_run (orderId : Nat) (c : OrderCall) (db : Store) (o : Order)
    (hc : c.session.user ≠ none) (h : selectOrder db orderId = some o) :
    ∃ o', selectOrder (c.run orderId db) orderId = some o' ∧ o'.status = c.target := by
  cases c with
  | secureMission st =>
    obtain ⟨uid, hu⟩ := Option.ne_none_iff_exists'.mp hc
    simp only [OrderCall.session] at hu
    have h1 := selectOrder_updateOrderStatus db orderId OrderStatus.gathering
      (fun o => { o with picker_id := some uid }) (fun _ => rfl) o h
    have h2 : selectOrder (OrderCall.run orderId (OrderCall.secureMission st) db) orderId =
        some { o with status := OrderStatus.gathering, picker_id := some uid } := by
      simp only [OrderCall.run, secureMission, hu, online, if_true]
      split <;> exact h1
    exact ⟨_, h2, rfl⟩
  | finishAndPack st now =>
    exact ⟨_, selectOrder_updateOrderStatus db orderId OrderStatus.packed
      (fun o => { o with packed_at := some now }) (fun _ => rfl) o h, rfl⟩
  | claimDelivery st =>
    obtain ⟨uid, hu⟩ := Option.ne_none_iff_exists'.mp hc
    simp only [OrderCall.session] at hu
    have h1 := selectOrder_updateOrderStatus db orderId OrderStatus.in_transit
      (fun o => { o with driver_id := some uid }) (fun _ => rfl) o h
    have h2 : selectOrder (OrderCall.run orderId (OrderCall.claimDelivery st) db) orderId =
        some { o with status := OrderStatus.in_transit, driver_id := some uid } := by
      simp only [OrderCall.run, claimDelivery, hu, online]
      exact h1
    exact ⟨_, h2, rfl⟩
  | completeDelivery st now =>
    have h0 : selectOrder (creditWallet true true true db o.driver_id (some orderId)
        TxnType.earning (jsMul (orZero o.travel_fee) DRIVER_SHARE) "Delivery completed") orderId
        = some o := by
      rw [selectOrder_congr db _ (creditWallet_orders _ _ _ _ _ _ _ _ _)]; exact h
    have h1 := selectOrder_updateOrderStatus _ orderId OrderStatus.delivered
      (fun o => { o with delivered_at := some now }) (fun _ => rfl) o h0
    have h2 : selectOrder (OrderCall.run orderId (OrderCall.completeDelivery st now) db)
        orderId = some { o with status := OrderStatus.delivered, delivered_at := some now } := by
      simp only [OrderCall.run, completeDelivery, online, if_true, h]
      exact h1
    exact ⟨_, h2, rfl⟩

/-- What one call of `markItem(itemId, 'missing')` does when the item is on the
mission page, the current order holds it, and the order row can be read. -/
theorem markItem_missing_eq (a : App) (itemId : Nat) (v : OrderView) (items : List OrderItem)
    (item : OrderItem) (o : Order) (hgi : itemId ∈ a.st.gi)
    (hcur : a.st.currentOrder = some v) (hitems : v.order_items = some items)
    (hfind : items.find? (fun i => i.id = itemId) = some item)
    (hord : selectOrder a.db v.row.id = some o) :
    markItem online itemId ItemStatus.missing a =
      { db := creditWallet true true true
          (updateItemStatus true a.db itemId ItemStatus.missing).1 o.customer_id
          (some v.row.id) TxnType.refund (jsMul item.price item.quantity)
          ("Refund: " ++ item.product_name)
        st := { a.st with
          currentOrder := some
            { v with order_items := some (markLocal items itemId ItemStatus.missing) } } } := by
  have hord1 : selectOrder (updateItemStatus true a.db itemId ItemStatus.missing).1 v.row.id
      = some o := by
    rw [selectOrder_congr a.db]; exact hord
    simp [updateItemStatus]
  simp [markItem, online, hgi, hcur, hitems, hfind, hord1]

/-- What a withdrawal request does when every store call goes through and the
balance read reaches the minimum. -/
theorem requestWithdrawal_online_eq (a : App) (uid : Nat)
    (hu : a.st.user = some uid) (hb : MIN_WITHDRAWAL ≤ walletBalance a.db uid) :
    requestWithdrawal online a =
      { a with
        db := setWalletBalance
          { a.db with
            withdrawals := a.db.withdrawals ++
              [{ id := a.db.seq, user_id := some uid, amount := walletBalance a.db uid,
                 net_payout := netPayout (walletBalance a.db uid),
                 status := WithdrawalStatus.pending, processed_at := none }]
            seq := a.db.seq + 1 } (some uid) 0 } := by
  have hb' : ¬ walletBalance a.db uid < MIN_WITHDRAWAL := not_lt.mpr hb
  simp only [walletBalance] at hb'
  simp only [requestWithdrawal, hu, online, if_true, hb', if_false, walletBalance]

/-- A request made on a balance below the minimum changes nothing, whatever the
outcome of the store calls. -/
theorem requestWithdrawal_eq_self_of_lt (net : Net) (a : App)
    (h : ∀ uid, a.st.user = some uid → walletBalance a.db uid < MIN_WITHDRAWAL) :
    requestWithdrawal net a = a := by
  unfold requestWithdrawal
  cases hu : a.st.user with
  | none => rfl
  | some uid =>
    have hlt := h uid hu
    cases h0 : net 0
    · simp only [Bool.false_eq_true, if_false]
      rw [if_pos]
      simp [orZero, MIN_WITHDRAWAL_eq]
    · simp only [walletBalance] at hlt
      simp [hlt]

/-! ## Order totals -/

theorem binary64_40_62 :
    binary64 40.62 = 5716756776993423 / 140737488355328 := by
  exact binary64_eq_near _ _ (5) 5716756776993423 (by norm_num) (by norm_num) (by norm_num)
    (by norm_num [abs_lt]) (by norm_num)

theorem binary64_132_7 :
    binary64 132.7 = 2334483088094003 / 17592186044416 := by
  exact binary64_eq_near _ _ (7) 4668966176188006 (by norm_num) (by norm_num) (by norm_num)
    (by norm_num [abs_lt]) (by norm_num)

theorem roundingApp_line :
    jsMul (binary64 40.62) ((3 : ℤ) : ℚ) = 4287567582745067 / 35184372088832 := by
  rw [binary64_40_62]
  exact binary64_eq_tie _ _ (6) 8575135165490134 (by norm_num) (by norm_num) (by norm_num)
    (by norm_num) (by norm_num)

theorem roundingApp_subtotal :
    jsAdd 0 (jsMul (binary64 40.62) ((3 : ℤ) : ℚ)) = 4287567582745067 / 35184372088832 := by
  rw [roundingApp_line]
  exact binary64_eq_near _ _ (6) 8575135165490134 (by norm_num) (by norm_num) (by norm_num)
    (by norm_num [abs_lt]) (by norm_num)

theorem roundingApp_vat :
    jsMul (jsAdd 0 (jsMul (binary64 40.62) ((3 : ℤ) : ℚ))) VAT_RATE =
      40195946088235 / 2199023255552 := by
  rw [roundingApp_subtotal, VAT_RATE_eq]
  exact binary64_eq_near _ _ (4) 5145081099294080 (by norm_num) (by norm_num) (by norm_num)
    (by norm_num [abs_lt]) (by norm_num)

theorem roundingApp_subtotal_vat :
    jsAdd (jsAdd 0 (jsMul (binary64 40.62) ((3 : ℤ) : ℚ))) (jsMul (jsAdd 0 (jsMul (binary64 40.62) ((3 : ℤ) : ℚ))) VAT_RATE) =
      4930702720156827 / 35184372088832 := by
  rw [roundingApp_vat, roundingApp_subtotal]
  exact binary64_eq_near _ _ (7) 4930702720156827 (by norm_num) (by norm_num) (by norm_num)
    (by norm_num [abs_lt]) (by norm_num)

theorem roundingApp_total :
    jsAdd (jsAdd (jsAdd 0 (jsMul (binary64 40.62) ((3 : ℤ) : ℚ))) (jsMul (jsAdd 0 (jsMul (binary64 40.62) ((3 : ℤ) : ℚ))) VAT_RATE)) (binary64 132.7) =
      37498706626347 / 137438953472 := by
  rw [roundingApp_subtotal_vat, binary64_132_7]
  exact binary64_eq_tie _ _ (8) 4799834448172416 (by norm_num) (by norm_num) (by norm_num)
    (by norm_num) (by norm_num)

theorem binary64_121_85999999999999 :
    binary64 121.85999999999999 = 4287567582745067 / 35184372088832 := by
  exact binary64_eq_near _ _ (6) 8575135165490134 (by norm_num) (by norm_num) (by norm_num)
    (by norm_num [abs_lt]) (by norm_num)

theorem binary64_18_278999999999996 :
    binary64 18.278999999999996 = 40195946088235 / 2199023255552 := by
  exact binary64_eq_near _ _ (4) 5145081099294080 (by norm_num) (by norm_num) (by norm_num)
    (by norm_num [abs_lt]) (by norm_num)

theorem binary64_272_83899999999994 :
    binary64 272.83899999999994 = 37498706626347 / 137438953472 := by
  exact binary64_eq_near _ _ (8) 4799834448172416 (by norm_num) (by norm_num) (by norm_num)
    (by norm_num [abs_lt]) (by norm_num)

theorem binary64_121_86 :
    binary64 121.86 = 8575135165490135 / 70368744177664 := by
  exact binary64_eq_near _ _ (6) 8575135165490135 (by norm_num) (by norm_num) (by norm_num)
    (by norm_num [abs_lt]) (by norm_num)

/-- The arithmetic reproduces the familiar binary64 results: three times 0.1 is
0.30000000000000004. -/
theorem jsMul_tenth_three : jsMul (binary64 0.1) 3 = binary64 0.30000000000000004 := by
  have h1 : binary64 0.1 = 3602879701896397 / 36028797018963968 :=
    binary64_eq_near _ _ (-4) 7205759403792794 (by norm_num) (by norm_num) (by norm_num)
      (by norm_num [abs_lt]) (by norm_num)
  have h2 : binary64 0.30000000000000004 = 1351079888211149 / 4503599627370496 :=
    binary64_eq_near _ _ (-2) 5404319552844596 (by norm_num) (by norm_num) (by norm_num)
      (by norm_num [abs_lt]) (by norm_num)
  rw [h1, h2]
  exact binary64_eq_tie _ _ (-2) 5404319552844596 (by norm_num) (by norm_num) (by norm_num)
    (by norm_num) (by norm_num)

/-- C1, as stated, fails: for three items at 40.62 and a stored travel fee of
132.70 the order that `createOrder` inserts has subtotal 121.85999999999999,
vat 18.278999999999996 and total 272.83899999999994.  The subtotal is neither
the number 121.86 nor three times the price, the vat is not 0.15 times the
subtotal, and the total is not the sum of the stored subtotal, vat and travel
fee. -/
theorem createOrder_total_not_exact :
    (createOrder online (fun _ => 0) "card" roundingApp).1.db.orders.map
        (fun o => (o.subtotal, o.vat, o.travel_fee, o.total)) =
      [(binary64 121.85999999999999, binary64 18.278999999999996, some (binary64 132.7),
        binary64 272.83899999999994)] ∧
    binary64 121.85999999999999 ≠ binary64 121.86 ∧
    binary64 121.85999999999999 ≠ binary64 40.62 * 3 ∧
    binary64 18.278999999999996 ≠ 0.15 * binary64 121.85999999999999 ∧
    binary64 272.83899999999994 ≠
      binary64 121.85999999999999 + binary64 18.278999999999996 + binary64 132.7 := by
  have h : (createOrder online (fun _ => 0) "card" roundingApp).1.db.orders.map
        (fun o => (o.subtotal, o.vat, o.travel_fee, o.total)) =
      [(jsAdd 0 (jsMul (binary64 40.62) ((3 : ℤ) : ℚ)),
        jsMul (jsAdd 0 (jsMul (binary64 40.62) ((3 : ℤ) : ℚ))) VAT_RATE,
        some (binary64 132.7),
        jsAdd (jsAdd (jsAdd 0 (jsMul (binary64 40.62) ((3 : ℤ) : ℚ)))
          (jsMul (jsAdd 0 (jsMul (binary64 40.62) ((3 : ℤ) : ℚ))) VAT_RATE))
          (binary64 132.7))] := rfl
  rw [h, roundingApp_total, roundingApp_vat, roundingApp_subtotal,
    binary64_121_85999999999999, binary64_18_278999999999996, binary64_272_83899999999994,
    binary64_121_86, binary64_40_62, binary64_132_7]
  refine ⟨rfl, ?_, ?_, ?_, ?_⟩ <;> norm_num

/-- The result of two additions differs from the exact sum by at most a part
in `2 ^ 53` of each of the two sums formed. -/
theorem abs_jsAdd_jsAdd_sub_le (s v f : ℚ) :
    |jsAdd (jsAdd s v) f - (s + v + f)| ≤
      (|s + v| + |jsAdd s v + f|) / 2 ^ 53 + 1 / 2 ^ 1074 := by
  have h1 := abs_binary64_sub_le (s + v)
  have h2 := abs_binary64_sub_le (jsAdd s v + f)
  have e : jsAdd (jsAdd s v) f - (s + v + f) =
      (binary64 (jsAdd s v + f) - (jsAdd s v + f)) + (binary64 (s + v) - (s + v)) := by
    simp only [jsAdd]; ring
  rw [e]
  refine le_trans (abs_add _ _) ?_
  have : (1 : ℚ) / 2 ^ 1074 = 1 / 2 ^ 1075 + 1 / 2 ^ 1075 := by norm_num
  rw [this, add_div]
  linarith

/-- C1, amended: when a signed-in customer with a profile places an order and
the order insert goes through, `createOrder` appends exactly the order it
returns.  On that record subtotal is the sum of the products price × quantity
over the cart, formed from left to right with every product and every sum
rounded to binary64; vat is subtotal × 0.15 rounded; travel_fee is the stored
delivery fee (0 when none is stored); total is (subtotal + vat) + travel_fee
with both sums rounded.  The total differs from the exact sum of the stored
subtotal, vat and travel fee by at most a part in 2 ^ 53 of each of the two
sums formed, and 2 ^ -1074. -/
theorem createOrder_total_rounded (net : Net) (rnd : Nat → ℚ) (paymentMethod : String)
    (a : App) (uid : Nat) (prof : Profile) (huser : a.st.user = some uid)
    (hprof : a.st.profile = some prof) (hnet : net 0 = true) :
    (createOrder net rnd paymentMethod a).1.db.orders =
      a.db.orders ++ (createOrder net rnd paymentMethod a).2.toList ∧
    ∃ o, (createOrder net rnd paymentMethod a).2 = some o ∧
      o.subtotal = a.st.cart.foldl (fun sum i => jsAdd sum (jsMul i.price i.quantity)) 0 ∧
      o.vat = jsMul o.subtotal VAT_RATE ∧
      o.travel_fee = some (orZero a.st.deliveryInfo.fee) ∧
      o.total = jsAdd (jsAdd o.subtotal o.vat) (orZero o.travel_fee) ∧
      |o.total - (o.subtotal + o.vat + orZero o.travel_fee)| ≤
        (|o.subtotal + o.vat| + |jsAdd o.subtotal o.vat + orZero o.travel_fee|) / 2 ^ 53 +
          1 / 2 ^ 1074 := by
  refine ⟨?_, newOrder a.st uid prof a.db.seq rnd paymentMethod, ?_, rfl, rfl, rfl, rfl, ?_⟩
  · simp only [createOrder, huser, hprof, hnet]
    by_cases h1 : net 1 = true <;> simp [h1]
  · simp [createOrder, huser, hprof, hnet]
  · exact abs_jsAdd_jsAdd_sub_le _ _ _

theorem createOrder_total_rounded_witness :
    checkoutApp.st.user = some 1 ∧
    checkoutApp.st.profile = some (sampleProfile 1 "customer" none) ∧
    ∃ o, (createOrder online (fun _ => 0) "card" checkoutApp).2 = some o ∧
      o.subtotal =
        checkoutApp.st.cart.foldl (fun sum i => jsAdd sum (jsMul i.price i.quantity)) 0 ∧
      o.vat = jsMul o.subtotal VAT_RATE ∧
      o.travel_fee = some (orZero checkoutApp.st.deliveryInfo.fee) ∧
      o.total = jsAdd (jsAdd o.subtotal o.vat) (orZero o.travel_fee) ∧
      |o.total - (o.subtotal + o.vat + orZero o.travel_fee)| ≤
        (|o.subtotal + o.vat| + |jsAdd o.subtotal o.vat + orZero o.travel_fee|) / 2 ^ 53 +
          1 / 2 ^ 1074 :=
  ⟨rfl, rfl,
   (createOrder_total_rounded online (fun _ => 0) "card" checkoutApp 1
      (sampleProfile 1 "customer" none) rfl rfl rfl).2⟩

/-! ## The ledger invariant is kept by every wallet call -/

theorem foldl_max_le (l : List Nat) (n b : Nat) (hn : n ≤ b) (h : ∀ x ∈ l, x ≤ b) :
    l.foldl max n ≤ b := by
  induction l generalizing n with
  | nil => exact hn
  | cons x xs ih =>
    exact ih (max n x) (max_le hn (h x (List.mem_cons_self _ _)))
      (fun y hy => h y (List.mem_cons_of_mem _ hy))

theorem sinceWithdrawal_le_seq (db : Store) (h : ∀ w ∈ db.withdrawals, w.id < db.seq)
    (u : Nat) : sinceWithdrawal db u ≤ db.seq := by
  apply foldl_max_le _ _ _ (Nat.zero_le _)
  intro x hx
  simp only [withdrawalsOf, List.mem_map, List.mem_filter] at hx
  obtain ⟨w, ⟨hw, _⟩, rfl⟩ := hx
  exact h w hw

theorem ledger_congr (db db' : Store) (h : Ledger db) (hp : db'.profiles = db.profiles)
    (ht : db'.wallet_transactions = db.wallet_transactions)
    (hw : db'.withdrawals = db.withdrawals) (hs : db'.seq = db.seq) : Ledger db' := by
  unfold Ledger creditsSinceWithdrawal sinceWithdrawal transactionsOf withdrawalsOf at *
  rw [hp, ht, hw, hs]; exact h

theorem ledger_of_fresh (db : Store) (h : Fresh db) : Ledger db := by
  obtain ⟨hnd, hz, ht, hw⟩ := h
  refine ⟨hnd, by simp [ht], by simp [hw], fun p hp => ?_⟩
  simp [hz p hp, creditsSinceWithdrawal, transactionsOf, ht]

theorem ledger_creditWallet (db : Store) (h : Ledger db) (user order : Option Nat)
    (type : TxnType) (amount : ℚ) (description : String) :
    Ledger (creditWallet true true true db user order type amount description) := by
  obtain ⟨hnd, htx, hwd, hbal⟩ := h
  have htx' : ∀ t ∈ db.wallet_transactions ++
      [({ id := db.seq, user_id := user, order_id := order, type := type, amount := amount,
          description := description } : WalletTransaction)], t.id < db.seq + 1 := by
    intro t ht
    rcases List.mem_append.mp ht with h1 | h1
    · exact Nat.lt_succ_of_lt (htx t h1)
    · simp only [List.mem_singleton] at h1; subst h1; exact Nat.lt_succ_self _
  have hwd' : ∀ w ∈ db.withdrawals, w.id < db.seq + 1 :=
    fun w hw => Nat.lt_succ_of_lt (hwd w hw)
  cases user with
  | none =>
    refine ⟨by simpa [creditWallet, insertTransaction, setWalletBalance] using hnd,
      by simpa [creditWallet, insertTransaction, setWalletBalance] using htx',
      by simpa [creditWallet, insertTransaction, setWalletBalance] using hwd', ?_⟩
    intro p hp
    have hp' : p ∈ db.profiles := by
      simpa [creditWallet, insertTransaction, setWalletBalance] using hp
    have := hbal p hp'
    simpa [creditWallet, insertTransaction, setWalletBalance, creditsSinceWithdrawal,
      sinceWithdrawal, transactionsOf, withdrawalsOf, List.filter_append] using this
  | some c =>
    refine ⟨?_, by simpa [creditWallet, insertTransaction, setWalletBalance] using htx',
      by simpa [creditWallet, insertTransaction, setWalletBalance] using hwd', ?_⟩
    · simp only [creditWallet, insertTransaction, setWalletBalance, if_true]
      rw [map_id_setBalance]; exact hnd
    · intro p' hp'
      simp only [creditWallet, insertTransaction, setWalletBalance, if_true, List.mem_map] at hp'
      obtain ⟨p, hp, rfl⟩ := hp'
      have hb := hbal p hp
      by_cases hc : p.id = c
      · subst hc
        have hsel := selectProfile_of_mem db hnd p hp
        have hle := sinceWithdrawal_le_seq db hwd p.id
        simp only [sinceWithdrawal, withdrawalsOf] at hle
        simp [creditWallet, insertTransaction, setWalletBalance, creditsSinceWithdrawal,
          sinceWithdrawal, transactionsOf, withdrawalsOf, List.filter_append, hsel, orZero,
          hle] at hb ⊢
        rw [hb]
      · have hc' : ¬ c = p.id := fun h => hc h.symm
        simpa [creditWallet, insertTransaction, setWalletBalance, creditsSinceWithdrawal,
          sinceWithdrawal, transactionsOf, withdrawalsOf, List.filter_append, hc, hc'] using hb

theorem ledger_requestWithdrawal (a : App) (h : Ledger a.db) :
    Ledger (requestWithdrawal online a).db := by
  unfold requestWithdrawal
  cases hu : a.st.user with
  | none => simpa using h
  | some uid =>
    simp only [online, if_true]
    split
    · exact h
    · obtain ⟨hnd, htx, hwd, hbal⟩ := h
      have hwd' : ∀ w ∈ a.db.withdrawals ++
          [({ id := a.db.seq, user_id := some uid,
              amount := orZero ((selectProfile a.db (some uid)).bind fun p => p.wallet_balance),
              net_payout := netPayout
                (orZero ((selectProfile a.db (some uid)).bind fun p => p.wallet_balance)),
              status := WithdrawalStatus.pending, processed_at := none } : Withdrawal)],
          w.id < a.db.seq + 1 := by
        intro w hw
        rcases List.mem_append.mp hw with h1 | h1
        · exact Nat.lt_succ_of_lt (hwd w h1)
        · simp only [List.mem_singleton] at h1; subst h1; exact Nat.lt_succ_self _
      refine ⟨?_, ?_, ?_, ?_⟩
      · simp only [setWalletBalance]
        rw [map_id_setBalance]; exact hnd
      · intro t ht
        exact Nat.lt_succ_of_lt (htx t (by simpa [setWalletBalance] using ht))
      · simpa [setWalletBalance] using hwd'
      · intro p' hp'
        simp only [setWalletBalance, List.mem_map] at hp'
        obtain ⟨p, hp, rfl⟩ := hp'
        have hb := hbal p hp
        by_cases hc : p.id = uid
        · subst hc
          have key : ∀ q : WalletTransaction → Bool,
              (∀ t ∈ a.db.wallet_transactions, q t = false) →
              a.db.wallet_transactions.filter q = [] := by
            intro q hq
            rw [List.filter_eq_nil_iff]
            intro t ht
            simp [hq t ht]
          simp only [setWalletBalance, creditsSinceWithdrawal, sinceWithdrawal, transactionsOf,
            withdrawalsOf, List.filter_append, List.foldl_append, orZero, List.filter_filter,
            if_true, List.map_append, List.filter_cons, List.filter_nil, decide_True,
            List.map_cons, List.map_nil, List.foldl_cons, List.foldl_nil, Option.getD_some]
          rw [key]
          · rfl
          · intro t ht
            have := htx t ht
            have h2 : ¬ (max ((List.map (fun w => w.id + 1)
                (a.db.withdrawals.filter (fun w => w.user_id = some p.id))).foldl max 0)
                (a.db.seq + 1) ≤ t.id) := by
              rw [not_le]
              exact lt_of_lt_of_le (Nat.lt_succ_of_lt this) (le_max_right _ _)
            simp [h2]
        · have hc' : ¬ uid = p.id := fun h => hc h.symm
          simpa [setWalletBalance, creditsSinceWithdrawal, sinceWithdrawal, transactionsOf,
            withdrawalsOf, List.filter_append, hc, hc'] using hb

theorem withdrawalsOf_settleWithdrawal (db : Store) (id : Nat) (status : WithdrawalStatus)
    (now u : Nat) :
    (withdrawalsOf (settleWithdrawal true db id status now) u).map (fun w => w.id + 1) =
      (withdrawalsOf db u).map (fun w => w.id + 1) := by
  simp only [withdrawalsOf, settleWithdrawal, if_true]
  induction db.withdrawals with
  | nil => simp
  | cons w ws ih =>
    by_cases hw : w.id = id <;> by_cases hu : w.user_id = some u <;>
      simp [List.filter_cons, hw, hu, ih]

theorem ledger_settleWithdrawal (db : Store) (h : Ledger db) (id : Nat)
    (status : WithdrawalStatus) (now : Nat) :
    Ledger (settleWithdrawal true db id status now) := by
  obtain ⟨hnd, htx, hwd, hbal⟩ := h
  refine ⟨by simpa [settleWithdrawal] using hnd, by simpa [settleWithdrawal] using htx,
    ?_, fun p hp => ?_⟩
  · intro w hw
    simp only [settleWithdrawal, if_true, List.mem_map] at hw
    obtain ⟨w0, hw0, rfl⟩ := hw
    have := hwd w0 hw0
    by_cases hid : w0.id = id <;> simpa [hid] using this
  · have hp' : p ∈ db.profiles := by simpa [settleWithdrawal] using hp
    have := hbal p hp'
    unfold creditsSinceWithdrawal sinceWithdrawal at this ⊢
    rw [withdrawalsOf_settleWithdrawal]
    simpa [settleWithdrawal, transactionsOf] using this

theorem ledger_updateOrderStatus (db : Store) (h : Ledger db) (ok : Bool) (orderId : Nat)
    (status : OrderStatus) (f : Order → Order) :
    Ledger (updateOrderStatus ok db orderId status f).1 := by
  cases ok <;> simp only [updateOrderStatus]
  · simpa using h
  · exact ledger_congr db _ h rfl rfl rfl rfl

theorem ledger_updateItemStatus (db : Store) (h : Ledger db) (ok : Bool) (itemId : Nat)
    (status : ItemStatus) : Ledger (updateItemStatus ok db itemId status).1 := by
  cases ok <;> simp only [updateItemStatus]
  · simpa using h
  · exact ledger_congr db _ h rfl rfl rfl rfl

theorem ledger_markItem (a : App) (h : Ledger a.db) (itemId : Nat) (status : ItemStatus) :
    Ledger (markItem online itemId status a).db := by
  have h1 := ledger_updateItemStatus a.db h true itemId status
  unfold markItem
  simp only [online, if_true]
  split
  · split
    · exact h1
    · split
      · split
        · split
          · exact ledger_creditWallet _ h1 _ _ _ _ _
          · exact h1
        · exact h1
      · exact h1
  · exact h1

theorem ledger_completeDelivery (a : App) (h : Ledger a.db) (now orderId : Nat) :
    Ledger (completeDelivery online now orderId a).db := by
  unfold completeDelivery
  simp only [online, if_true]
  apply ledger_updateOrderStatus
  split
  · exact ledger_creditWallet _ h _ _ _ _ _
  · exact h

theorem ledger_run (db : Store) (h : Ledger db) (c : WalletCall) : Ledger (c.run db) := by
  cases c with
  | markItem st itemId status => exact ledger_markItem ⟨db, st⟩ h itemId status
  | completeDelivery st now orderId => exact ledger_completeDelivery ⟨db, st⟩ h now orderId
  | requestWithdrawal st => exact ledger_requestWithdrawal ⟨db, st⟩ h
  | approveWithdrawal st now id => exact ledger_settleWithdrawal db h id _ now
  | rejectWithdrawal st now id => exact ledger_settleWithdrawal db h id _ now

theorem ledger_runCalls (cs : List WalletCall) (db : Store) (h : Ledger db) :
    Ledger (runCalls cs db) := by
  induction cs generalizing db with
  | nil => exact h
  | cons c cs ih => exact ih _ (ledger_run db h c)

theorem profileIds_creditWallet (r w i : Bool) (db : Store) (user order : Option Nat)
    (type : TxnType) (amount : ℚ) (description : String) :
    (creditWallet r w i db user order type amount description).profiles.map (fun p => p.id) =
      db.profiles.map (fun p => p.id) := by
  cases r <;> cases w <;> cases i <;> cases user <;>
    simp only [creditWallet, setWalletBalance, insertTransaction, map_id_setBalance, if_true,
      if_false, Bool.false_eq_true]

theorem profileIds_run (c : WalletCall) (db : Store) :
    (c.run db).profiles.map (fun p => p.id) = db.profiles.map (fun p => p.id) := by
  cases c with
  | markItem st itemId status =>
    simp only [WalletCall.run, markItem, online, if_true, updateItemStatus]
    split
    · split
      · rfl
      · split
        · split
          · split
            · rw [profileIds_creditWallet]
            · rfl
          · rfl
        · rfl
    · rfl
  | completeDelivery st now orderId =>
    simp only [WalletCall.run, completeDelivery, online, if_true, updateOrderStatus]
    split
    · rw [profileIds_creditWallet]
    · rfl
  | requestWithdrawal st =>
    simp only [WalletCall.run, requestWithdrawal, online, if_true]
    split
    · rfl
    · split
      · rfl
      · simp only [setWalletBalance]; rw [map_id_setBalance]
  | approveWithdrawal st now id => rfl
  | rejectWithdrawal st now id => rfl

theorem profileIds_runCalls (cs : List WalletCall) (db : Store) :
    (runCalls cs db).profiles.map (fun p => p.id) = db.profiles.map (fun p => p.id) := by
  induction cs generalizing db with
  | nil => rfl
  | cons c cs ih => exact (ih (c.run db)).trans (profileIds_run c db)

/-! ## Wallet balance and wallet transactions -/

theorem jsMul_20_1 :
    jsMul 20 1 = 20 := by
  exact binary64_eq_near _ _ (4) 5629499534213120 (by norm_num) (by norm_num) (by norm_num)
    (by norm_num [abs_lt]) (by norm_num)

theorem jsAdd_0_20 :
    jsAdd 0 20 = 20 := by
  exact binary64_eq_near _ _ (4) 5629499534213120 (by norm_num) (by norm_num) (by norm_num)
    (by norm_num [abs_lt]) (by norm_num)

/-- C2, as stated, fails: from a fresh store, after the picker marks the
customer's item (price 20, quantity 1) missing and the customer then requests a
withdrawal, the customer's balance is 0 while the customer's transactions sum
to 20. -/
theorem balance_differs_from_transactions_after_withdrawal :
    Fresh ledgerStore ∧
    walletBalance (runCalls ledgerCalls ledgerStore) 1 = 0 ∧
    transactionSum (runCalls ledgerCalls ledgerStore) 1 = 20 ∧
    walletBalance (runCalls ledgerCalls ledgerStore) 1 ≠
      transactionSum (runCalls ledgerCalls ledgerStore) 1 := by
  have hb : walletBalance (runCalls ledgerCalls ledgerStore) 1 = 0 := by
    simp [runCalls, ledgerCalls, WalletCall.run, markItem, requestWithdrawal, online,
      updateItemStatus, pickerOnMission, sampleSession, ledgerStore, sampleStore, ledgerOrder,
      ledgerItem, sampleOrder, sampleItem, sampleProfile, selectOrder, selectProfile, single,
      creditWallet, setWalletBalance, insertTransaction, orZero, walletBalance,
      MIN_WITHDRAWAL_eq, jsMul_20_1, jsAdd_0_20]
    norm_num
  have ht : transactionSum (runCalls ledgerCalls ledgerStore) 1 = 20 := by
    simp [runCalls, ledgerCalls, WalletCall.run, markItem, requestWithdrawal, online,
      updateItemStatus, pickerOnMission, sampleSession, ledgerStore, sampleStore, ledgerOrder,
      ledgerItem, sampleOrder, sampleItem, sampleProfile, selectOrder, selectProfile, single,
      creditWallet, setWalletBalance, insertTransaction, orZero, transactionSum, transactionsOf,
      MIN_WITHDRAWAL_eq, jsMul_20_1, jsAdd_0_20]
    norm_num
  refine ⟨?_, hb, ht, ?_⟩
  · simp [Fresh, ledgerStore, sampleStore, sampleProfile, orZero]
  · rw [hb, ht]; norm_num

/-- C2, amended: in every state reached from a store with zero balances, no
wallet transactions and no withdrawals by any sequence of markItem,
completeDelivery, requestWithdrawal, approveWithdrawal and rejectWithdrawal
calls whose store calls all go through, the wallet_balance of each user with a
profile is the sum of the amounts of the wallet transactions of that user
inserted after the user's latest withdrawal request (of all of them when the
user has made none), added in insertion order with every partial sum rounded
to binary64. -/
theorem wallet_balance_eq_credits_since_withdrawal (db : Store) (cs : List WalletCall)
    (h : Fresh db) (u : Nat) (hu : u ∈ db.profiles.map (fun p => p.id)) :
    walletBalance (runCalls cs db) u =
      (creditsSinceWithdrawal (runCalls cs db) u).foldl jsAdd 0 := by
  obtain ⟨hnd, _, _, hbal⟩ := ledger_runCalls cs db (ledger_of_fresh db h)
  rw [← profileIds_runCalls cs db] at hu
  obtain ⟨p, hp, rfl⟩ := List.mem_map.mp hu
  rw [← hbal p hp, walletBalance, selectProfile_of_mem _ hnd p hp]
  rfl

theorem wallet_balance_eq_credits_since_withdrawal_witness :
    Fresh ledgerStore ∧
    walletBalance (runCalls ledgerCalls ledgerStore) 1 =
      (creditsSinceWithdrawal (runCalls ledgerCalls ledgerStore) 1).foldl jsAdd 0 :=
  have hf : Fresh ledgerStore := by
    simp [Fresh, ledgerStore, sampleStore, sampleProfile, orZero]
  ⟨hf, wallet_balance_eq_credits_since_withdrawal ledgerStore ledgerCalls hf 1 (by decide)⟩

/-! ## Order status -/

/-- C3, as stated, fails: `secureMission` on a delivered order moves it back to
gathering, so the order passes through delivered and then gathering, which is
not a subsequence of the pipeline. -/
theorem secureMission_moves_delivered_order_back :
    orderStatus (storeWithOrder OrderStatus.delivered (some 2) (some 4)) 10 =
      some OrderStatus.delivered ∧
    statusTrace 10 [OrderCall.secureMission (sampleSession (some 2))]
        (storeWithOrder OrderStatus.delivered (some 2) (some 4)) =
      [some OrderStatus.gathering] ∧
    ¬ List.Sublist [OrderStatus.delivered, OrderStatus.gathering] pipeline := by
  refine ⟨by decide, by decide, by decide⟩

/-- C3, amended: for every order and every sequence of secureMission,
finishAndPack, claimDelivery and completeDelivery calls applied to it by
signed-in sessions, with every store call going through, the status of the
order after each call is the status that call writes (gathering, packed,
in_transit, delivered respectively), whatever the status before the call. -/
theorem statusTrace_eq_targets (orderId : Nat) (cs : List OrderCall) (db : Store) (o : Order)
    (h : selectOrder db orderId = some o) (hcs : ∀ c ∈ cs, c.session.user ≠ none) :
    statusTrace orderId cs db = cs.map (fun c => some c.target) := by
  induction cs generalizing db o with
  | nil => rfl
  | cons c cs ih =>
    obtain ⟨o', ho', hst⟩ := selectOrder_run orderId c db o (hcs c (List.mem_cons_self _ _)) h
    simp only [statusTrace, List.map_cons, orderStatus, ho', Option.map_some', hst]
    rw [ih _ o' ho' (fun c' hc' => hcs c' (List.mem_cons_of_mem _ hc'))]

theorem statusTrace_eq_targets_witness :
    selectOrder (storeWithOrder OrderStatus.pending none none) 10 =
      some (sampleOrder 10 (some 1) none none OrderStatus.pending (binary64 132.7)) ∧
    statusTrace 10
        [OrderCall.secureMission (sampleSession (some 2)),
         OrderCall.finishAndPack (sampleSession (some 2)) 7,
         OrderCall.claimDelivery (sampleSession (some 4)),
         OrderCall.completeDelivery (sampleSession (some 4)) 9]
        (storeWithOrder OrderStatus.pending none none) =
      [some OrderStatus.gathering, some OrderStatus.packed, some OrderStatus.in_transit,
       some OrderStatus.delivered] :=
  ⟨rfl, statusTrace_eq_targets 10 _ (storeWithOrder OrderStatus.pending none none) _ rfl
    (by decide)⟩

/-! ## Claims by pickers and drivers -/

/-- C4, as stated, fails: on an order that picker 2 is gathering, `secureMission`
by picker 3 goes through and replaces picker 2 by picker 3. -/
theorem secureMission_replaces_first_picker :
    (selectOrder (storeWithOrder OrderStatus.gathering (some 2) none) 10).map
      (fun o => (o.picker_id, o.status)) = some (some 2, OrderStatus.gathering) ∧
    (selectOrder (secureMission online 10
        ⟨storeWithOrder OrderStatus.gathering (some 2) none, sampleSession (some 3)⟩).db 10).map
      (fun o => (o.picker_id, o.status)) = some (some 3, OrderStatus.gathering) := by
  refine ⟨by decide, by decide⟩

/-- C4, amended: for every order, whether or not a picker is already assigned, a
`secureMission` call by a signed-in picker whose store calls go through sets the
order's picker_id to the caller and its status to gathering, and leaves the
other columns of the order as they were; a later call overwrites the picker of
an earlier one. -/
theorem secureMission_overwrites_picker (a : App) (orderId uid : Nat) (o : Order)
    (hu : a.st.user = some uid) (ho : selectOrder a.db orderId = some o) :
    selectOrder (secureMission online orderId a).db orderId =
      some { o with status := OrderStatus.gathering, picker_id := some uid } := by
  have h1 := selectOrder_updateOrderStatus a.db orderId OrderStatus.gathering
    (fun o => { o with picker_id := some uid }) (fun _ => rfl) o ho
  simp only [secureMission, hu, online, if_true]
  split <;> exact h1

theorem secureMission_overwrites_picker_witness :
    selectOrder (storeWithOrder OrderStatus.gathering (some 2) none) 10 =
      some (sampleOrder 10 (some 1) (some 2) none OrderStatus.gathering (binary64 132.7)) ∧
    selectOrder (secureMission online 10
        ⟨storeWithOrder OrderStatus.gathering (some 2) none, sampleSession (some 3)⟩).db 10 =
      some (sampleOrder 10 (some 1) (some 3) none OrderStatus.gathering (binary64 132.7)) :=
  ⟨rfl, secureMission_overwrites_picker
    ⟨storeWithOrder OrderStatus.gathering (some 2) none, sampleSession (some 3)⟩ 10 3 _ rfl rfl⟩

/-- C5, as stated, fails: of two successive `claimDelivery` calls on a packed
order, by driver 4 and then by driver 5, the second also goes through and the
order ends with driver 5. -/
theorem claimDelivery_replaces_first_driver :
    (selectOrder (claimDelivery online 10
        ⟨storeWithOrder OrderStatus.packed (some 2) none, sampleSession (some 4)⟩).db 10).map
      (fun o => (o.driver_id, o.status)) = some (some 4, OrderStatus.in_transit) ∧
    (selectOrder (claimDelivery online 10
        ⟨(claimDelivery online 10
            ⟨storeWithOrder OrderStatus.packed (some 2) none, sampleSession (some 4)⟩).db,
         sampleSession (some 5)⟩).db 10).map
      (fun o => (o.driver_id, o.status)) = some (some 5, OrderStatus.in_transit) := by
  refine ⟨by decide, by decide⟩

/-- C5, amended: for every order, whether or not a driver is already assigned, a
`claimDelivery` call by a signed-in driver whose store call goes through sets
the order's driver_id to the caller and its status to in_transit, and leaves
the other columns of the order as they were; of two successive claims the
second overwrites the first. -/
theorem claimDelivery_overwrites_driver (a : App) (orderId uid : Nat) (o : Order)
    (hu : a.st.user = some uid) (ho : selectOrder a.db orderId = some o) :
    selectOrder (claimDelivery online orderId a).db orderId =
      some { o with status := OrderStatus.in_transit, driver_id := some uid } := by
  have h1 := selectOrder_updateOrderStatus a.db orderId OrderStatus.in_transit
    (fun o => { o with driver_id := some uid }) (fun _ => rfl) o ho
  simp only [claimDelivery, hu, online]
  exact h1

theorem claimDelivery_overwrites_driver_witness :
    selectOrder (storeWithOrder OrderStatus.in_transit (some 2) (some 4)) 10 =
      some (sampleOrder 10 (some 1) (some 2) (some 4) OrderStatus.in_transit (binary64 132.7)) ∧
    selectOrder (claimDelivery online 10
        ⟨storeWithOrder OrderStatus.in_transit (some 2) (some 4), sampleSession (some 5)⟩).db 10 =
      some (sampleOrder 10 (some 1) (some 2) (some 5) OrderStatus.in_transit (binary64 132.7)) :=
  ⟨rfl, claimDelivery_overwrites_driver
    ⟨storeWithOrder OrderStatus.in_transit (some 2) (some 4), sampleSession (some 5)⟩ 10 5 _
    rfl rfl⟩

/-! ## Missing items and refunds -/

theorem jsAdd_20_20 : jsAdd 20 20 = 40 := by
  exact binary64_eq_near _ _ 5 5629499534213120 (by norm_num) (by norm_num) (by norm_num)
    (by norm_num [abs_lt]) (by norm_num)

/-- C6, as stated, fails: two successive calls of `markItem(item, 'missing')` on
the item of price 20 and quantity 1 leave two refund transactions of 20 and
credit the customer twice, 40 in all. -/
theorem markItem_missing_twice_double_refund :
    (markItem online 20 ItemStatus.missing
        (markItem online 20 ItemStatus.missing ledgerApp)).db.wallet_transactions.map
      (fun t => (t.user_id, t.type, t.amount)) =
      [(some 1, TxnType.refund, 20), (some 1, TxnType.refund, 20)] ∧
    walletBalance ledgerApp.db 1 = 0 ∧
    walletBalance (markItem online 20 ItemStatus.missing ledgerApp).db 1 = 20 ∧
    walletBalance (markItem online 20 ItemStatus.missing
        (markItem online 20 ItemStatus.missing ledgerApp)).db 1 = 40 := by
  refine ⟨?_, ?_, ?_, ?_⟩ <;>
  · simp [ledgerApp, markItem, online, updateItemStatus, pickerOnMission, sampleSession,
      ledgerStore, sampleStore, ledgerOrder, ledgerItem, sampleOrder, sampleItem, sampleProfile,
      selectOrder, selectProfile, single, creditWallet, setWalletBalance, insertTransaction,
      orZero, walletBalance, markLocal, jsMul_20_1, jsAdd_0_20, jsAdd_20_20]

/-- C6, amended: for every item shown on the mission page of the current order,
with every store call going through, each call of `markItem(item, 'missing')`
appends one refund transaction of price × quantity and credits the customer
with it, so two successive calls produce two refund transactions for the item
and credit the customer's wallet_balance twice (the product and the two sums
are those of the code, rounded to binary64). -/
theorem markItem_missing_twice_refunds_twice (a : App) (itemId : Nat) (v : OrderView)
    (items : List OrderItem) (item : OrderItem) (o : Order) (c : Nat) (p : Profile)
    (hgi : itemId ∈ a.st.gi) (hcur : a.st.currentOrder = some v)
    (hitems : v.order_items = some items)
    (hfind : items.find? (fun i => i.id = itemId) = some item)
    (hord : selectOrder a.db v.row.id = some o) (hcust : o.customer_id = some c)
    (hprof : selectProfile a.db (some c) = some p) :
    (markItem online itemId ItemStatus.missing
        (markItem online itemId ItemStatus.missing a)).db.wallet_transactions =
      a.db.wallet_transactions ++
        [{ id := a.db.seq, user_id := some c, order_id := some v.row.id,
           type := TxnType.refund, amount := jsMul item.price item.quantity,
           description := "Refund: " ++ item.product_name },
         { id := a.db.seq + 1, user_id := some c, order_id := some v.row.id,
           type := TxnType.refund, amount := jsMul item.price item.quantity,
           description := "Refund: " ++ item.product_name }] ∧
    walletBalance (markItem online itemId ItemStatus.missing
        (markItem online itemId ItemStatus.missing a)).db c =
      jsAdd (jsAdd (walletBalance a.db c) (jsMul item.price item.quantity))
        (jsMul item.price item.quantity) := by
  have hprof1 : selectProfile (updateItemStatus true a.db itemId ItemStatus.missing).1 (some c)
      = some p := by
    simpa [selectProfile, updateItemStatus] using hprof
  have e1 := markItem_missing_eq a itemId v items item o hgi hcur hitems hfind hord
  rw [e1]
  rw [markItem_missing_eq
    { db := creditWallet true true true
          (updateItemStatus true a.db itemId ItemStatus.missing).1 o.customer_id
          (some v.row.id) TxnType.refund (jsMul item.price item.quantity)
          ("Refund: " ++ item.product_name)
      st := { a.st with
          currentOrder := some
            { v with order_items := some (markLocal items itemId ItemStatus.missing) } } }
    itemId
    { v with order_items := some (markLocal items itemId ItemStatus.missing) }
    (markLocal items itemId ItemStatus.missing) { item with status := ItemStatus.missing } o
    hgi rfl rfl (find_markLocal items itemId _ item hfind)
    (by rw [selectOrder_congr a.db]; exact hord
        rw [creditWallet_orders]; simp [updateItemStatus])]
  rw [hcust]
  have hc1 := walletBalance_creditWallet _ c p (some v.row.id) TxnType.refund
    (jsMul item.price item.quantity) ("Refund: " ++ item.product_name) hprof1
  have hsel2 := (selectProfile_updateItemStatus true _ itemId ItemStatus.missing (some c)).trans
    hc1.1
  refine ⟨?_, ?_⟩
  · simp [creditWallet, insertTransaction, setWalletBalance, updateItemStatus]
  · rw [(walletBalance_creditWallet _ c _ _ _ _ _ hsel2).2, walletBalance_updateItemStatus,
      hc1.2, walletBalance_updateItemStatus]

theorem markItem_missing_twice_refunds_twice_witness :
    20 ∈ ledgerApp.st.gi ∧
    selectOrder ledgerApp.db 10 = some ledgerOrder ∧
    selectProfile ledgerApp.db (some 1) = some (sampleProfile 1 "customer" (some 0)) ∧
    walletBalance (markItem online 20 ItemStatus.missing
        (markItem online 20 ItemStatus.missing ledgerApp)).db 1 =
      jsAdd (jsAdd (walletBalance ledgerApp.db 1) (jsMul ledgerItem.price ledgerItem.quantity))
        (jsMul ledgerItem.price ledgerItem.quantity) :=
  ⟨by decide, rfl, rfl,
   (markItem_missing_twice_refunds_twice ledgerApp 20
      { row := ledgerOrder, order_items := some [ledgerItem] } [ledgerItem] ledgerItem
      ledgerOrder 1 (sampleProfile 1 "customer" (some 0)) (by decide) rfl rfl rfl rfl rfl
      rfl).2⟩

/-- C7: for every item of the current order shown on the mission page (in
particular every pending one), with every store call going through,
`markItem(item, 'missing')` sets the item's status to missing, appends exactly
one wallet transaction of type refund with amount price × quantity of that item
for the order's customer and that order, increases that customer's
wallet_balance by the same amount, and leaves every other user's balance
unchanged. -/
theorem markItem_missing_refunds_customer (a : App) (itemId : Nat) (v : OrderView)
    (items : List OrderItem) (item : OrderItem) (o : Order) (c : Nat) (p : Profile)
    (hgi : itemId ∈ a.st.gi) (hcur : a.st.currentOrder = some v)
    (hitems : v.order_items = some items)
    (hfind : items.find? (fun i => i.id = itemId) = some item)
    (hord : selectOrder a.db v.row.id = some o) (hcust : o.customer_id = some c)
    (hprof : selectProfile a.db (some c) = some p) :
    (markItem online itemId ItemStatus.missing a).db.order_items =
      a.db.order_items.map (fun i =>
        if i.id = itemId then { i with status := ItemStatus.missing } else i) ∧
    (markItem online itemId ItemStatus.missing a).db.wallet_transactions =
      a.db.wallet_transactions ++
        [{ id := a.db.seq, user_id := some c, order_id := some v.row.id,
           type := TxnType.refund, amount := jsMul item.price item.quantity,
           description := "Refund: " ++ item.product_name }] ∧
    walletBalance (markItem online itemId ItemStatus.missing a).db c =
      jsAdd (walletBalance a.db c) (jsMul item.price item.quantity) ∧
    ∀ u, u ≠ c → walletBalance (markItem online itemId ItemStatus.missing a).db u =
      walletBalance a.db u := by
  rw [markItem_missing_eq a itemId v items item o hgi hcur hitems hfind hord, hcust]
  have hprof1 : selectProfile (updateItemStatus true a.db itemId ItemStatus.missing).1 (some c)
      = some p := by
    simpa [selectProfile, updateItemStatus] using hprof
  refine ⟨?_, ?_, ?_, ?_⟩
  · simp [creditWallet, insertTransaction, setWalletBalance, updateItemStatus]
  · simp [creditWallet, insertTransaction, setWalletBalance, updateItemStatus]
  · rw [(walletBalance_creditWallet _ c p _ _ _ _ hprof1).2, walletBalance_updateItemStatus]
  · intro u hu
    rw [walletBalance_creditWallet_of_ne _ c u _ _ _ _ hu, walletBalance_updateItemStatus]

theorem markItem_missing_refunds_customer_witness :
    20 ∈ ledgerApp.st.gi ∧
    ledgerItem.status = ItemStatus.pending ∧
    selectOrder ledgerApp.db 10 = some ledgerOrder ∧
    selectProfile ledgerApp.db (some 1) = some (sampleProfile 1 "customer" (some 0)) ∧
    walletBalance (markItem online 20 ItemStatus.missing ledgerApp).db 1 =
      jsAdd (walletBalance ledgerApp.db 1) (jsMul ledgerItem.price ledgerItem.quantity) :=
  ⟨by decide, rfl, rfl, rfl,
   (markItem_missing_refunds_customer ledgerApp 20
      { row := ledgerOrder, order_items := some [ledgerItem] } [ledgerItem] ledgerItem
      ledgerOrder 1 (sampleProfile 1 "customer" (some 0)) (by decide) rfl rfl rfl rfl rfl
      rfl).2.2.1⟩

/-! ## Withdrawal requests -/

theorem binary64_0_03 :
    binary64 0.03 = 1080863910568919 / 36028797018963968 := by
  exact binary64_eq_near _ _ (-6) 8646911284551352 (by norm_num) (by norm_num) (by norm_num)
    (by norm_num [abs_lt]) (by norm_num)

theorem withdrawalFee_50_eval :
    jsMul 50 (binary64 0.03) = 3 / 2 := by
  rw [binary64_0_03]
  exact binary64_eq_near _ _ (0) 6755399441055744 (by norm_num) (by norm_num) (by norm_num)
    (by norm_num [abs_lt]) (by norm_num)

theorem netPayout_50_eval :
    jsSub 50 (jsMul 50 (binary64 0.03)) = 97 / 2 := by
  rw [withdrawalFee_50_eval]
  exact binary64_eq_near _ _ (5) 6825768185233408 (by norm_num) (by norm_num) (by norm_num)
    (by norm_num [abs_lt]) (by norm_num)

/-- C8: for every signed-in user whose wallet_balance b is at least 15.01
(15.01 included), with every store call going through, `requestWithdrawal`
appends exactly one withdrawal row, with status pending, amount b and
net_payout b − b × 0.03 (the product and the difference rounded to binary64),
and sets the user's wallet_balance to 0; for b = 50 the fee is 1.50 and the net
payout 48.50. -/
theorem requestWithdrawal_creates_pending (a : App) (uid : Nat) (p : Profile)
    (hu : a.st.user = some uid) (hp : selectProfile a.db (some uid) = some p)
    (hb : MIN_WITHDRAWAL ≤ orZero p.wallet_balance) :
    (requestWithdrawal online a).db.withdrawals =
      a.db.withdrawals ++
        [{ id := a.db.seq, user_id := some uid, amount := orZero p.wallet_balance,
           net_payout :=
             jsSub (orZero p.wallet_balance) (jsMul (orZero p.wallet_balance) (binary64 0.03)),
           status := WithdrawalStatus.pending, processed_at := none }] ∧
    selectProfile (requestWithdrawal online a).db (some uid) =
      some { p with wallet_balance := some 0 } ∧
    walletBalance (requestWithdrawal online a).db uid = 0 ∧
    withdrawalFee 50 = 1.50 ∧ netPayout 50 = 48.50 := by
  have hw : walletBalance a.db uid = orZero p.wallet_balance := by
    simp [walletBalance, hp]
  rw [requestWithdrawal_online_eq a uid hu (by rw [hw]; exact hb), hw]
  have hp1 : selectProfile
      { a.db with
        withdrawals := a.db.withdrawals ++
          [{ id := a.db.seq, user_id := some uid, amount := orZero p.wallet_balance,
             net_payout := netPayout (orZero p.wallet_balance),
             status := WithdrawalStatus.pending, processed_at := none }]
        seq := a.db.seq + 1 } (some uid) = some p := hp
  have hsel := selectProfile_setWalletBalance _ uid 0 p hp1
  refine ⟨?_, hsel, ?_, ?_, ?_⟩
  · simp [setWalletBalance, netPayout, withdrawalFee]
  · exact walletBalance_setWalletBalance_same _ uid 0 p hp1
  · rw [withdrawalFee, withdrawalFee_50_eval]; norm_num
  · rw [netPayout, withdrawalFee, netPayout_50_eval]; norm_num

theorem requestWithdrawal_creates_pending_witness :
    MIN_WITHDRAWAL ≤ orZero (sampleProfile 1 "driver" (some (binary64 15.01))).wallet_balance ∧
    (requestWithdrawal online (walletApp (some (binary64 15.01)))).db.withdrawals =
      (walletApp (some (binary64 15.01))).db.withdrawals ++
        [{ id := 100, user_id := some 1, amount := binary64 15.01,
           net_payout := jsSub (binary64 15.01) (jsMul (binary64 15.01) (binary64 0.03)),
           status := WithdrawalStatus.pending, processed_at := none }] ∧
    walletBalance (requestWithdrawal online (walletApp (some (binary64 15.01)))).db 1 = 0 :=
  have h := requestWithdrawal_creates_pending (walletApp (some (binary64 15.01))) 1
    (sampleProfile 1 "driver" (some (binary64 15.01))) rfl rfl (le_refl _)
  ⟨le_refl _, h.1, h.2.2.1⟩

/-- C9: for every user whose wallet_balance is below 15.01 (a missing balance
is read as 0), `requestWithdrawal` is rejected whatever the outcome of its store
calls: the whole state is unchanged, so no withdrawal row is created and the
user's wallet_balance is unchanged. -/
theorem requestWithdrawal_rejected_below_minimum (net : Net) (a : App) (uid : Nat)
    (hu : a.st.user = some uid) (hb : walletBalance a.db uid < MIN_WITHDRAWAL) :
    requestWithdrawal net a = a ∧
    (requestWithdrawal net a).db.withdrawals = a.db.withdrawals ∧
    walletBalance (requestWithdrawal net a).db uid = walletBalance a.db uid := by
  have h : requestWithdrawal net a = a :=
    requestWithdrawal_eq_self_of_lt net a (fun u hu' => by
      rw [hu] at hu'; cases hu'; exact hb)
  rw [h]; exact ⟨rfl, rfl, rfl⟩

theorem requestWithdrawal_rejected_below_minimum_witness :
    walletBalance (walletApp none).db 1 < MIN_WITHDRAWAL ∧
    requestWithdrawal online (walletApp none) = walletApp none :=
  have hb : walletBalance (walletApp none).db 1 < MIN_WITHDRAWAL := by
    simp [walletBalance, walletApp, sampleStore, sampleProfile, selectProfile, single, orZero,
      MIN_WITHDRAWAL_eq]
  ⟨hb, (requestWithdrawal_rejected_below_minimum online (walletApp none) 1 rfl hb).1⟩

/-- C10, as stated, fails: `requestWithdrawal` reports success as soon as the
insert of the withdrawal goes through and does not look at the outcome of the
update that zeroes the balance.  For a balance of 50, when the insert goes
through and that update fails, the balance is still 50 and an immediately
repeated call inserts a second pending withdrawal of 50. -/
theorem requestWithdrawal_retry_duplicates_withdrawal :
    (requestWithdrawal zeroingFails (walletApp (some 50))).db.withdrawals.map
        (fun w => (w.id, w.user_id, w.amount, w.status)) =
      [(100, some 1, 50, WithdrawalStatus.pending)] ∧
    walletBalance (requestWithdrawal zeroingFails (walletApp (some 50))).db 1 = 50 ∧
    (requestWithdrawal online
        (requestWithdrawal zeroingFails (walletApp (some 50)))).db.withdrawals.map
        (fun w => (w.id, w.user_id, w.amount, w.status)) =
      [(100, some 1, 50, WithdrawalStatus.pending),
       (101, some 1, 50, WithdrawalStatus.pending)] := by
  refine ⟨?_, ?_, ?_⟩ <;>
  · simp [requestWithdrawal, zeroingFails, online, walletApp, sampleStore, sampleProfile,
      sampleSession, selectProfile, single, orZero, walletBalance, setWalletBalance,
      MIN_WITHDRAWAL_eq]
    try norm_num

/-- C10, amended: the repeated call is harmless exactly when the first call
zeroed the balance.  For every signed-in user with a balance of at least
15.01: after a first call whose store calls all go through, an immediately
repeated call, whatever the outcome of its store calls, leaves the state as the
first call left it (one withdrawal row added, balance 0); after a first call
whose insert goes through and whose zeroing update fails, the balance is
unchanged and a repeated call whose store calls go through appends a second
withdrawal row with the same amount. -/
theorem requestWithdrawal_retry_idempotent_after_zeroing (net net1 : Net) (a : App)
    (uid : Nat) (p : Profile)
    (hu : a.st.user = some uid) (hp : selectProfile a.db (some uid) = some p)
    (hb : MIN_WITHDRAWAL ≤ orZero p.wallet_balance) :
    requestWithdrawal net (requestWithdrawal online a) = requestWithdrawal online a ∧
    (requestWithdrawal net (requestWithdrawal online a)).db.withdrawals.length =
      a.db.withdrawals.length + 1 ∧
    walletBalance (requestWithdrawal net (requestWithdrawal online a)).db uid = 0 ∧
    (net1 0 = true → net1 1 = true → net1 2 = false →
      walletBalance (requestWithdrawal net1 a).db uid = orZero p.wallet_balance ∧
      (requestWithdrawal online (requestWithdrawal net1 a)).db.withdrawals =
        a.db.withdrawals ++
          [{ id := a.db.seq, user_id := some uid, amount := orZero p.wallet_balance,
             net_payout := netPayout (orZero p.wallet_balance),
             status := WithdrawalStatus.pending, processed_at := none },
           { id := a.db.seq + 1, user_id := some uid, amount := orZero p.wallet_balance,
             net_payout := netPayout (orZero p.wallet_balance),
             status := WithdrawalStatus.pending, processed_at := none }]) := by
  have hw : walletBalance a.db uid = orZero p.wallet_balance := by
    simp [walletBalance, hp]
  have e := requestWithdrawal_online_eq a uid hu (by rw [hw]; exact hb)
  have hp1 : selectProfile
      { a.db with
        withdrawals := a.db.withdrawals ++
          [{ id := a.db.seq, user_id := some uid, amount := walletBalance a.db uid,
             net_payout := netPayout (walletBalance a.db uid),
             status := WithdrawalStatus.pending, processed_at := none }]
        seq := a.db.seq + 1 } (some uid) = some p := hp
  have hzero : walletBalance (requestWithdrawal online a).db uid = 0 := by
    rw [e]; exact walletBalance_setWalletBalance_same _ uid 0 p hp1
  have huser : (requestWithdrawal online a).st.user = some uid := by rw [e]; exact hu
  have hidem : requestWithdrawal net (requestWithdrawal online a) = requestWithdrawal online a :=
    requestWithdrawal_eq_self_of_lt net _ (fun u hu' => by
      rw [huser] at hu'; cases hu'; rw [hzero]; simp [MIN_WITHDRAWAL_eq])
  refine ⟨hidem, ?_, ?_, ?_⟩
  · rw [hidem, e]; simp [setWalletBalance]
  · rw [hidem]; exact hzero
  · intro h0 h1 h2
    have hb' : ¬ orZero p.wallet_balance < MIN_WITHDRAWAL := not_lt.mpr hb
    have e1 : requestWithdrawal net1 a =
        { a with
          db := { a.db with
            withdrawals := a.db.withdrawals ++
              [{ id := a.db.seq, user_id := some uid, amount := orZero p.wallet_balance,
                 net_payout := netPayout (orZero p.wallet_balance),
                 status := WithdrawalStatus.pending, processed_at := none }]
            seq := a.db.seq + 1 } } := by
      simp [requestWithdrawal, hu, h0, h1, h2, hp, hb']
    have hu1 : (requestWithdrawal net1 a).st.user = some uid := by rw [e1]; exact hu
    have hw1 : walletBalance (requestWithdrawal net1 a).db uid = orZero p.wallet_balance := by
      rw [e1]; exact hw
    refine ⟨hw1, ?_⟩
    rw [requestWithdrawal_online_eq (requestWithdrawal net1 a) uid hu1 (by rw [hw1]; exact hb),
      hw1, e1]
    simp [setWalletBalance]

theorem requestWithdrawal_retry_idempotent_after_zeroing_witness :
    MIN_WITHDRAWAL ≤ orZero (sampleProfile 1 "driver" (some 50)).wallet_balance ∧
    requestWithdrawal online (requestWithdrawal online (walletApp (some 50))) =
      requestWithdrawal online (walletApp (some 50)) ∧
    (requestWithdrawal online
        (requestWithdrawal zeroingFails (walletApp (some 50)))).db.withdrawals =
      (walletApp (some 50)).db.withdrawals ++
        [{ id := 100, user_id := some 1, amount := 50, net_payout := netPayout 50,
           status := WithdrawalStatus.pending, processed_at := none },
         { id := 101, user_id := some 1, amount := 50, net_payout := netPayout 50,
           status := WithdrawalStatus.pending, processed_at := none }] :=
  have hb : MIN_WITHDRAWAL ≤ orZero (sampleProfile 1 "driver" (some 50)).wallet_balance := by
    simp [sampleProfile, orZero, MIN_WITHDRAWAL_eq]
    norm_num
  have h := requestWithdrawal_retry_idempotent_after_zeroing online zeroingFails
    (walletApp (some 50)) 1 (sampleProfile 1 "driver" (some 50)) rfl rfl hb
  ⟨hb, h.1, (h.2.2.2 rfl rfl rfl).2⟩

/-! ## Rejected withdrawals -/

/-- C11, as stated, fails: rejecting the pending withdrawal of 50 of user 1 marks
it rejected, while the balance of user 1 stays 0 and no wallet transaction is
appended. -/
theorem rejectWithdrawal_leaves_balance_and_transactions :
    (pendingWithdrawalStore.withdrawals.map (fun w => (w.id, w.user_id, w.status))) =
      [(30, some 1, WithdrawalStatus.pending)] ∧
    ((rejectWithdrawal online 5 30
        ⟨pendingWithdrawalStore, sampleSession (some 9)⟩).db.withdrawals.map
      (fun w => (w.id, w.user_id, w.status))) = [(30, some 1, WithdrawalStatus.rejected)] ∧
    walletBalance pendingWithdrawalStore 1 = 0 ∧
    walletBalance (rejectWithdrawal online 5 30
      ⟨pendingWithdrawalStore, sampleSession (some 9)⟩).db 1 = 0 ∧
    (rejectWithdrawal online 5 30
      ⟨pendingWithdrawalStore, sampleSession (some 9)⟩).db.wallet_transactions = [] := by
  refine ⟨by decide, by decide, ?_, ?_, by decide⟩ <;>
    simp [walletBalance, rejectWithdrawal, settleWithdrawal, pendingWithdrawalStore, sampleStore,
      sampleProfile, selectProfile, single, orZero, online]

/-- C11, amended: for every withdrawal, `rejectWithdrawal` changes only the
status (to rejected) and processed_at of the withdrawal it names; whatever the
outcome of the store call, no profile changes, so the user's wallet_balance is
not restored, and no wallet transaction is appended. -/
theorem rejectWithdrawal_changes_status_only (net : Net) (now id : Nat) (a : App) :
    (rejectWithdrawal net now id a).db.profiles = a.db.profiles ∧
    (rejectWithdrawal net now id a).db.wallet_transactions = a.db.wallet_transactions ∧
    (rejectWithdrawal online now id a).db.withdrawals =
      a.db.withdrawals.map (fun w =>
        if w.id = id then
          { w with status := WithdrawalStatus.rejected, processed_at := some now }
        else w) := by
  refine ⟨?_, ?_, ?_⟩
  · cases h : net 0 <;> simp [rejectWithdrawal, settleWithdrawal, h]
  · cases h : net 0 <;> simp [rejectWithdrawal, settleWithdrawal, h]
  · simp [rejectWithdrawal, settleWithdrawal, online]

/-! ## Driver earnings -/

theorem creditWallet_wallet_transactions (db : Store) (user order : Option Nat)
    (type : TxnType) (amount : ℚ) (description : String) :
    (creditWallet true true true db user order type amount description).wallet_transactions =
      db.wallet_transactions ++
        [{ id := db.seq, user_id := user, order_id := order, type := type, amount := amount,
           description := description }] := by
  cases user <;> simp [creditWallet, insertTransaction, setWalletBalance]

theorem walletBalance_updateOrderStatus (ok : Bool) (db : Store) (orderId : Nat)
    (status : OrderStatus) (f : Order → Order) (u : Nat) :
    walletBalance (updateOrderStatus ok db orderId status f).1 u = walletBalance db u := by
  cases ok <;> rfl

/-- What `completeDelivery` does to the store when the order row is read and
every store call goes through. -/
theorem completeDelivery_online_eq (a : App) (now orderId : Nat) (o : Order)
    (hord : selectOrder a.db orderId = some o) :
    (completeDelivery online now orderId a).db =
      (updateOrderStatus true (creditWallet true true true a.db o.driver_id (some orderId)
        TxnType.earning (jsMul (orZero o.travel_fee) DRIVER_SHARE) "Delivery completed") orderId
        OrderStatus.delivered (fun o => { o with delivered_at := some now })).1 := by
  simp only [completeDelivery, online, if_true, hord]

/-- C12: for every order with an assigned driver who has a profile (in
particular every in_transit one), with every store call going through,
`completeDelivery` increases that driver's wallet_balance by travel_fee × 0.70
(the product and the sum as the code forms them, rounded to binary64), appends
exactly one wallet transaction of type earning with that amount for that driver
and order, sets the order's status to delivered with delivered_at set, and
changes no other user's balance. -/
theorem completeDelivery_credits_driver (a : App) (now orderId : Nat) (o : Order) (d : Nat)
    (p : Profile) (hord : selectOrder a.db orderId = some o) (hdrv : o.driver_id = some d)
    (hprof : selectProfile a.db (some d) = some p) :
    walletBalance (completeDelivery online now orderId a).db d =
      jsAdd (walletBalance a.db d) (jsMul (orZero o.travel_fee) DRIVER_SHARE) ∧
    (completeDelivery online now orderId a).db.wallet_transactions =
      a.db.wallet_transactions ++
        [{ id := a.db.seq, user_id := some d, order_id := some orderId,
           type := TxnType.earning, amount := jsMul (orZero o.travel_fee) DRIVER_SHARE,
           description := "Delivery completed" }] ∧
    selectOrder (completeDelivery online now orderId a).db orderId =
      some { o with status := OrderStatus.delivered, delivered_at := some now } ∧
    ∀ u, u ≠ d → walletBalance (completeDelivery online now orderId a).db u =
      walletBalance a.db u := by
  have h0 : selectOrder (creditWallet true true true a.db (some d) (some orderId)
      TxnType.earning (jsMul (orZero o.travel_fee) DRIVER_SHARE) "Delivery completed") orderId
      = some o := by
    rw [selectOrder_congr a.db _ (creditWallet_orders _ _ _ _ _ _ _ _ _)]; exact hord
  have h1 := selectOrder_updateOrderStatus _ orderId OrderStatus.delivered
    (fun o => { o with delivered_at := some now }) (fun _ => rfl) o h0
  have e := completeDelivery_online_eq a now orderId o hord
  rw [hdrv] at e
  rw [e]
  refine ⟨?_, ?_, h1, ?_⟩
  · rw [walletBalance_updateOrderStatus, (walletBalance_creditWallet _ d p _ _ _ _ hprof).2]
  · have := creditWallet_wallet_transactions a.db (some d) (some orderId) TxnType.earning
      (jsMul (orZero o.travel_fee) DRIVER_SHARE) "Delivery completed"
    simpa [updateOrderStatus] using this
  · intro u hu
    rw [walletBalance_updateOrderStatus, walletBalance_creditWallet_of_ne _ d u _ _ _ _ hu]

theorem completeDelivery_credits_driver_witness :
    selectOrder (storeWithOrder OrderStatus.in_transit (some 2) (some 4)) 10 =
      some (sampleOrder 10 (some 1) (some 2) (some 4) OrderStatus.in_transit (binary64 132.7)) ∧
    selectProfile (storeWithOrder OrderStatus.in_transit (some 2) (some 4)) (some 4) =
      some (sampleProfile 4 "driver" none) ∧
    walletBalance (completeDelivery online 9 10
        ⟨storeWithOrder OrderStatus.in_transit (some 2) (some 4), sampleSession (some 4)⟩).db 4 =
      jsAdd (walletBalance (storeWithOrder OrderStatus.in_transit (some 2) (some 4)) 4)
        (jsMul (orZero (some (binary64 132.7))) DRIVER_SHARE) :=
  ⟨rfl, rfl,
   (completeDelivery_credits_driver
      ⟨storeWithOrder OrderStatus.in_transit (some 2) (some 4), sampleSession (some 4)⟩ 9 10
      (sampleOrder 10 (some 1) (some 2) (some 4) OrderStatus.in_transit (binary64 132.7)) 4
      (sampleProfile 4 "driver" none) rfl rfl rfl).1⟩

theorem vat_of_200 :
    jsMul 200 VAT_RATE = 30 := by
  rw [VAT_RATE_eq]
  exact binary64_eq_near _ _ (4) 8444249301319680 (by norm_num) (by norm_num) (by norm_num)
    (by norm_num [abs_lt]) (by norm_num)

theorem subtotal_vat_of_200 :
    jsAdd 200 (jsMul 200 VAT_RATE) = 230 := by
  rw [vat_of_200]
  exact binary64_eq_near _ _ (7) 8092405580431360 (by norm_num) (by norm_num) (by norm_num)
    (by norm_num [abs_lt]) (by norm_num)

theorem total_of_200_132_7 :
    jsAdd (jsAdd 200 (jsMul 200 VAT_RATE)) (binary64 132.7) =
      6380685878309683 / 17592186044416 := by
  rw [subtotal_vat_of_200, binary64_132_7]
  exact binary64_eq_near _ _ (8) 6380685878309683 (by norm_num) (by norm_num) (by norm_num)
    (by norm_num [abs_lt]) (by norm_num)

theorem earning_of_132_7 :
    jsMul (binary64 132.7) DRIVER_SHARE = 817069080832901 / 8796093022208 := by
  rw [binary64_132_7, DRIVER_SHARE_eq]
  exact binary64_eq_near _ _ (6) 6536552646663208 (by norm_num) (by norm_num) (by norm_num)
    (by norm_num [abs_lt]) (by norm_num)

theorem platform_share :
    jsSub 1 DRIVER_SHARE = 1351079888211149 / 4503599627370496 := by
  rw [DRIVER_SHARE_eq]
  exact binary64_eq_near _ _ (-2) 5404319552844596 (by norm_num) (by norm_num) (by norm_num)
    (by norm_num [abs_lt]) (by norm_num)

theorem revenue_of_132_7 :
    jsMul (binary64 132.7) (jsSub 1 DRIVER_SHARE) = 700344926428201 / 17592186044416 := by
  rw [platform_share, binary64_132_7]
  exact binary64_eq_near _ _ (5) 5602759411425608 (by norm_num) (by norm_num) (by norm_num)
    (by norm_num [abs_lt]) (by norm_num)

theorem lifetime_of_132_7 :
    jsAdd 0 (jsMul (binary64 132.7) (jsSub 1 DRIVER_SHARE)) = 700344926428201 / 17592186044416 := by
  rw [revenue_of_132_7]
  exact binary64_eq_near _ _ (5) 5602759411425608 (by norm_num) (by norm_num) (by norm_num)
    (by norm_num [abs_lt]) (by norm_num)

theorem balance_of_132_7 :
    jsAdd 0 (jsMul (binary64 132.7) DRIVER_SHARE) = 817069080832901 / 8796093022208 := by
  rw [earning_of_132_7]
  exact binary64_eq_near _ _ (6) 6536552646663208 (by norm_num) (by norm_num) (by norm_num)
    (by norm_num [abs_lt]) (by norm_num)

theorem line_75_2 :
    jsMul 75 ((2 : ℤ) : ℚ) = 150 := by
  exact binary64_eq_near _ _ (7) 5277655813324800 (by norm_num) (by norm_num) (by norm_num)
    (by norm_num [abs_lt]) (by norm_num)

theorem sum_75_2 :
    jsAdd 0 (jsMul 75 ((2 : ℤ) : ℚ)) = 150 := by
  rw [line_75_2]
  exact binary64_eq_near _ _ (7) 5277655813324800 (by norm_num) (by norm_num) (by norm_num)
    (by norm_num [abs_lt]) (by norm_num)

theorem line_25_2 :
    jsMul 25 ((2 : ℤ) : ℚ) = 50 := by
  exact binary64_eq_near _ _ (5) 7036874417766400 (by norm_num) (by norm_num) (by norm_num)
    (by norm_num [abs_lt]) (by norm_num)

theorem sum_75_2_25_2 :
    jsAdd (jsAdd 0 (jsMul 75 ((2 : ℤ) : ℚ))) (jsMul 25 ((2 : ℤ) : ℚ)) = 200 := by
  rw [sum_75_2, line_25_2]
  exact binary64_eq_near _ _ (7) 7036874417766400 (by norm_num) (by norm_num) (by norm_num)
    (by norm_num [abs_lt]) (by norm_num)

theorem binary64_362_7 :
    binary64 362.7 = 6380685878309683 / 17592186044416 := by
  exact binary64_eq_near _ _ (8) 6380685878309683 (by norm_num) (by norm_num) (by norm_num)
    (by norm_num [abs_lt]) (by norm_num)

theorem binary64_92_88999999999999 :
    binary64 92.88999999999999 = 817069080832901 / 8796093022208 := by
  exact binary64_eq_near _ _ (6) 6536552646663208 (by norm_num) (by norm_num) (by norm_num)
    (by norm_num [abs_lt]) (by norm_num)

theorem binary64_92_89 :
    binary64 92.89 = 6536552646663209 / 70368744177664 := by
  exact binary64_eq_near _ _ (6) 6536552646663209 (by norm_num) (by norm_num) (by norm_num)
    (by norm_num [abs_lt]) (by norm_num)

theorem binary64_39_81 :
    binary64 39.81 = 700344926428201 / 17592186044416 := by
  exact binary64_eq_near _ _ (5) 5602759411425608 (by norm_num) (by norm_num) (by norm_num)
    (by norm_num [abs_lt]) (by norm_num)

/-- The figures of an order with subtotal 200 and travel fee 132.70, from
checkout to the admin page. -/
theorem end_to_end_values (rnd : Nat → ℚ) (paymentMethod : String) (a : App) (uid : Nat)
    (prof : Profile) (huser : a.st.user = some uid) (hprof : a.st.profile = some prof)
    (hsub : getCartTotal a.st = 200) (hfee : a.st.deliveryInfo.fee = some (binary64 132.7))
    (b : App) (now orderId d : Nat) (o : Order) (p : Profile)
    (hord : selectOrder b.db orderId = some o) (hofee : o.travel_fee = some (binary64 132.7))
    (hdrv : o.driver_id = some d) (hp : selectProfile b.db (some d) = some p) :
    (createOrder online rnd paymentMethod a).2.map (fun o => (o.vat, o.travel_fee, o.total)) =
      some (30, some (binary64 132.7), binary64 362.7) ∧
    walletBalance (completeDelivery online now orderId b).db d =
      jsAdd (walletBalance b.db d) (binary64 92.88999999999999) ∧
    platformRevenue { o with status := OrderStatus.delivered, delivered_at := some now } =
      binary64 39.81 ∧
    ∀ (db : Store) (today : Nat),
      db.orders.filter (fun x => x.status = OrderStatus.delivered) =
        [{ o with status := OrderStatus.delivered, delivered_at := some now }] →
      (loadAdminStats online today db).lifetimeRevenue = binary64 39.81 := by
  have hrev : platformRevenue
      { o with status := OrderStatus.delivered, delivered_at := some now } =
      binary64 39.81 := by
    simp only [platformRevenue, hofee, orZero, Option.getD_some]
    rw [revenue_of_132_7, binary64_39_81]
  refine ⟨?_, ?_, hrev, ?_⟩
  · simp only [createOrder, huser, hprof, online, if_true, Option.map_some', newOrder, hsub,
      hfee, orZero, Option.getD_some]
    rw [total_of_200_132_7, vat_of_200, binary64_362_7]
  · have e := completeDelivery_online_eq b now orderId o hord
    rw [hdrv] at e
    rw [e, walletBalance_updateOrderStatus, (walletBalance_creditWallet _ d p _ _ _ _ hp).2,
      hofee]
    simp only [orZero, Option.getD_some]
    rw [earning_of_132_7, binary64_92_88999999999999]
  · intro db today hdb
    simp only [loadAdminStats, online, if_true, hdb, List.foldl_cons, List.foldl_nil, hrev]
    rw [binary64_39_81]
    have := lifetime_of_132_7
    rw [revenue_of_132_7] at this
    exact this

theorem getCartTotal_endToEndApp : getCartTotal endToEndApp.st = 200 := by
  have h : getCartTotal endToEndApp.st =
      jsAdd (jsAdd 0 (jsMul 75 ((2 : ℤ) : ℚ))) (jsMul 25 ((2 : ℤ) : ℚ)) := rfl
  rw [h, sum_75_2_25_2]

/-- C13, as stated, fails: for the cart of subtotal 200 and the stored travel
fee of 132.70, `createOrder` records vat 30 and total 362.70 and the revenue
`loadAdminStats` derives is 39.81, but `completeDelivery` credits the driver,
whose balance was 0, with 92.88999999999999: the product 132.70 × 0.70 as
binary64 arithmetic gives it, which is below 92.89. -/
theorem completeDelivery_credit_below_92_89 :
    getCartTotal endToEndApp.st = 200 ∧
    (createOrder online (fun _ => 0) "card" endToEndApp).2.map
      (fun o => (o.vat, o.travel_fee, o.total)) =
      some (30, some (binary64 132.7), binary64 362.7) ∧
    walletBalance endToEndInTransit 4 = 0 ∧
    walletBalance endToEndDelivered 4 = binary64 92.88999999999999 ∧
    binary64 92.88999999999999 < binary64 92.89 ∧
    (loadAdminStats online 0 endToEndDelivered).lifetimeRevenue = binary64 39.81 := by
  have h := end_to_end_values (fun _ => 0) "card" endToEndApp 1
    (sampleProfile 1 "customer" none) rfl rfl getCartTotal_endToEndApp rfl
    ⟨endToEndInTransit, sampleSession (some 4)⟩ 9 100 4 endToEndOrder
    (sampleProfile 4 "driver" none) rfl rfl rfl rfl
  have h0 : walletBalance endToEndInTransit 4 = 0 := rfl
  refine ⟨getCartTotal_endToEndApp, h.1, h0, ?_, ?_, h.2.2.2 endToEndDelivered 0 rfl⟩
  · have h2 := h.2.1
    rw [h0] at h2
    have hb := balance_of_132_7
    rw [earning_of_132_7] at hb
    rw [binary64_92_88999999999999] at h2 ⊢
    exact h2.trans hb
  · rw [binary64_92_88999999999999, binary64_92_89]; norm_num

/-- C13, amended: end to end, for a cart whose subtotal is 200 and a stored
travel fee of 132.70, `createOrder` records vat = 30 and total = 362.70;
`completeDelivery` on an order with that travel fee adds to the balance of its
driver the product 132.70 × 0.70 as binary64 arithmetic gives it, which is
92.88999999999999 and not 92.89; and the revenue `loadAdminStats` derives for
that order, its summand and the lifetime revenue when it is the only delivered
order, is 39.81. -/
theorem end_to_end_figures (rnd : Nat → ℚ) (paymentMethod : String) (a : App) (uid : Nat)
    (prof : Profile) (huser : a.st.user = some uid) (hprof : a.st.profile = some prof)
    (hsub : getCartTotal a.st = 200) (hfee : a.st.deliveryInfo.fee = some (binary64 132.7))
    (b : App) (now orderId d : Nat) (o : Order) (p : Profile)
    (hord : selectOrder b.db orderId = some o) (hofee : o.travel_fee = some (binary64 132.7))
    (hdrv : o.driver_id = some d) (hp : selectProfile b.db (some d) = some p) :
    (createOrder online rnd paymentMethod a).2.map (fun o => (o.vat, o.travel_fee, o.total)) =
      some (30, some (binary64 132.7), binary64 362.7) ∧
    walletBalance (completeDelivery online now orderId b).db d =
      jsAdd (walletBalance b.db d) (binary64 92.88999999999999) ∧
    binary64 92.88999999999999 ≠ binary64 92.89 ∧
    platformRevenue { o with status := OrderStatus.delivered, delivered_at := some now } =
      binary64 39.81 ∧
    ∀ (db : Store) (today : Nat),
      db.orders.filter (fun x => x.status = OrderStatus.delivered) =
        [{ o with status := OrderStatus.delivered, delivered_at := some now }] →
      (loadAdminStats online today db).lifetimeRevenue = binary64 39.81 := by
  have h := end_to_end_values rnd paymentMethod a uid prof huser hprof hsub hfee b now orderId
    d o p hord hofee hdrv hp
  refine ⟨h.1, h.2.1, ?_, h.2.2.1, h.2.2.2⟩
  rw [binary64_92_88999999999999, binary64_92_89]; norm_num

theorem end_to_end_figures_witness :
    getCartTotal endToEndApp.st = 200 ∧
    selectOrder endToEndInTransit 100 = some endToEndOrder ∧
    (createOrder online (fun _ => 0) "card" endToEndApp).2.map
      (fun o => (o.vat, o.travel_fee, o.total)) =
      some (30, some (binary64 132.7), binary64 362.7) ∧
    walletBalance endToEndDelivered 4 =
      jsAdd (walletBalance endToEndInTransit 4) (binary64 92.88999999999999) ∧
    (loadAdminStats online 0 endToEndDelivered).lifetimeRevenue = binary64 39.81 :=
  have h := end_to_end_figures (fun _ => 0) "card" endToEndApp 1
    (sampleProfile 1 "customer" none) rfl rfl getCartTotal_endToEndApp rfl
    ⟨endToEndInTransit, sampleSession (some 4)⟩ 9 100 4 endToEndOrder
    (sampleProfile 4 "driver" none) rfl rfl rfl rfl
  ⟨getCartTotal_endToEndApp, rfl, h.1, h.2.1, h.2.2.2.2 endToEndDelivered 0 rfl⟩

/-! ## Travel fee -/

theorem mathRound_sub_le (x : ℚ) : |(mathRound x : ℚ) - x| ≤ 1 / 2 := by
  unfold mathRound
  have h1 := Int.floor_le (x + 1 / 2)
  have h2 := Int.lt_floor_add_one (x + 1 / 2)
  rw [abs_le]
  constructor <;> linarith

theorem le_mathRound (x : ℚ) (n : ℤ) (h : (n : ℚ) ≤ x) : n ≤ mathRound x := by
  unfold mathRound
  rw [Int.le_floor]
  linarith

theorem binary64_16_14 :
    binary64 16.14 = 1135751531027497 / 70368744177664 := by
  exact binary64_eq_near _ _ (4) 4543006124109988 (by norm_num) (by norm_num) (by norm_num)
    (by norm_num [abs_lt]) (by norm_num)

theorem dist10_16_14 :
    jsMul (binary64 16.14) 10 = 5678757655137485 / 35184372088832 := by
  rw [binary64_16_14]
  exact binary64_eq_near _ _ (7) 5678757655137485 (by norm_num) (by norm_num) (by norm_num)
    (by norm_num [abs_lt]) (by norm_num)

theorem round_dist10_16_14 :
    mathRound (jsMul (binary64 16.14) 10) = 161 := by
  rw [dist10_16_14]
  unfold mathRound
  rw [Int.floor_eq_iff]
  constructor <;> norm_num

theorem stored_distance_16_14 :
    jsDiv ((mathRound (jsMul (binary64 16.14) 10) : ℤ) : ℚ) 10 =
      2265873562520781 / 140737488355328 := by
  rw [round_dist10_16_14]
  exact binary64_eq_near _ _ (4) 4531747125041562 (by norm_num) (by norm_num) (by norm_num)
    (by norm_num [abs_lt]) (by norm_num)

theorem km_fee_16_14 :
    jsMul (binary64 16.14) PER_KM_FEE = 7950260717192479 / 70368744177664 := by
  rw [binary64_16_14, PER_KM_FEE_eq]
  exact binary64_eq_near _ _ (6) 7950260717192479 (by norm_num) (by norm_num) (by norm_num)
    (by norm_num [abs_lt]) (by norm_num)

theorem fee_16_14 :
    jsAdd BASE_FEE (jsMul (binary64 16.14) PER_KM_FEE) = 292426112523305 / 2199023255552 := by
  rw [km_fee_16_14, BASE_FEE_eq]
  exact binary64_eq_tie _ _ (7) 4678817800372880 (by norm_num) (by norm_num) (by norm_num)
    (by norm_num) (by norm_num)

theorem fee100_16_14 :
    jsMul (jsAdd BASE_FEE (jsMul (binary64 16.14) PER_KM_FEE)) 100 =
      7310652813082625 / 549755813888 := by
  rw [fee_16_14]
  exact binary64_eq_near _ _ (13) 7310652813082625 (by norm_num) (by norm_num) (by norm_num)
    (by norm_num [abs_lt]) (by norm_num)

theorem round_fee100_16_14 :
    mathRound (jsMul (jsAdd BASE_FEE (jsMul (binary64 16.14) PER_KM_FEE)) 100) = 13298 := by
  rw [fee100_16_14]
  unfold mathRound
  rw [Int.floor_eq_iff]
  constructor <;> norm_num

theorem stored_fee_16_14 :
    jsDiv ((mathRound (jsMul (jsAdd BASE_FEE (jsMul (binary64 16.14) PER_KM_FEE)) 100) : ℤ) : ℚ) 100 =
      4678817800372879 / 35184372088832 := by
  rw [round_fee100_16_14]
  exact binary64_eq_near _ _ (7) 4678817800372879 (by norm_num) (by norm_num) (by norm_num)
    (by norm_num [abs_lt]) (by norm_num)

theorem binary64_16_1 :
    binary64 16.1 = 2265873562520781 / 140737488355328 := by
  exact binary64_eq_near _ _ (4) 4531747125041562 (by norm_num) (by norm_num) (by norm_num)
    (by norm_num [abs_lt]) (by norm_num)

theorem km_fee_16_1 :
    jsMul (binary64 16.1) PER_KM_FEE = 3965278734411367 / 35184372088832 := by
  rw [binary64_16_1, PER_KM_FEE_eq]
  exact binary64_eq_tie _ _ (6) 7930557468822734 (by norm_num) (by norm_num) (by norm_num)
    (by norm_num) (by norm_num)

theorem fee_16_1 :
    jsAdd BASE_FEE (jsMul (binary64 16.1) PER_KM_FEE) = 4668966176188007 / 35184372088832 := by
  rw [km_fee_16_1, BASE_FEE_eq]
  exact binary64_eq_near _ _ (7) 4668966176188007 (by norm_num) (by norm_num) (by norm_num)
    (by norm_num [abs_lt]) (by norm_num)

theorem fee100_16_1 :
    jsMul (jsAdd BASE_FEE (jsMul (binary64 16.1) PER_KM_FEE)) 100 =
      7295259650293761 / 549755813888 := by
  rw [fee_16_1]
  exact binary64_eq_near _ _ (13) 7295259650293761 (by norm_num) (by norm_num) (by norm_num)
    (by norm_num [abs_lt]) (by norm_num)

theorem round_fee100_16_1 :
    mathRound (jsMul (jsAdd BASE_FEE (jsMul (binary64 16.1) PER_KM_FEE)) 100) = 13270 := by
  rw [fee100_16_1]
  unfold mathRound
  rw [Int.floor_eq_iff]
  constructor <;> norm_num

theorem stored_fee_16_1 :
    jsDiv ((mathRound (jsMul (jsAdd BASE_FEE (jsMul (binary64 16.1) PER_KM_FEE)) 100) : ℤ) : ℚ) 100 =
      2334483088094003 / 17592186044416 := by
  rw [round_fee100_16_1]
  exact binary64_eq_near _ _ (7) 4668966176188006 (by norm_num) (by norm_num) (by norm_num)
    (by norm_num [abs_lt]) (by norm_num)

theorem binary64_1_8499999999999999 :
    binary64 1.8499999999999999 = 8331659310635417 / 4503599627370496 := by
  exact binary64_eq_near _ _ (0) 8331659310635417 (by norm_num) (by norm_num) (by norm_num)
    (by norm_num [abs_lt]) (by norm_num)

theorem dist10_1_85 :
    jsMul (binary64 1.8499999999999999) 10 = 37 / 2 := by
  rw [binary64_1_8499999999999999]
  exact binary64_eq_near _ _ (4) 5207287069147136 (by norm_num) (by norm_num) (by norm_num)
    (by norm_num [abs_lt]) (by norm_num)

theorem round_dist10_1_85 :
    mathRound (jsMul (binary64 1.8499999999999999) 10) = 19 := by
  rw [dist10_1_85]
  unfold mathRound
  rw [Int.floor_eq_iff]
  constructor <;> norm_num

theorem stored_distance_1_85 :
    jsDiv ((mathRound (jsMul (binary64 1.8499999999999999) 10) : ℤ) : ℚ) 10 =
      4278419646001971 / 2251799813685248 := by
  rw [round_dist10_1_85]
  exact binary64_eq_near _ _ (0) 8556839292003942 (by norm_num) (by norm_num) (by norm_num)
    (by norm_num [abs_lt]) (by norm_num)

theorem binary64_1_0007142857142857 :
    binary64 1.0007142857142857 = 4506816484247189 / 4503599627370496 := by
  exact binary64_eq_near _ _ (0) 4506816484247189 (by norm_num) (by norm_num) (by norm_num)
    (by norm_num [abs_lt]) (by norm_num)

theorem km_fee_1_0007 :
    jsMul (binary64 1.0007142857142857) PER_KM_FEE = 7886928847432581 / 1125899906842624 := by
  rw [binary64_1_0007142857142857, PER_KM_FEE_eq]
  exact binary64_eq_near _ _ (2) 7886928847432581 (by norm_num) (by norm_num) (by norm_num)
    (by norm_num [abs_lt]) (by norm_num)

theorem fee_1_0007 :
    jsAdd BASE_FEE (jsMul (binary64 1.0007142857142857) PER_KM_FEE) =
      7601231746071265 / 281474976710656 := by
  rw [km_fee_1_0007, BASE_FEE_eq]
  exact binary64_eq_near _ _ (4) 7601231746071265 (by norm_num) (by norm_num) (by norm_num)
    (by norm_num [abs_lt]) (by norm_num)

theorem fee100_1_0007 :
    jsMul (jsAdd BASE_FEE (jsMul (binary64 1.0007142857142857) PER_KM_FEE)) 100 = 5401 / 2 := by
  rw [fee_1_0007]
  exact binary64_eq_near _ _ (11) 5938462301618176 (by norm_num) (by norm_num) (by norm_num)
    (by norm_num [abs_lt]) (by norm_num)

theorem round_fee100_1_0007 :
    mathRound (jsMul (jsAdd BASE_FEE (jsMul (binary64 1.0007142857142857) PER_KM_FEE)) 100) = 2701 := by
  rw [fee100_1_0007]
  unfold mathRound
  rw [Int.floor_eq_iff]
  constructor <;> norm_num

theorem stored_fee_1_0007 :
    jsDiv ((mathRound (jsMul (jsAdd BASE_FEE (jsMul (binary64 1.0007142857142857) PER_KM_FEE)) 100) : ℤ) : ℚ) 100 =
      7602639120954819 / 281474976710656 := by
  rw [round_fee100_1_0007]
  exact binary64_eq_near _ _ (4) 7602639120954819 (by norm_num) (by norm_num) (by norm_num)
    (by norm_num [abs_lt]) (by norm_num)

theorem binary64_132_98 :
    binary64 132.98 = 4678817800372879 / 35184372088832 := by
  exact binary64_eq_near _ _ (7) 4678817800372879 (by norm_num) (by norm_num) (by norm_num)
    (by norm_num [abs_lt]) (by norm_num)

theorem binary64_1_9 :
    binary64 1.9 = 4278419646001971 / 2251799813685248 := by
  exact binary64_eq_near _ _ (0) 8556839292003942 (by norm_num) (by norm_num) (by norm_num)
    (by norm_num [abs_lt]) (by norm_num)

theorem binary64_27_01 :
    binary64 27.01 = 7602639120954819 / 281474976710656 := by
  exact binary64_eq_near _ _ (4) 7602639120954819 (by norm_num) (by norm_num) (by norm_num)
    (by norm_num [abs_lt]) (by norm_num)

/-- C14, as stated, fails: at the position (-25.00784954, 29.050129235791427),
north of the hub, for which the haversine formula of `calcDistance` gives
16.14, the stored distance is 16.1 and the stored fee is 132.98, while the fee
computed from the stored distance 16.1, as the fallback branch computes it, is
132.70. -/
theorem fee_not_recomputable_from_stored_distance :
    (syncSatellite (some north16_14) (sampleSession (some 1))).deliveryInfo.distance =
      some (binary64 16.1) ∧
    (syncSatellite (some north16_14) (sampleSession (some 1))).deliveryInfo.fee =
      some (binary64 132.98) ∧
    jsDiv (mathRound (jsMul (jsAdd BASE_FEE (jsMul (binary64 16.1) PER_KM_FEE)) 100)) 100 =
      binary64 132.7 ∧
    binary64 132.98 ≠ binary64 132.7 := by
  refine ⟨?_, ?_, ?_, ?_⟩
  · show some (jsDiv ((mathRound (jsMul (binary64 16.14) 10) : ℤ) : ℚ) 10) = _
    rw [stored_distance_16_14, binary64_16_1]
  · show some (jsDiv ((mathRound (jsMul (jsAdd BASE_FEE (jsMul (binary64 16.14) PER_KM_FEE))
      100) : ℤ) : ℚ) 100) = _
    rw [stored_fee_16_14, binary64_132_98]
  · rw [stored_fee_16_1, binary64_132_7]
  · rw [binary64_132_98, binary64_132_7]; norm_num

/-- C14, amended: the fee is computed from the distance `calcDistance` returns
and not from the stored distance.  For every distance d that `syncSatellite`
computes from a position, the stored distance is Math.round(d × 10) / 10 and
the stored fee is Math.round((BASE_FEE + d × PER_KM_FEE) × 100) / 100, every
product, sum and quotient being rounded to binary64; the stored distance is
therefore not always d rounded to 1 decimal place: for d = 1.8499999999999999,
which is below 1.85 and which the haversine formula gives at the position
(-25.136362556, 29.050015226311828), it is 1.9.  When no position is obtained
the stored distance is the demo distance 16.1 and the stored fee is 132.70. -/
theorem syncSatellite_fee_from_unrounded_distance (p : Located) (st : State) :
    (syncSatellite (some p) st).deliveryInfo.distance =
      some (jsDiv (mathRound (jsMul p.distance 10)) 10) ∧
    (syncSatellite (some p) st).deliveryInfo.fee =
      some (jsDiv (mathRound
        (jsMul (jsAdd BASE_FEE (jsMul p.distance PER_KM_FEE)) 100)) 100) ∧
    (syncSatellite (some north1_85) st).deliveryInfo.distance = some (binary64 1.9) ∧
    binary64 1.8499999999999999 < 1.85 ∧
    (syncSatellite none st).deliveryInfo.distance = some (binary64 16.1) ∧
    (syncSatellite none st).deliveryInfo.fee = some (binary64 132.7) := by
  refine ⟨rfl, rfl, ?_, ?_, rfl, ?_⟩
  · show some (jsDiv ((mathRound (jsMul (binary64 1.8499999999999999) 10) : ℤ) : ℚ) 10) = _
    rw [stored_distance_1_85, binary64_1_9]
  · rw [binary64_1_8499999999999999]; norm_num
  · show some (jsDiv ((mathRound (jsMul (jsAdd BASE_FEE (jsMul (binary64 16.1) PER_KM_FEE))
      100) : ℤ) : ℚ) 100) = _
    rw [stored_fee_16_1, binary64_132_7]

theorem binary64_20 : binary64 20 = 20 := by
  exact binary64_eq_near _ _ 4 5629499534213120 (by norm_num) (by norm_num) (by norm_num)
    (by norm_num [abs_lt]) (by norm_num)

theorem binary64_2000 : binary64 2000 = 2000 := by
  exact binary64_eq_near _ _ 10 8796093022208000 (by norm_num) (by norm_num) (by norm_num)
    (by norm_num [abs_lt]) (by norm_num)

/-- For a non-negative number the rounding error is at most a part in `2 ^ 53`
of it, and a negligible amount. -/
theorem binary64_sub_le_of_nonneg {x : ℚ} (hx : 0 ≤ x) :
    binary64 x - x ≤ x / 2 ^ 53 + 1 / 10 ^ 12 ∧ x - binary64 x ≤ x / 2 ^ 53 + 1 / 10 ^ 12 := by
  have h := abs_binary64_sub_le x
  rw [abs_of_nonneg hx, abs_le] at h
  have ht : (1 : ℚ) / 2 ^ 1075 ≤ 1 / 10 ^ 12 := by
    apply one_div_le_one_div_of_le (by norm_num)
    calc (10 : ℚ) ^ 12 ≤ 2 ^ 40 := by norm_num
      _ ≤ 2 ^ 1075 := pow_le_pow_right₀ (by norm_num) (by norm_num)
  constructor <;> linarith [h.1, h.2]

/-- The whole number of cents that `syncSatellite` stores as the fee for the
distance `d`. -/
theorem fee_cents_bounds (d : ℚ) (hd : 0 ≤ d) :
    2000 ≤ mathRound (jsMul (jsAdd BASE_FEE (jsMul d PER_KM_FEE)) 100) ∧
    (20 : ℚ) ≤ jsDiv (mathRound (jsMul (jsAdd BASE_FEE (jsMul d PER_KM_FEE)) 100)) 100 ∧
    (d ≤ 100000 →
      |jsDiv (mathRound (jsMul (jsAdd BASE_FEE (jsMul d PER_KM_FEE)) 100)) 100 - (20 + 7 * d)| ≤
        0.005 + 1 / 10 ^ 9) := by
  have ha0 : 0 ≤ jsMul d PER_KM_FEE :=
    binary64_nonneg (mul_nonneg hd (by norm_num [PER_KM_FEE]))
  have hb20 : 20 ≤ jsAdd BASE_FEE (jsMul d PER_KM_FEE) := by
    have := binary64_mono (x := 20) (y := BASE_FEE + jsMul d PER_KM_FEE) (by norm_num)
      (by rw [BASE_FEE_eq]; linarith)
    rwa [binary64_20] at this
  have hc2000 : 2000 ≤ jsMul (jsAdd BASE_FEE (jsMul d PER_KM_FEE)) 100 := by
    have := binary64_mono (x := 2000) (y := jsAdd BASE_FEE (jsMul d PER_KM_FEE) * 100)
      (by norm_num) (by linarith)
    rwa [binary64_2000] at this
  have hn := le_mathRound (jsMul (jsAdd BASE_FEE (jsMul d PER_KM_FEE)) 100) 2000
    (by push_cast; exact hc2000)
  have hnq : (2000 : ℚ) ≤ (mathRound (jsMul (jsAdd BASE_FEE (jsMul d PER_KM_FEE)) 100) : ℚ) := by
    exact_mod_cast hn
  have hf20 : (20 : ℚ) ≤
      jsDiv (mathRound (jsMul (jsAdd BASE_FEE (jsMul d PER_KM_FEE)) 100)) 100 := by
    have := binary64_mono (x := 20)
      (y := (mathRound (jsMul (jsAdd BASE_FEE (jsMul d PER_KM_FEE)) 100) : ℚ) / 100)
      (by norm_num) (by rw [le_div_iff₀ (by norm_num)]; linarith)
    rwa [binary64_20] at this
  refine ⟨hn, hf20, ?_⟩
  intro hd5
  have e1 := binary64_sub_le_of_nonneg (x := d * PER_KM_FEE)
    (mul_nonneg hd (by norm_num [PER_KM_FEE]))
  have e2 := binary64_sub_le_of_nonneg (x := BASE_FEE + jsMul d PER_KM_FEE)
    (by rw [BASE_FEE_eq]; linarith)
  have e3 := binary64_sub_le_of_nonneg (x := jsAdd BASE_FEE (jsMul d PER_KM_FEE) * 100)
    (by linarith)
  have e4 := abs_le.mp (mathRound_sub_le (jsMul (jsAdd BASE_FEE (jsMul d PER_KM_FEE)) 100))
  have e5 := binary64_sub_le_of_nonneg
    (x := (mathRound (jsMul (jsAdd BASE_FEE (jsMul d PER_KM_FEE)) 100) : ℚ) / 100)
    (by apply div_nonneg _ (by norm_num); linarith)
  simp only [jsDiv, jsMul, jsAdd, BASE_FEE_eq, PER_KM_FEE_eq] at *
  generalize binary64 (d * 7) = a at *
  generalize binary64 (20 + a) = b at *
  generalize binary64 (b * 100) = c at *
  generalize (mathRound c : ℚ) = n at *
  generalize binary64 (n / 100) = f at *
  rw [abs_le]
  norm_num at e1 e2 e3 e4 e5 ⊢
  constructor <;> linarith [e1.1, e1.2, e2.1, e2.2, e3.1, e3.2, e4.1, e4.2, e5.1, e5.2]

/-- C15, as stated, fails: at the position (-25.144000361, 29.05000415238971),
for which the haversine formula of `calcDistance` gives d = 1.0007142857142857,
the stored fee is 27.01, although 20 + 7 × d is below 27.005: the stored fee
is more than 0.005 away from 20 + 7 × d, and the nearest cent is 27.00. -/
theorem syncSatellite_fee_not_nearest_cent :
    (syncSatellite (some north1_0007) (sampleSession (some 1))).deliveryInfo.fee =
      some (binary64 27.01) ∧
    20 + 7 * binary64 1.0007142857142857 < 27.005 ∧
    0.005 < binary64 27.01 - (20 + 7 * binary64 1.0007142857142857) ∧
    |(27 : ℚ) - (20 + 7 * binary64 1.0007142857142857)| < 0.005 := by
  refine ⟨?_, ?_, ?_, ?_⟩
  · show some (jsDiv ((mathRound (jsMul (jsAdd BASE_FEE
      (jsMul (binary64 1.0007142857142857) PER_KM_FEE)) 100) : ℤ) : ℚ) 100) = _
    rw [stored_fee_1_0007, binary64_27_01]
  · rw [binary64_1_0007142857142857]; norm_num
  · rw [binary64_1_0007142857142857, binary64_27_01]; norm_num
  · rw [binary64_1_0007142857142857, abs_lt]; constructor <;> norm_num

/-- C15, amended: for every distance d ≥ 0 the fee `syncSatellite` stores is a
whole number of cents divided by 100, the number of cents being Math.round of
(20 + d × 7) × 100 as binary64 arithmetic gives it.  The stored fee is never
below 20 and, for d up to 100000, within 0.005 + 10⁻⁹ of 20 + 7 × d (it is not
always within 0.005 of it).  For the distance 16.1, computed (as at the
position (-25.008209268, 29.05012819431801)) or taken as the demo distance, it
is 132.70. -/
theorem syncSatellite_fee_whole_cents (p : Located) (st : State) (hd : 0 ≤ p.distance) :
    (syncSatellite (some p) st).deliveryInfo.fee =
      some (jsDiv (mathRound
        (jsMul (jsAdd BASE_FEE (jsMul p.distance PER_KM_FEE)) 100)) 100) ∧
    |(mathRound (jsMul (jsAdd BASE_FEE (jsMul p.distance PER_KM_FEE)) 100) : ℚ) -
        jsMul (jsAdd BASE_FEE (jsMul p.distance PER_KM_FEE)) 100| ≤ 1 / 2 ∧
    (20 : ℚ) ≤
      jsDiv (mathRound (jsMul (jsAdd BASE_FEE (jsMul p.distance PER_KM_FEE)) 100)) 100 ∧
    (p.distance ≤ 100000 →
      |jsDiv (mathRound (jsMul (jsAdd BASE_FEE (jsMul p.distance PER_KM_FEE)) 100)) 100 -
          (20 + 7 * p.distance)| ≤ 0.005 + 1 / 10 ^ 9) ∧
    (syncSatellite (some north16_1) st).deliveryInfo.fee = some (binary64 132.7) ∧
    (syncSatellite none st).deliveryInfo.fee = some (binary64 132.7) := by
  have h := fee_cents_bounds p.distance hd
  have h16 : some (jsDiv ((mathRound (jsMul (jsAdd BASE_FEE (jsMul (binary64 16.1) PER_KM_FEE))
      100) : ℤ) : ℚ) 100) = some (binary64 132.7) := by
    rw [stored_fee_16_1, binary64_132_7]
  exact ⟨rfl, mathRound_sub_le _, h.2.1, h.2.2, h16, h16⟩

theorem syncSatellite_fee_whole_cents_witness :
    (0 : ℚ) ≤ atHub.distance ∧ atHub.distance ≤ 100000 ∧
    (syncSatellite (some atHub) (sampleSession (some 1))).deliveryInfo.fee =
      some (jsDiv (mathRound (jsMul (jsAdd BASE_FEE (jsMul 0 PER_KM_FEE)) 100)) 100) ∧
    (20 : ℚ) ≤ jsDiv (mathRound (jsMul (jsAdd BASE_FEE (jsMul 0 PER_KM_FEE)) 100)) 100 ∧
    |jsDiv (mathRound (jsMul (jsAdd BASE_FEE (jsMul 0 PER_KM_FEE)) 100)) 100 - (20 + 7 * 0)| ≤
      0.005 + 1 / 10 ^ 9 :=
  have h0 : (0 : ℚ) ≤ atHub.distance := le_refl 0
  have h5 : atHub.distance ≤ 100000 := by
    show (0 : ℚ) ≤ 100000
    norm_num
  have h := syncSatellite_fee_whole_cents atHub (sampleSession (some 1)) h0
  ⟨h0, h5, h.1, h.2.2.1, h.2.2.2.1 h5⟩

/-! ## Waybill and order code -/

theorem waybillChars_length : waybillChars.length = 34 := by decide

theorem waybillChars_unambiguous :
    ∀ c ∈ waybillChars, (c.isUpper || c.isDigit) = true ∧ c ≠ 'I' ∧ c ≠ 'O' := by decide

theorem floor_index_range (r : ℚ) (n : Nat) (h0 : 0 ≤ r) (h1 : r < 1) :
    0 ≤ ⌊r * (n : ℚ)⌋ ∧ (n ≠ 0 → ⌊r * (n : ℚ)⌋ < n) := by
  have hn : (0 : ℚ) ≤ n := Nat.cast_nonneg n
  refine ⟨Int.floor_nonneg.mpr (mul_nonneg h0 hn), fun hne => ?_⟩
  rw [Int.floor_lt]
  have hpos : (0 : ℚ) < n := by exact_mod_cast Nat.pos_of_ne_zero hne
  push_cast
  nlinarith

theorem charAt_of_range (cs : List Char) (i : ℤ) (h0 : 0 ≤ i) (h1 : i < cs.length) :
    ∃ c, charAt cs i = some c ∧ c ∈ cs := by
  have hlt : i.toNat < cs.length := by omega
  refine ⟨cs.get ⟨i.toNat, hlt⟩, ?_, List.get_mem _ _ _⟩
  simp [charAt, not_lt.mpr h0, List.get?_eq_get hlt]

theorem length_filterMap_of_some {α β : Type} (f : α → Option β) (l : List α)
    (h : ∀ x ∈ l, ∃ y, f x = some y) : (l.filterMap f).length = l.length := by
  induction l with
  | nil => rfl
  | cons x xs ih =>
    obtain ⟨y, hy⟩ := h x (List.mem_cons_self _ _)
    simp [List.filterMap_cons, hy, ih (fun z hz => h z (List.mem_cons_of_mem _ hz))]

/-- C16: for every sequence of 14 random draws in [0, 1), `generateWaybill`
returns a string of exactly 14 characters, each taken from its 34-character
alphabet, an uppercase letter or a digit, and none of them the letter I or the
letter O; each alphabet index it computes is in range. -/
theorem generateWaybill_fourteen_unambiguous (draw : Nat → ℚ)
    (h : ∀ k, k < 14 → 0 ≤ draw k ∧ draw k < 1) :
    (generateWaybill draw).length = 14 ∧
    (∀ c ∈ (generateWaybill draw).toList,
      c ∈ waybillChars ∧ (c.isUpper || c.isDigit) = true ∧ c ≠ 'I' ∧ c ≠ 'O') ∧
    waybillChars.length = 34 ∧
    ∀ k, k < 14 → 0 ≤ ⌊draw k * (waybillChars.length : ℚ)⌋ ∧
      ⌊draw k * (waybillChars.length : ℚ)⌋ < waybillChars.length := by
  have hidx : ∀ k, k < 14 → 0 ≤ ⌊draw k * (waybillChars.length : ℚ)⌋ ∧
      ⌊draw k * (waybillChars.length : ℚ)⌋ < waybillChars.length := by
    intro k hk
    have := floor_index_range (draw k) waybillChars.length (h k hk).1 (h k hk).2
    exact ⟨this.1, this.2 (by rw [waybillChars_length]; decide)⟩
  have hsome : ∀ k ∈ List.range 14, ∃ c,
      charAt waybillChars ⌊draw k * (waybillChars.length : ℚ)⌋ = some c ∧ c ∈ waybillChars := by
    intro k hk
    have hk' := List.mem_range.mp hk
    exact charAt_of_range _ _ (hidx k hk').1 (hidx k hk').2
  refine ⟨?_, ?_, waybillChars_length, hidx⟩
  · show ((List.range 14).filterMap _).length = 14
    rw [length_filterMap_of_some _ _ (fun k hk => (hsome k hk).imp (fun _ hc => hc.1))]
    rfl
  · intro c hc
    have hc' : c ∈ (List.range 14).filterMap
        (fun k => charAt waybillChars ⌊draw k * (waybillChars.length : ℚ)⌋) := hc
    obtain ⟨k, hk, hkc⟩ := List.mem_filterMap.mp hc'
    obtain ⟨c', hc1, hc2⟩ := hsome k hk
    rw [hc1] at hkc
    injection hkc with hkc
    subst hkc
    exact ⟨hc2, waybillChars_unambiguous c' hc2⟩

theorem generateWaybill_fourteen_unambiguous_witness :
    (∀ k, k < 14 → (0 : ℚ) ≤ 1 / 2 ∧ (1 / 2 : ℚ) < 1) ∧
    (generateWaybill (fun _ => 1 / 2)).length = 14 :=
  have h : ∀ k, k < 14 → (0 : ℚ) ≤ 1 / 2 ∧ (1 / 2 : ℚ) < 1 :=
    fun _ _ => ⟨by norm_num, by norm_num⟩
  ⟨h, (generateWaybill_fourteen_unambiguous (fun _ => 1 / 2) h).1⟩

theorem toDigitsCore_five (f n : Nat) (h1 : 10000 ≤ n) (h2 : n ≤ 99999) :
    Nat.toDigitsCore 10 (f + 5) n [] =
      [Nat.digitChar (n / 10000 % 10), Nat.digitChar (n / 1000 % 10),
       Nat.digitChar (n / 100 % 10), Nat.digitChar (n / 10 % 10), Nat.digitChar (n % 10)] := by
  have e1 : n / 10 ≠ 0 := by omega
  have e2 : n / 10 / 10 ≠ 0 := by omega
  have e3 : n / 10 / 10 / 10 ≠ 0 := by omega
  have e4 : n / 10 / 10 / 10 / 10 ≠ 0 := by omega
  have e5 : n / 10 / 10 / 10 / 10 / 10 = 0 := by omega
  have d2 : n / 10 / 10 = n / 100 := by omega
  have d3 : n / 10 / 10 / 10 = n / 1000 := by omega
  have d4 : n / 10 / 10 / 10 / 10 = n / 10000 := by omega
  simp only [Nat.toDigitsCore, e1, e2, e3, e4, e5, if_true, if_false]
  rw [d4, d3, d2]

theorem toDigits_five (n : Nat) (h1 : 10000 ≤ n) (h2 : n ≤ 99999) :
    Nat.toDigits 10 n =
      [Nat.digitChar (n / 10000 % 10), Nat.digitChar (n / 1000 % 10),
       Nat.digitChar (n / 100 % 10), Nat.digitChar (n / 10 % 10), Nat.digitChar (n % 10)] := by
  have hf : n + 1 = (n - 4) + 5 := by omega
  rw [Nat.toDigits, hf]
  exact toDigitsCore_five (n - 4) n h1 h2

theorem digitChar_isDigit : ∀ d, d < 10 → (Nat.digitChar d).isDigit = true := by decide

/-- C17: for every random draw r in [0, 1), `generateOrderCode` returns the
four characters RSA- followed by exactly 5 decimal digits, which write the
integer ⌊10000 + r × 90000⌋, and that integer is between 10000 and 99999
inclusive. -/
theorem generateOrderCode_five_digits (r : ℚ) (h0 : 0 ≤ r) (h1 : r < 1) :
    10000 ≤ ⌊10000 + r * 90000⌋ ∧ ⌊10000 + r * 90000⌋ ≤ 99999 ∧
    (generateOrderCode r).toList.take 4 = ['R', 'S', 'A', '-'] ∧
    String.mk ((generateOrderCode r).toList.drop 4) = toString ⌊10000 + r * 90000⌋ ∧
    ((generateOrderCode r).toList.drop 4).length = 5 ∧
    ∀ c ∈ (generateOrderCode r).toList.drop 4, c.isDigit = true := by
  have hlo : (10000 : ℤ) ≤ ⌊10000 + r * 90000⌋ := by
    rw [Int.le_floor]; push_cast; nlinarith
  have hhi : ⌊10000 + r * 90000⌋ ≤ (99999 : ℤ) := by
    have : ⌊10000 + r * 90000⌋ < (100000 : ℤ) := by
      rw [Int.floor_lt]; push_cast; nlinarith
    omega
  obtain ⟨n, hn⟩ : ∃ n : Nat, ⌊10000 + r * 90000⌋ = (n : ℤ) :=
    ⟨⌊10000 + r * 90000⌋.toNat, by omega⟩
  have hn1 : 10000 ≤ n := by omega
  have hn2 : n ≤ 99999 := by omega
  have hstr : toString ⌊10000 + r * 90000⌋ = String.mk (Nat.toDigits 10 n) := by
    rw [hn]; rfl
  have hlist : (generateOrderCode r).toList = ['R', 'S', 'A', '-'] ++ Nat.toDigits 10 n := by
    unfold generateOrderCode
    rw [hstr]
    rfl
  have h5 := toDigits_five n hn1 hn2
  refine ⟨hlo, hhi, ?_, ?_, ?_, ?_⟩
  · rw [hlist]; rfl
  · rw [hlist, hstr]; rfl
  · rw [hlist, h5]; rfl
  · rw [hlist, h5]
    intro c hc
    simp only [List.drop_succ_cons, List.drop_zero, List.cons_append, List.nil_append,
      List.mem_cons, List.mem_singleton, List.not_mem_nil, or_false] at hc
    rcases hc with rfl | rfl | rfl | rfl | rfl <;>
      exact digitChar_isDigit _ (Nat.mod_lt _ (by decide))

theorem generateOrderCode_five_digits_witness :
    (0 : ℚ) ≤ 1 / 2 ∧ (1 / 2 : ℚ) < 1 ∧
    (generateOrderCode (1 / 2)).toList.take 4 = ['R', 'S', 'A', '-'] ∧
    ((generateOrderCode (1 / 2)).toList.drop 4).length = 5 :=
  have h0 : (0 : ℚ) ≤ 1 / 2 := by norm_num
  have h1 : (1 / 2 : ℚ) < 1 := by norm_num
  have h := generateOrderCode_five_digits (1 / 2) h0 h1
  ⟨h0, h1, h.2.2.1, h.2.2.2.2.1⟩

/-! ## Frozen columns of an order -/

theorem frameOk_refl (orderId : Nat) (l : List Order) :
    List.Forall₂ (FrameOk orderId) l l :=
  List.forall₂_same.mpr (fun _ _ => ⟨rfl, fun _ => rfl⟩)

theorem frameOk_updateOrderStatus (ok : Bool) (db db' : Store) (h : db'.orders = db.orders)
    (orderId : Nat) (status : OrderStatus) (f : Order → Order)
    (hf : ∀ o, frozenColumns (f o) = frozenColumns o) :
    List.Forall₂ (FrameOk orderId) db.orders
      (updateOrderStatus ok db' orderId status f).1.orders := by
  cases ok
  · simp only [updateOrderStatus, Bool.false_eq_true, if_false, h]
    exact frameOk_refl orderId db.orders
  · simp only [updateOrderStatus, if_true, h]
    rw [List.forall₂_map_right_iff]
    refine List.forall₂_same.mpr (fun o _ => ?_)
    by_cases ho : o.id = orderId
    · rw [if_pos ho]
      exact ⟨(hf _).trans rfl, fun hne => absurd ho hne⟩
    · rw [if_neg ho]
      exact ⟨rfl, fun _ => rfl⟩

theorem markItem_orders (net : Net) (itemId : Nat) (status : ItemStatus) (a : App) :
    (markItem net itemId status a).db.orders = a.db.orders := by
  have h1 : (updateItemStatus (net 0) a.db itemId status).1.orders = a.db.orders := by
    cases net 0 <;> rfl
  unfold markItem
  simp only
  split
  · split
    · exact h1
    · split
      · split
        · split
          · simp only [creditWallet_orders]; exact h1
          · exact h1
        · exact h1
      · exact h1
  · exact h1

/-- C18: whatever the outcome of the store calls, every call of
`secureMission`, `finishAndPack`, `claimDelivery` and `completeDelivery` keeps
the order rows in place, leaves id, subtotal, vat, travel_fee, total,
order_code, waybill and customer_id of every order unchanged, and leaves every
order other than the one it names unchanged altogether; `markItem` changes no
order at all. -/
theorem order_money_and_identity_frozen (net : Net) (now orderId itemId : Nat)
    (status : ItemStatus) (a : App) :
    List.Forall₂ (FrameOk orderId) a.db.orders (secureMission net orderId a).db.orders ∧
    List.Forall₂ (FrameOk orderId) a.db.orders (finishAndPack net now orderId a).db.orders ∧
    List.Forall₂ (FrameOk orderId) a.db.orders (claimDelivery net orderId a).db.orders ∧
    List.Forall₂ (FrameOk orderId) a.db.orders
      (completeDelivery net now orderId a).db.orders ∧
    (markItem net itemId status a).db.orders = a.db.orders := by
  refine ⟨?_, ?_, ?_, ?_, markItem_orders net itemId status a⟩
  · unfold secureMission
    cases a.st.user with
    | none => exact frameOk_refl orderId _
    | some uid =>
      simp only
      split <;>
        exact frameOk_updateOrderStatus (net 0) a.db a.db rfl orderId OrderStatus.gathering
          (fun o => { o with picker_id := some uid }) (fun _ => rfl)
  · exact frameOk_updateOrderStatus (net 0) a.db a.db rfl orderId OrderStatus.packed
      (fun o => { o with packed_at := some now }) (fun _ => rfl)
  · unfold claimDelivery
    cases a.st.user with
    | none => exact frameOk_refl orderId _
    | some uid =>
      exact frameOk_updateOrderStatus (net 0) a.db a.db rfl orderId OrderStatus.in_transit
        (fun o => { o with driver_id := some uid }) (fun _ => rfl)
  · unfold completeDelivery
    simp only
    refine frameOk_updateOrderStatus (net 4) a.db _ ?_ orderId OrderStatus.delivered
      (fun o => { o with delivered_at := some now }) (fun _ => rfl)
    split
    · exact creditWallet_orders _ _ _ _ _ _ _ _ _
    · rfl

/-! ## Order items -/

theorem newItems_columns (cart : List CartEntry) (orderId base : Nat) :
    (newItems cart orderId base).map
      (fun i => (i.order_id, i.product_id, i.product_name, i.quantity, i.price, i.status)) =
    cart.map (fun e => (orderId, e.id, e.name, e.quantity, e.price, ItemStatus.pending)) := by
  unfold newItems List.enum
  generalize 0 = n
  induction cart generalizing n with
  | nil => rfl
  | cons e es ih => simp [List.enumFrom, ih]

theorem newItems_total (cart : List CartEntry) (orderId base : Nat) :
    (newItems cart orderId base).foldl (fun sum i => jsAdd sum (jsMul i.price i.quantity)) 0 =
    cart.foldl (fun sum e => jsAdd sum (jsMul e.price e.quantity)) 0 := by
  unfold newItems List.enum
  generalize 0 = n
  generalize (0 : ℚ) = s
  induction cart generalizing n s with
  | nil => rfl
  | cons e es ih => simp only [List.enumFrom, List.map_cons, List.foldl_cons, ih]

/-- C19, as stated, fails: when the insert of the order goes through and the
insert of the items fails, `createOrder` still returns the order and empties
the cart of two entries, and the order is stored without any item. -/
theorem createOrder_returns_order_without_items :
    checkoutApp.st.cart.length = 2 ∧
    (createOrder firstCallOnly (fun _ => 0) "card" checkoutApp).2.map (fun o => o.id) =
      some 100 ∧
    (createOrder firstCallOnly (fun _ => 0) "card" checkoutApp).1.db.orders.map
      (fun o => o.id) = [100] ∧
    (createOrder firstCallOnly (fun _ => 0) "card" checkoutApp).1.st.cart = [] ∧
    (createOrder firstCallOnly (fun _ => 0) "card" checkoutApp).1.db.order_items = [] :=
  ⟨rfl, rfl, rfl, rfl, rfl⟩

/-- C19, amended: `createOrder` does not read the outcome of the insert of the
items.  For every cart of a signed-in customer whose order insert goes through,
the order is stored and returned and the cart is emptied whatever becomes of
the items.  When the insert of the items goes through, it appends exactly one
order item per cart entry, in cart order, each with the id of the new order,
status pending, and product_id, product_name, quantity and price copied from
the cart entry, and the sum of price × quantity over these items, formed from
left to right in binary64 as for the cart, is the subtotal of the order; when
it fails, no item is stored. -/
theorem createOrder_items_snapshot (net : Net) (rnd : Nat → ℚ) (paymentMethod : String)
    (a : App) (uid : Nat) (prof : Profile) (huser : a.st.user = some uid)
    (hprof : a.st.profile = some prof) (h0 : net 0 = true) :
    (createOrder net rnd paymentMethod a).1.db.orders =
      a.db.orders ++ (createOrder net rnd paymentMethod a).2.toList ∧
    (createOrder net rnd paymentMethod a).1.st.cart = [] ∧
    (net 1 = true →
      (createOrder net rnd paymentMethod a).1.db.order_items =
        a.db.order_items ++ newItems a.st.cart a.db.seq (a.db.seq + 1)) ∧
    (net 1 = false →
      (createOrder net rnd paymentMethod a).1.db.order_items = a.db.order_items) ∧
    (newItems a.st.cart a.db.seq (a.db.seq + 1)).map
      (fun i => (i.order_id, i.product_id, i.product_name, i.quantity, i.price, i.status)) =
      a.st.cart.map
        (fun e => (a.db.seq, e.id, e.name, e.quantity, e.price, ItemStatus.pending)) ∧
    (createOrder net rnd paymentMethod a).2.map (fun o => (o.id, o.subtotal)) =
      some (a.db.seq,
        (newItems a.st.cart a.db.seq (a.db.seq + 1)).foldl
          (fun sum i => jsAdd sum (jsMul i.price i.quantity)) 0) := by
  refine ⟨?_, ?_, ?_, ?_, newItems_columns _ _ _, ?_⟩
  · simp only [createOrder, huser, hprof, h0]
    by_cases h1 : net 1 = true <;> simp [h1]
  · simp [createOrder, huser, hprof, h0]
  · intro h1
    simp [createOrder, huser, hprof, h0, h1, newOrder]
  · intro h1
    simp [createOrder, huser, hprof, h0, h1]
  · rw [newItems_total]
    simp [createOrder, huser, hprof, h0, newOrder, getCartTotal]

theorem createOrder_items_snapshot_witness :
    checkoutApp.st.user = some 1 ∧
    (createOrder online (fun _ => 0) "card" checkoutApp).1.db.order_items =
      checkoutApp.db.order_items ++ newItems sampleCart 100 101 ∧
    (newItems sampleCart 100 101).map
      (fun i => (i.order_id, i.product_id, i.product_name, i.quantity, i.price, i.status)) =
      sampleCart.map (fun e => (100, e.id, e.name, e.quantity, e.price, ItemStatus.pending)) :=
  have h := createOrder_items_snapshot online (fun _ => 0) "card" checkoutApp 1
    (sampleProfile 1 "customer" none) rfl rfl rfl
  ⟨rfl, h.2.2.1 rfl, h.2.2.2.2.1⟩

/-! ## Wallet transactions are only appended -/

theorem creditWallet_appends (r w i : Bool) (db : Store) (user order : Option Nat)
    (type : TxnType) (amount : ℚ) (description : String) :
    db.wallet_transactions <+:
      (creditWallet r w i db user order type amount description).wallet_transactions := by
  cases r <;> cases w <;> cases i <;> cases user <;>
    simp [creditWallet, setWalletBalance, insertTransaction]

theorem markItem_appends (net : Net) (itemId : Nat) (status : ItemStatus) (a : App) :
    a.db.wallet_transactions <+: (markItem net itemId status a).db.wallet_transactions := by
  have h1 : (updateItemStatus (net 0) a.db itemId status).1.wallet_transactions =
      a.db.wallet_transactions := by
    cases net 0 <;> rfl
  have h2 : a.db.wallet_transactions <+:
      (updateItemStatus (net 0) a.db itemId status).1.wallet_transactions := by
    rw [h1]
  unfold markItem
  simp only
  split
  · split
    · exact h2
    · split
      · split
        · split
          · exact h1 ▸ creditWallet_appends _ _ _ _ _ _ _ _ _
          · exact h2
        · exact h2
      · exact h2
  · exact h2

theorem completeDelivery_appends (net : Net) (now orderId : Nat) (a : App) :
    a.db.wallet_transactions <+:
      (completeDelivery net now orderId a).db.wallet_transactions := by
  have hu : ∀ (db : Store), (updateOrderStatus (net 4) db orderId OrderStatus.delivered
      (fun o => { o with delivered_at := some now })).1.wallet_transactions =
      db.wallet_transactions := by
    intro db; cases net 4 <;> rfl
  unfold completeDelivery
  simp only [hu]
  split
  · exact creditWallet_appends _ _ _ _ _ _ _ _ _
  · exact List.prefix_refl _

theorem requestWithdrawal_wallet_transactions (net : Net) (a : App) :
    (requestWithdrawal net a).db.wallet_transactions = a.db.wallet_transactions := by
  unfold requestWithdrawal
  cases a.st.user with
  | none => rfl
  | some uid =>
    simp only
    split_ifs <;> simp [setWalletBalance]

theorem createOrder_wallet_transactions (net : Net) (rnd : Nat → ℚ) (paymentMethod : String)
    (a : App) :
    (createOrder net rnd paymentMethod a).1.db.wallet_transactions =
      a.db.wallet_transactions := by
  unfold createOrder
  split
  · split
    · cases net 1 <;> simp
    · rfl
  · rfl

/-- C20: wallet transactions are append-only: for every call of `markItem`,
`completeDelivery`, `requestWithdrawal`, `approveWithdrawal`,
`rejectWithdrawal` and `createOrder`, whatever the outcome of its store calls,
the list of wallet transactions before the call is a prefix of the list after
it: the rows present before are all still there, unchanged and in place, and
rows are only added after them. -/
theorem wallet_transactions_append_only (net : Net) (rnd : Nat → ℚ) (paymentMethod : String)
    (now id itemId : Nat) (status : ItemStatus) (a : App) :
    a.db.wallet_transactions <+: (markItem net itemId status a).db.wallet_transactions ∧
    a.db.wallet_transactions <+: (completeDelivery net now id a).db.wallet_transactions ∧
    a.db.wallet_transactions <+: (requestWithdrawal net a).db.wallet_transactions ∧
    a.db.wallet_transactions <+: (approveWithdrawal net now id a).db.wallet_transactions ∧
    a.db.wallet_transactions <+: (rejectWithdrawal net now id a).db.wallet_transactions ∧
    a.db.wallet_transactions <+:
      (createOrder net rnd paymentMethod a).1.db.wallet_transactions := by
  refine ⟨markItem_appends net itemId status a, completeDelivery_appends net now id a, ?_, ?_, ?_,
    ?_⟩
  · rw [requestWithdrawal_wallet_transactions]
  · cases h : net 0 <;> simp [approveWithdrawal, settleWithdrawal, h]
  · cases h : net 0 <;> simp [rejectWithdrawal, settleWithdrawal, h]
  · rw [createOrder_wallet_transactions]

/-! ## Admin figures -/

theorem filter_deliveredSince (today : Nat) (l : List Order) :
    l.filter (deliveredSince today) =
      (l.filter (fun o => o.status = OrderStatus.delivered)).filter
        (fun o => (o.delivered_at.map (fun t => decide (today ≤ t))).getD false) := by
  rw [List.filter_filter]
  congr 1
  funext o
  simp [deliveredSince, Bool.and_comm]

/-- A sum of non-negative terms formed in binary64 does not grow when terms are
left out. -/
theorem foldl_jsAdd_sublist_le {α : Type} (f : α → ℚ) (l₁ l₂ : List α) (hs : l₁.Sublist l₂)
    (h : ∀ x ∈ l₂, 0 ≤ f x) (a₁ a₂ : ℚ) (h0 : 0 ≤ a₁) (h12 : a₁ ≤ a₂)
    (hr : binary64 a₂ = a₂) :
    l₁.foldl (fun s x => jsAdd s (f x)) a₁ ≤ l₂.foldl (fun s x => jsAdd s (f x)) a₂ := by
  induction hs generalizing a₁ a₂ with
  | slnil => exact h12
  | @cons l₁ l₂ x _ ih =>
    have hx := h x (List.mem_cons_self _ _)
    have h2 : 0 ≤ a₂ := le_trans h0 h12
    refine ih (fun y hy => h y (List.mem_cons_of_mem _ hy)) a₁ (jsAdd a₂ (f x)) h0 ?_
      (binary64_binary64 (add_nonneg h2 hx))
    calc a₁ ≤ a₂ := h12
      _ = binary64 a₂ := hr.symm
      _ ≤ jsAdd a₂ (f x) := binary64_mono h2 (by linarith)
  | @cons₂ l₁ l₂ x _ ih =>
    have hx := h x (List.mem_cons_self _ _)
    have h2 : 0 ≤ a₂ := le_trans h0 h12
    exact ih (fun y hy => h y (List.mem_cons_of_mem _ hy)) (jsAdd a₁ (f x)) (jsAdd a₂ (f x))
      (binary64_nonneg (add_nonneg h0 hx)) (binary64_mono (add_nonneg h0 hx) (by linarith))
      (binary64_binary64 (add_nonneg h2 hx))

theorem platformRevenue_nonneg (o : Order) (h : 0 ≤ orZero o.travel_fee) :
    0 ≤ platformRevenue o := by
  unfold platformRevenue
  apply binary64_nonneg
  apply mul_nonneg h
  rw [platform_share]; norm_num

/-- C21: for every store, when the reads go through, the lifetimeRevenue that
`loadAdminStats` returns is the sum over exactly the delivered orders of
travel_fee × (1 − 0.70), and todayProfit is the same sum over the orders
delivered on or after the start of the current day, each sum formed as the
code forms it, from left to right with every product and partial sum rounded
to binary64; when no travel fee is negative, todayProfit ≤ lifetimeRevenue.
The function only reads: it returns the figures and no store. -/
theorem loadAdminStats_revenue (today : Nat) (db : Store) :
    (loadAdminStats online today db).lifetimeRevenue =
      (db.orders.filter (fun o => o.status = OrderStatus.delivered)).foldl
        (fun s o => jsAdd s (jsMul (orZero o.travel_fee) (jsSub 1 DRIVER_SHARE))) 0 ∧
    (loadAdminStats online today db).todayProfit =
      (db.orders.filter (fun o : Order => o.status = OrderStatus.delivered ∧
          ∃ t ∈ o.delivered_at, today ≤ t)).foldl
        (fun s o => jsAdd s (jsMul (orZero o.travel_fee) (jsSub 1 DRIVER_SHARE))) 0 ∧
    ((∀ o ∈ db.orders, 0 ≤ orZero o.travel_fee) →
      (loadAdminStats online today db).todayProfit ≤
        (loadAdminStats online today db).lifetimeRevenue) := by
  have h1 : (loadAdminStats online today db).lifetimeRevenue =
      (db.orders.filter (fun o => o.status = OrderStatus.delivered)).foldl
        (fun s o => jsAdd s (platformRevenue o)) 0 := by
    simp only [loadAdminStats, online, if_true]
  have h2 : (loadAdminStats online today db).todayProfit =
      (db.orders.filter (deliveredSince today)).foldl
        (fun s o => jsAdd s (platformRevenue o)) 0 := by
    simp only [loadAdminStats, online, if_true]
  refine ⟨?_, ?_, ?_⟩
  · rw [h1]; rfl
  · rw [h2]
    have : deliveredSince today =
        (fun o : Order => decide (o.status = OrderStatus.delivered ∧
          ∃ t ∈ o.delivered_at, today ≤ t)) := by
      funext o
      cases hd : o.delivered_at <;> simp [deliveredSince, hd]
    rw [this]; rfl
  · intro hfee
    rw [h1, h2, filter_deliveredSince]
    apply foldl_jsAdd_sublist_le platformRevenue _ _ (List.filter_sublist _) _ 0 0 le_rfl le_rfl
      binary64_zero
    intro o ho
    exact platformRevenue_nonneg o (hfee o (List.mem_of_mem_filter ho))

theorem loadAdminStats_revenue_witness :
    endToEndDelivered.orders.map (fun o => (o.status, o.delivered_at)) =
      [(OrderStatus.delivered, some 9)] ∧
    (∀ o ∈ endToEndDelivered.orders, 0 ≤ orZero o.travel_fee) ∧
    (loadAdminStats online 5 endToEndDelivered).todayProfit = binary64 39.81 ∧
    (loadAdminStats online 5 endToEndDelivered).todayProfit ≤
      (loadAdminStats online 5 endToEndDelivered).lifetimeRevenue :=
  have h : ∀ o ∈ endToEndDelivered.orders, 0 ≤ orZero o.travel_fee := by
    intro o ho
    have e : endToEndDelivered.orders =
        List.cons { endToEndOrder with status := OrderStatus.delivered,
                                       delivered_at := some 9 } [] := rfl
    rw [e] at ho
    simp only [List.mem_singleton] at ho
    subst ho
    exact binary64_nonneg (by norm_num)
  have ht : (loadAdminStats online 5 endToEndDelivered).todayProfit = binary64 39.81 := by
    have e : (loadAdminStats online 5 endToEndDelivered).todayProfit =
        jsAdd 0 (jsMul (binary64 132.7) (jsSub 1 DRIVER_SHARE)) := rfl
    rw [e, lifetime_of_132_7, binary64_39_81]
  ⟨rfl, h, ht, (loadAdminStats_revenue 5 endToEndDelivered).2.2 h⟩

/-- C22: for every store, when the read goes through, the activeConsignments
count that `loadAdminStats` returns is the number of orders whose status is
pending, gathering, packed or in_transit, which is the number of orders whose
status is neither delivered nor cancelled; it is 0 when there are no orders. -/
theorem loadAdminStats_activeConsignments (today : Nat) (db : Store) :
    (loadAdminStats online today db).activeConsignments =
      (db.orders.filter (fun o =>
        o.status = OrderStatus.pending ∨ o.status = OrderStatus.gathering ∨
        o.status = OrderStatus.packed ∨ o.status = OrderStatus.in_transit)).length ∧
    (loadAdminStats online today db).activeConsignments =
      (db.orders.filter (fun o =>
        o.status ≠ OrderStatus.delivered ∧ o.status ≠ OrderStatus.cancelled)).length ∧
    (loadAdminStats online today { db with orders := [] }).activeConsignments = 0 := by
  refine ⟨?_, ?_, ?_⟩
  · simp only [loadAdminStats, online, if_true]
    congr 2
    funext o
    simp
  · simp only [loadAdminStats, online, if_true]
    congr 2
    funext o
    cases o.status <;> simp
  · simp [loadAdminStats, online]

/-! ## Withdrawals under settlement -/

theorem payouts_creditWallet (r w i : Bool) (db : Store) (user order : Option Nat)
    (type : TxnType) (amount : ℚ) (description : String) :
    (creditWallet r w i db user order type amount description).withdrawals = db.withdrawals := by
  cases r <;> cases w <;> cases i <;> cases user <;>
    simp [creditWallet, setWalletBalance, insertTransaction]

theorem markItem_withdrawals (net : Net) (itemId : Nat) (status : ItemStatus) (a : App) :
    (markItem net itemId status a).db.withdrawals = a.db.withdrawals := by
  have h1 : (updateItemStatus (net 0) a.db itemId status).1.withdrawals = a.db.withdrawals := by
    cases net 0 <;> rfl
  unfold markItem
  simp only
  split
  · split
    · exact h1
    · split
      · split
        · split
          · simp only [payouts_creditWallet]; exact h1
          · exact h1
        · exact h1
      · exact h1
  · exact h1

theorem completeDelivery_withdrawals (net : Net) (now orderId : Nat) (a : App) :
    (completeDelivery net now orderId a).db.withdrawals = a.db.withdrawals := by
  have hu : ∀ (db : Store), (updateOrderStatus (net 4) db orderId OrderStatus.delivered
      (fun o => { o with delivered_at := some now })).1.withdrawals = db.withdrawals := by
    intro db; cases net 4 <;> rfl
  unfold completeDelivery
  simp only [hu]
  split
  · exact payouts_creditWallet _ _ _ _ _ _ _ _ _
  · rfl

theorem payouts_run (db : Store) (h : PayoutsAsRequested db) (c : WalletCall) :
    PayoutsAsRequested (c.run db) := by
  cases c with
  | markItem st itemId status =>
    intro w hw
    rw [WalletCall.run, markItem_withdrawals] at hw
    exact h w hw
  | completeDelivery st now orderId =>
    intro w hw
    rw [WalletCall.run, completeDelivery_withdrawals] at hw
    exact h w hw
  | requestWithdrawal st =>
    intro w hw
    simp only [WalletCall.run, requestWithdrawal] at hw
    split at hw
    · exact h w hw
    · simp only [online, if_true] at hw
      split at hw
      · exact h w hw
      · simp only [setWalletBalance, List.mem_append, List.mem_singleton] at hw
        rcases hw with hw | rfl
        · exact h w hw
        · rfl
  | approveWithdrawal st now id =>
    intro w hw
    simp only [WalletCall.run, approveWithdrawal, settleWithdrawal, online, if_true,
      List.mem_map] at hw
    obtain ⟨w0, hw0, rfl⟩ := hw
    have := h w0 hw0
    by_cases hid : w0.id = id <;> simp [hid, this]
  | rejectWithdrawal st now id =>
    intro w hw
    simp only [WalletCall.run, rejectWithdrawal, settleWithdrawal, online, if_true,
      List.mem_map] at hw
    obtain ⟨w0, hw0, rfl⟩ := hw
    have := h w0 hw0
    by_cases hid : w0.id = id <;> simp [hid, this]

theorem payouts_runCalls (cs : List WalletCall) (db : Store) (h : PayoutsAsRequested db) :
    PayoutsAsRequested (runCalls cs db) := by
  induction cs generalizing db with
  | nil => exact h
  | cons c cs ih => exact ih _ (payouts_run db h c)

theorem withdrawalFee_40_62 :
    jsMul (binary64 40.62) (binary64 0.03) = 2744043252956843 / 2251799813685248 := by
  rw [binary64_40_62, binary64_0_03]
  exact binary64_eq_near _ _ (0) 5488086505913686 (by norm_num) (by norm_num) (by norm_num)
    (by norm_num [abs_lt]) (by norm_num)

theorem netPayout_40_62 :
    jsSub (binary64 40.62) (jsMul (binary64 40.62) (binary64 0.03)) =
      1386313518420905 / 35184372088832 := by
  rw [withdrawalFee_40_62, binary64_40_62]
  exact binary64_eq_near _ _ (5) 5545254073683620 (by norm_num) (by norm_num) (by norm_num)
    (by norm_num [abs_lt]) (by norm_num)

theorem adminFees_40_62 :
    jsAdd 0 (jsMul (binary64 40.62) (binary64 0.03)) = 2744043252956843 / 2251799813685248 := by
  rw [withdrawalFee_40_62]
  exact binary64_eq_near _ _ (0) 5488086505913686 (by norm_num) (by norm_num) (by norm_num)
    (by norm_num [abs_lt]) (by norm_num)

theorem binary64_1_2186 :
    binary64 1.2186 = 2744043252956843 / 2251799813685248 := by
  exact binary64_eq_near _ _ (0) 5488086505913686 (by norm_num) (by norm_num) (by norm_num)
    (by norm_num [abs_lt]) (by norm_num)

theorem binary64_1_2186000000000021 :
    binary64 1.2186000000000021 = 171502703309803 / 140737488355328 := by
  exact binary64_eq_near _ _ (0) 5488086505913696 (by norm_num) (by norm_num) (by norm_num)
    (by norm_num [abs_lt]) (by norm_num)

theorem binary64_39_401399999999995 :
    binary64 39.401399999999995 = 1386313518420905 / 35184372088832 := by
  exact binary64_eq_near _ _ (5) 5545254073683620 (by norm_num) (by norm_num) (by norm_num)
    (by norm_num [abs_lt]) (by norm_num)

/-- C23, as stated, fails: after user 1 requests the withdrawal of a balance of
40.62 and the admin approves it, `loadAdminStats` gives adminFees 1.2186, while
the fee withheld from the one paid withdrawal, amount − net_payout with the
stored net_payout 39.401399999999995, is 1.2186000000000021. -/
theorem adminFees_differs_from_fees_withheld :
    (roundingWalletApp.db.withdrawals = []) ∧
    (runCalls settledCalls roundingWalletApp.db).withdrawals.map
        (fun w => (w.status, w.amount, w.net_payout)) =
      [(WithdrawalStatus.paid, binary64 40.62, binary64 39.401399999999995)] ∧
    (loadAdminStats online 0 (runCalls settledCalls roundingWalletApp.db)).adminFees =
      binary64 1.2186 ∧
    (((runCalls settledCalls roundingWalletApp.db).withdrawals.filter
        (fun w => w.status = WithdrawalStatus.paid)).map
      (fun w => w.amount - w.net_payout)).sum = binary64 1.2186000000000021 ∧
    binary64 1.2186 < binary64 1.2186000000000021 := by
  have hmin : ¬ binary64 40.62 < MIN_WITHDRAWAL := by
    rw [binary64_40_62, MIN_WITHDRAWAL_eq]; norm_num
  have e : (runCalls settledCalls roundingWalletApp.db).withdrawals =
      List.cons { id := 100, user_id := some 1, amount := binary64 40.62,
                  net_payout := jsSub (binary64 40.62) (jsMul (binary64 40.62) (binary64 0.03)),
                  status := WithdrawalStatus.paid, processed_at := some 5 } [] := by
    simp [runCalls, settledCalls, WalletCall.run, requestWithdrawal, approveWithdrawal,
      settleWithdrawal, online, roundingWalletApp, walletApp, sampleStore, sampleProfile,
      sampleSession,
      selectProfile, single, orZero, setWalletBalance, hmin, netPayout, withdrawalFee]
  refine ⟨rfl, ?_, ?_, ?_, ?_⟩
  · rw [e]
    simp only [List.map_cons, List.map_nil]
    rw [netPayout_40_62, binary64_39_401399999999995]
  · simp only [loadAdminStats, online, if_true, e]
    simp only [List.filter_cons, List.filter_nil, decide_True, if_true, List.foldl_cons,
      List.foldl_nil]
    rw [adminFees_40_62, binary64_1_2186]
  · rw [e]
    simp only [List.filter_cons, List.filter_nil, decide_True, if_true, List.map_cons,
      List.map_nil, List.sum_cons, List.sum_nil]
    rw [netPayout_40_62, binary64_40_62, binary64_1_2186000000000021]
    norm_num
  · rw [binary64_1_2186, binary64_1_2186000000000021]; norm_num

/-- C23, amended: for every store reached from one without withdrawals by any
sequence of markItem, completeDelivery, requestWithdrawal, approveWithdrawal
and rejectWithdrawal calls, so that every withdrawal was created by
`requestWithdrawal`: the adminFees figure of `loadAdminStats` is the sum of
amount × 0.03 over the paid withdrawals, formed from left to right in binary64;
every withdrawal carries net_payout = amount − amount × 0.03 with the product
and the difference rounded to binary64; so the fee withheld from a withdrawal,
amount − net_payout, differs from amount × 0.03 by at most the rounding of
that difference, a part in 2 ^ 53 of it and 2 ^ -1075. -/
theorem adminFees_and_fees_withheld (db : Store) (cs : List WalletCall) (today : Nat)
    (h : db.withdrawals = []) :
    (loadAdminStats online today (runCalls cs db)).adminFees =
      ((runCalls cs db).withdrawals.filter
          (fun w => w.status = WithdrawalStatus.paid)).foldl
        (fun s w => jsAdd s (jsMul w.amount (binary64 0.03))) 0 ∧
    ∀ w ∈ (runCalls cs db).withdrawals,
      w.net_payout = jsSub w.amount (jsMul w.amount (binary64 0.03)) ∧
      |(w.amount - w.net_payout) - jsMul w.amount (binary64 0.03)| ≤
        |w.amount - jsMul w.amount (binary64 0.03)| / 2 ^ 53 + 1 / 2 ^ 1075 := by
  have hp : PayoutsAsRequested (runCalls cs db) :=
    payouts_runCalls cs db (fun w hw => by rw [h] at hw; cases hw)
  refine ⟨by simp only [loadAdminStats, online, if_true], fun w hw => ?_⟩
  have hw' : w.net_payout = jsSub w.amount (jsMul w.amount (binary64 0.03)) := hp w hw
  refine ⟨hw', ?_⟩
  have hb := abs_binary64_sub_le (w.amount - jsMul w.amount (binary64 0.03))
  rw [hw']
  have e : w.amount - jsSub w.amount (jsMul w.amount (binary64 0.03)) -
      jsMul w.amount (binary64 0.03) =
      -(binary64 (w.amount - jsMul w.amount (binary64 0.03)) -
        (w.amount - jsMul w.amount (binary64 0.03))) := by
    simp only [jsSub]; ring
  rw [e, abs_neg]
  exact hb

theorem adminFees_and_fees_withheld_witness :
    (walletApp (some 50)).db.withdrawals = [] ∧
    (loadAdminStats online 0 (runCalls settledCalls (walletApp (some 50)).db)).adminFees =
      ((runCalls settledCalls (walletApp (some 50)).db).withdrawals.filter
          (fun w => w.status = WithdrawalStatus.paid)).foldl
        (fun s w => jsAdd s (jsMul w.amount (binary64 0.03))) 0 :=
  ⟨rfl, (adminFees_and_fees_withheld (walletApp (some 50)).db settledCalls 0 rfl).1⟩

theorem settleFrameOk_settleWithdrawal (ok : Bool) (db : Store) (id : Nat)
    (status : WithdrawalStatus) (now : Nat) :
    List.Forall₂ (SettleFrameOk id) db.withdrawals
      (settleWithdrawal ok db id status now).withdrawals := by
  cases ok
  · simp only [settleWithdrawal, Bool.false_eq_true, if_false]
    exact List.forall₂_same.mpr (fun _ _ => ⟨rfl, fun _ => rfl⟩)
  · simp only [settleWithdrawal, if_true]
    rw [List.forall₂_map_right_iff]
    refine List.forall₂_same.mpr (fun w _ => ?_)
    by_cases hw : w.id = id
    · rw [if_pos hw]
      exact ⟨rfl, fun hne => absurd hw hne⟩
    · rw [if_neg hw]
      exact ⟨rfl, fun _ => rfl⟩

/-- C24: whatever the outcome of the store call, `approveWithdrawal` and
`rejectWithdrawal` keep the withdrawal rows in place, leave id, user_id, amount
and net_payout of every withdrawal unchanged, and leave every withdrawal other
than the one they name unchanged altogether: only status and processed_at of
the named withdrawal can change. -/
theorem withdrawal_amounts_frozen (net : Net) (now id : Nat) (a : App) :
    List.Forall₂ (SettleFrameOk id) a.db.withdrawals
      (approveWithdrawal net now id a).db.withdrawals ∧
    List.Forall₂ (SettleFrameOk id) a.db.withdrawals
      (rejectWithdrawal net now id a).db.withdrawals :=
  ⟨settleFrameOk_settleWithdrawal _ _ _ _ _, settleFrameOk_settleWithdrawal _ _ _ _ _⟩

/-- C25, as stated, fails: `rejectWithdrawal` on a withdrawal already paid at
time 3 sets its status to rejected and its processed_at to the time of the
call. -/
theorem rejectWithdrawal_moves_paid_withdrawal :
    (paidWithdrawalStore.withdrawals.map (fun w => (w.id, w.status, w.processed_at))) =
      [(30, WithdrawalStatus.paid, some 3)] ∧
    ((rejectWithdrawal online 5 30
        ⟨paidWithdrawalStore, sampleSession (some 9)⟩).db.withdrawals.map
      (fun w => (w.id, w.status, w.processed_at))) =
      [(30, WithdrawalStatus.rejected, some 5)] := by
  refine ⟨by decide, by decide⟩

/-- C25, amended: for every withdrawal, whatever its current status (pending,
paid or rejected), `approveWithdrawal` sets its status to paid and
`rejectWithdrawal` sets it to rejected, and both set processed_at to the time
of the call; the other withdrawals are unchanged. -/
theorem settlement_overwrites_any_status (now id : Nat) (a : App) :
    (approveWithdrawal online now id a).db.withdrawals =
      a.db.withdrawals.map (fun w =>
        if w.id = id then { w with status := WithdrawalStatus.paid, processed_at := some now }
        else w) ∧
    (rejectWithdrawal online now id a).db.withdrawals =
      a.db.withdrawals.map (fun w =>
        if w.id = id then
          { w with status := WithdrawalStatus.rejected, processed_at := some now }
        else w) := by
  constructor <;> simp [approveWithdrawal, rejectWithdrawal, settleWithdrawal, online]

/-! ## Calls that fail part-way, and calls repeated -/

theorem selectProfile_updateOrderStatus (ok : Bool) (db : Store) (orderId : Nat)
    (status : OrderStatus) (f : Order → Order) (u : Option Nat) :
    selectProfile (updateOrderStatus ok db orderId status f).1 u = selectProfile db u := by
  cases ok <;> rfl

theorem creditWallet_order_items (r w i : Bool) (db : Store) (user order : Option Nat)
    (type : TxnType) (amount : ℚ) (description : String) :
    (creditWallet r w i db user order type amount description).order_items =
      db.order_items := by
  cases r <;> cases w <;> cases i <;> cases user <;>
    simp [creditWallet, setWalletBalance, insertTransaction]

theorem markItem_order_items (net : Net) (itemId : Nat) (status : ItemStatus) (a : App) :
    (markItem net itemId status a).db.order_items =
      (updateItemStatus (net 0) a.db itemId status).1.order_items := by
  unfold markItem
  simp only
  split
  · split
    · rfl
    · split
      · split
        · split
          · simp only [creditWallet_order_items]
          · rfl
        · rfl
      · rfl
  · rfl

/-- When the read of the order fails, `markItem` writes nothing but the item. -/
theorem markItem_eq_of_order_read_failed (net : Net) (itemId : Nat) (status : ItemStatus)
    (a : App) (h1 : net 1 = false) :
    (markItem net itemId status a).db = (updateItemStatus (net 0) a.db itemId status).1 := by
  unfold markItem
  simp only [h1, Bool.false_eq_true, if_false]
  split
  · split
    · rfl
    · split <;> rfl
  · rfl

/-- C26, as stated, fails: when the update of the item goes through and the
read of the order that follows it fails, `markItem` leaves the item missing
with no refund row added and no balance changed. -/
theorem markItem_item_missing_without_refund :
    ledgerApp.db.order_items.map (fun i => (i.id, i.status)) = [(20, ItemStatus.pending)] ∧
    (markItem firstCallOnly 20 ItemStatus.missing ledgerApp).db.order_items.map
      (fun i => (i.id, i.status)) = [(20, ItemStatus.missing)] ∧
    (markItem firstCallOnly 20 ItemStatus.missing ledgerApp).db.wallet_transactions = [] ∧
    (markItem firstCallOnly 20 ItemStatus.missing ledgerApp).db.profiles =
      ledgerApp.db.profiles := by
  refine ⟨by decide, by decide, by decide, ?_⟩
  rw [markItem_eq_of_order_read_failed firstCallOnly 20 ItemStatus.missing ledgerApp rfl]
  rfl

/-- C26, amended: `markItem` with status missing first updates the item and
then, as separate store calls, reads the order and credits the customer.  The
item ends as the item update alone leaves it, whatever the later calls do; when
the read of the order fails no refund row is added and no balance changes; and
when every call goes through the item is missing, exactly one refund row of
price × quantity is appended and the customer's balance grows by that amount. -/
theorem markItem_missing_calls_apply_separately (net : Net) (a : App) (itemId : Nat)
    (v : OrderView) (items : List OrderItem) (item : OrderItem) (o : Order) (c : Nat)
    (p : Profile) (hgi : itemId ∈ a.st.gi) (hcur : a.st.currentOrder = some v)
    (hitems : v.order_items = some items)
    (hfind : items.find? (fun i => i.id = itemId) = some item)
    (hord : selectOrder a.db v.row.id = some o) (hcust : o.customer_id = some c)
    (hprof : selectProfile a.db (some c) = some p) :
    (markItem net itemId ItemStatus.missing a).db.order_items =
      (updateItemStatus (net 0) a.db itemId ItemStatus.missing).1.order_items ∧
    (net 1 = false →
      (markItem net itemId ItemStatus.missing a).db.wallet_transactions =
        a.db.wallet_transactions ∧
      (markItem net itemId ItemStatus.missing a).db.profiles = a.db.profiles) ∧
    (markItem online itemId ItemStatus.missing a).db.order_items =
      a.db.order_items.map (fun i =>
        if i.id = itemId then { i with status := ItemStatus.missing } else i) ∧
    (markItem online itemId ItemStatus.missing a).db.wallet_transactions =
      a.db.wallet_transactions ++
        [{ id := a.db.seq, user_id := some c, order_id := some v.row.id,
           type := TxnType.refund, amount := jsMul item.price item.quantity,
           description := "Refund: " ++ item.product_name }] ∧
    walletBalance (markItem online itemId ItemStatus.missing a).db c =
      jsAdd (walletBalance a.db c) (jsMul item.price item.quantity) := by
  refine ⟨markItem_order_items net itemId _ a, ?_, ?_, ?_, ?_⟩
  · intro h1
    rw [markItem_eq_of_order_read_failed net itemId _ a h1]
    cases net 0 <;> exact ⟨rfl, rfl⟩
  · rw [markItem_order_items]; simp [updateItemStatus, online]
  · rw [markItem_missing_eq a itemId v items item o hgi hcur hitems hfind hord, hcust]
    simp [creditWallet, insertTransaction, setWalletBalance, updateItemStatus]
  · rw [markItem_missing_eq a itemId v items item o hgi hcur hitems hfind hord, hcust]
    have hprof1 : selectProfile (updateItemStatus true a.db itemId ItemStatus.missing).1
        (some c) = some p := by
      rw [selectProfile_updateItemStatus]; exact hprof
    rw [(walletBalance_creditWallet _ c p _ _ _ _ hprof1).2, walletBalance_updateItemStatus]

/-- C27, as stated, fails: `completeDelivery` on an order that is already
delivered credits the driver again, with 92.88999999999999 (132.70 × 0.70 as
binary64 arithmetic gives it), and appends an earning row. -/
theorem completeDelivery_credits_delivered_order_again :
    orderStatus (storeWithOrder OrderStatus.delivered (some 2) (some 4)) 10 =
      some OrderStatus.delivered ∧
    walletBalance (storeWithOrder OrderStatus.delivered (some 2) (some 4)) 4 = 0 ∧
    walletBalance (completeDelivery online 9 10
      ⟨storeWithOrder OrderStatus.delivered (some 2) (some 4), sampleSession (some 4)⟩).db 4 =
      binary64 92.88999999999999 ∧
    (completeDelivery online 9 10
      ⟨storeWithOrder OrderStatus.delivered (some 2) (some 4),
       sampleSession (some 4)⟩).db.wallet_transactions.map
      (fun t => (t.user_id, t.order_id, t.type)) = [(some 4, some 10, TxnType.earning)] := by
  refine ⟨by decide, rfl, ?_, by decide⟩
  have e := completeDelivery_online_eq
    ⟨storeWithOrder OrderStatus.delivered (some 2) (some 4), sampleSession (some 4)⟩ 9 10
    (sampleOrder 10 (some 1) (some 2) (some 4) OrderStatus.delivered (binary64 132.7)) rfl
  rw [e, walletBalance_updateOrderStatus]
  rw [show (sampleOrder 10 (some 1) (some 2) (some 4) OrderStatus.delivered
      (binary64 132.7)).driver_id = some 4 from rfl,
    (walletBalance_creditWallet (storeWithOrder OrderStatus.delivered (some 2) (some 4)) 4
      (sampleProfile 4 "driver" none) _ _ _ _ rfl).2]
  have h0 : walletBalance (storeWithOrder OrderStatus.delivered (some 2) (some 4)) 4 = 0 := rfl
  have hf : orZero (sampleOrder 10 (some 1) (some 2) (some 4) OrderStatus.delivered
      (binary64 132.7)).travel_fee = binary64 132.7 := rfl
  rw [h0, hf, balance_of_132_7, binary64_92_88999999999999]

/-- C27, amended: `completeDelivery` does not look at the status of the order.
For every order that is read and whose driver has a profile, when the calls go
through the order ends delivered, and calling `completeDelivery` a second time
on it appends a second earning row of travel_fee × 0.70 and credits the driver
a second time. -/
theorem completeDelivery_twice_credits_twice (a : App) (now now' orderId : Nat) (o : Order)
    (d : Nat) (p : Profile) (hord : selectOrder a.db orderId = some o)
    (hdrv : o.driver_id = some d) (hprof : selectProfile a.db (some d) = some p) :
    orderStatus (completeDelivery online now orderId a).db orderId =
      some OrderStatus.delivered ∧
    (completeDelivery online now' orderId
        (completeDelivery online now orderId a)).db.wallet_transactions =
      a.db.wallet_transactions ++
        [{ id := a.db.seq, user_id := some d, order_id := some orderId,
           type := TxnType.earning, amount := jsMul (orZero o.travel_fee) DRIVER_SHARE,
           description := "Delivery completed" },
         { id := a.db.seq + 1, user_id := some d, order_id := some orderId,
           type := TxnType.earning, amount := jsMul (orZero o.travel_fee) DRIVER_SHARE,
           description := "Delivery completed" }] ∧
    walletBalance (completeDelivery online now' orderId
        (completeDelivery online now orderId a)).db d =
      jsAdd (jsAdd (walletBalance a.db d) (jsMul (orZero o.travel_fee) DRIVER_SHARE))
        (jsMul (orZero o.travel_fee) DRIVER_SHARE) := by
  have e1 := completeDelivery_online_eq a now orderId o hord
  rw [hdrv] at e1
  have h0 : selectOrder (creditWallet true true true a.db (some d) (some orderId)
      TxnType.earning (jsMul (orZero o.travel_fee) DRIVER_SHARE) "Delivery completed") orderId
      = some o := by
    rw [selectOrder_congr a.db _ (creditWallet_orders _ _ _ _ _ _ _ _ _)]; exact hord
  have hord1 : selectOrder (completeDelivery online now orderId a).db orderId =
      some { o with status := OrderStatus.delivered, delivered_at := some now } := by
    rw [e1]
    exact selectOrder_updateOrderStatus _ orderId OrderStatus.delivered
      (fun o => { o with delivered_at := some now }) (fun _ => rfl) o h0
  have hc1 := walletBalance_creditWallet a.db d p (some orderId) TxnType.earning
    (jsMul (orZero o.travel_fee) DRIVER_SHARE) "Delivery completed" hprof
  have hprof1 := hc1.1
  rw [← selectProfile_updateOrderStatus true _ orderId OrderStatus.delivered
    (fun o => { o with delivered_at := some now }), ← e1] at hprof1
  have hb1 : walletBalance (completeDelivery online now orderId a).db d =
      jsAdd (walletBalance a.db d) (jsMul (orZero o.travel_fee) DRIVER_SHARE) := by
    rw [e1, walletBalance_updateOrderStatus]; exact hc1.2
  have ht1 : (completeDelivery online now orderId a).db.wallet_transactions =
      a.db.wallet_transactions ++
        [{ id := a.db.seq, user_id := some d, order_id := some orderId,
           type := TxnType.earning, amount := jsMul (orZero o.travel_fee) DRIVER_SHARE,
           description := "Delivery completed" }] := by
    rw [e1]
    have := creditWallet_wallet_transactions a.db (some d) (some orderId) TxnType.earning
      (jsMul (orZero o.travel_fee) DRIVER_SHARE) "Delivery completed"
    simpa [updateOrderStatus] using this
  have hseq : (completeDelivery online now orderId a).db.seq = a.db.seq + 1 := by
    rw [e1]; simp [updateOrderStatus, creditWallet, insertTransaction, setWalletBalance]
  have e2 := completeDelivery_online_eq (completeDelivery online now orderId a) now' orderId _
    hord1
  have hdrv1 : ({ o with status := OrderStatus.delivered, delivered_at := some now } :
      Order).driver_id = some d := hdrv
  rw [hdrv1] at e2
  refine ⟨by rw [orderStatus, hord1]; rfl, ?_, ?_⟩
  · rw [e2]
    have := creditWallet_wallet_transactions (completeDelivery online now orderId a).db
      (some d) (some orderId) TxnType.earning (jsMul (orZero o.travel_fee) DRIVER_SHARE)
      "Delivery completed"
    rw [ht1, hseq] at this
    simpa [updateOrderStatus] using this
  · rw [e2, walletBalance_updateOrderStatus,
      (walletBalance_creditWallet _ d _ _ _ _ _ hprof1).2, hb1]

theorem markItem_missing_calls_apply_separately_witness :
    (markItem online 20 ItemStatus.missing ledgerApp).db.wallet_transactions =
      ledgerApp.db.wallet_transactions ++
        [{ id := ledgerApp.db.seq, user_id := some 1, order_id := some 10,
           type := TxnType.refund, amount := jsMul ledgerItem.price ledgerItem.quantity,
           description := "Refund: " ++ ledgerItem.product_name }] ∧
    walletBalance (markItem online 20 ItemStatus.missing ledgerApp).db 1 =
      jsAdd (walletBalance ledgerApp.db 1) (jsMul ledgerItem.price ledgerItem.quantity) :=
  (markItem_missing_calls_apply_separately online ledgerApp 20
    { row := ledgerOrder, order_items := some [ledgerItem] } [ledgerItem] ledgerItem
    ledgerOrder 1 (sampleProfile 1 "customer" (some 0)) (by decide) rfl rfl rfl rfl rfl
    rfl).2.2.2

theorem completeDelivery_twice_credits_twice_witness :
    selectOrder (storeWithOrder OrderStatus.in_transit (some 2) (some 4)) 10 =
      some (sampleOrder 10 (some 1) (some 2) (some 4) OrderStatus.in_transit (binary64 132.7)) ∧
    walletBalance (completeDelivery online 12 10
        (completeDelivery online 9 10
          ⟨storeWithOrder OrderStatus.in_transit (some 2) (some 4),
           sampleSession (some 4)⟩)).db 4 =
      jsAdd (jsAdd (walletBalance (storeWithOrder OrderStatus.in_transit (some 2) (some 4)) 4)
          (jsMul (orZero (some (binary64 132.7))) DRIVER_SHARE))
        (jsMul (orZero (some (binary64 132.7))) DRIVER_SHARE) :=
  ⟨rfl, (completeDelivery_twice_credits_twice
    ⟨storeWithOrder OrderStatus.in_transit (some 2) (some 4), sampleSession (some 4)⟩ 9 12 10
    (sampleOrder 10 (some 1) (some 2) (some 4) OrderStatus.in_transit (binary64 132.7)) 4
    (sampleProfile 4 "driver" none) rfl rfl rfl).2.2⟩

/-! ## Cart quantities -/

theorem setFirstQuantity_ids (cart : List CartEntry) (id : Nat) (f : ℤ → ℤ) :
    (setFirstQuantity cart id f).map (fun e => e.id) = cart.map (fun e => e.id) := by
  induction cart with
  | nil => rfl
  | cons e es ih =>
    by_cases h : e.id = id
    · simp [setFirstQuantity, h]
    · simp [setFirstQuantity, h, ih]

theorem setFirstQuantity_quantity (cart : List CartEntry) (id : Nat) (f : ℤ → ℤ)
    (hf : ∀ q, 1 ≤ q → 1 ≤ f q) (h : ∀ e ∈ cart, 1 ≤ e.quantity) :
    ∀ e ∈ setFirstQuantity cart id f, 1 ≤ e.quantity := by
  induction cart with
  | nil => intro e he; cases he
  | cons x xs ih =>
    have hx := h x (List.mem_cons_self _ _)
    have hxs : ∀ e ∈ xs, 1 ≤ e.quantity := fun e he => h e (List.mem_cons_of_mem _ he)
    intro e he
    by_cases hid : x.id = id
    · simp only [setFirstQuantity, hid, if_true, List.mem_cons] at he
      rcases he with rfl | he
      · exact hf _ hx
      · exact hxs e he
    · simp only [setFirstQuantity, hid, if_false, List.mem_cons] at he
      rcases he with rfl | he
      · exact hx
      · exact ih hxs e he

theorem cartOk_run (c : CartCall) (st : State)
    (hn : (st.cart.map (fun e => e.id)).Nodup) (hq : ∀ e ∈ st.cart, 1 ≤ e.quantity) :
    ((c.run st).cart.map (fun e => e.id)).Nodup ∧ ∀ e ∈ (c.run st).cart, 1 ≤ e.quantity := by
  cases c with
  | addToCart product =>
    simp only [CartCall.run, addToCart]
    cases hfind : st.cart.find? (fun i => i.id = product.id) with
    | some x =>
      simp only
      exact ⟨by rw [setFirstQuantity_ids]; exact hn,
        setFirstQuantity_quantity _ _ _ (fun q hq1 => by omega) hq⟩
    | none =>
      simp only
      have hno : ∀ e ∈ st.cart, e.id ≠ product.id := by
        intro e he
        have := List.find?_eq_none.mp hfind e he
        simpa using this
      constructor
      · rw [List.map_append, List.nodup_append]
        refine ⟨hn, by simp, ?_⟩
        intro x hx1 hx2
        simp only [List.map_cons, List.map_nil, List.mem_singleton] at hx2
        obtain ⟨e, he, rfl⟩ := List.mem_map.mp hx1
        exact hno e he hx2
      · intro e he
        rcases List.mem_append.mp he with he | he
        · exact hq e he
        · simp only [List.mem_singleton] at he
          subst he
          exact le_refl _
  | updateCartQty productId delta =>
    simp only [CartCall.run, updateCartQty]
    cases hfind : st.cart.find? (fun i => i.id = productId) with
    | some x =>
      simp only
      exact ⟨by rw [setFirstQuantity_ids]; exact hn,
        setFirstQuantity_quantity _ _ _ (fun q _ => le_max_left _ _) hq⟩
    | none => exact ⟨hn, hq⟩
  | removeFromCart productId =>
    simp only [CartCall.run, removeFromCart]
    refine ⟨?_, fun e he => hq e (List.mem_of_mem_filter he)⟩
    exact (List.Sublist.map _ (List.filter_sublist _)).nodup hn

theorem cartOk_runCart (cs : List CartCall) (st : State)
    (hn : (st.cart.map (fun e => e.id)).Nodup) (hq : ∀ e ∈ st.cart, 1 ≤ e.quantity) :
    ((runCart cs st).cart.map (fun e => e.id)).Nodup ∧
      ∀ e ∈ (runCart cs st).cart, 1 ≤ e.quantity := by
  induction cs generalizing st with
  | nil => exact ⟨hn, hq⟩
  | cons c cs ih =>
    obtain ⟨h1, h2⟩ := cartOk_run c st hn hq
    exact ih (c.run st) h1 h2

theorem newItems_quantities (cart : List CartEntry) (orderId base : Nat) :
    (newItems cart orderId base).map (fun i => i.quantity) =
      cart.map (fun e => e.quantity) := by
  unfold newItems List.enum
  generalize 0 = n
  induction cart generalizing n with
  | nil => rfl
  | cons e es ih => simp only [List.enumFrom, List.map_cons, ih]

theorem newItems_quantity (cart : List CartEntry) (orderId base : Nat)
    (h : ∀ e ∈ cart, 1 ≤ e.quantity) : ∀ i ∈ newItems cart orderId base, 1 ≤ i.quantity := by
  intro i hi
  have hmem : i.quantity ∈ (newItems cart orderId base).map (fun i => i.quantity) :=
    List.mem_map_of_mem _ hi
  rw [newItems_quantities] at hmem
  obtain ⟨e, he, heq⟩ := List.mem_map.mp hmem
  rw [← heq]
  exact h e he

/-- C28: for every cart obtained from the empty cart by any sequence of
`addToCart`, `updateCartQty` (with any integer delta) and `removeFromCart`,
every cart entry has quantity ≥ 1 and the cart holds at most one entry per
product id; hence every order item that `createOrder` inserts from such a cart
has quantity ≥ 1, whatever the outcome of the store calls. -/
theorem cart_quantities_at_least_one (cs : List CartCall) (st : State) (net : Net)
    (rnd : Nat → ℚ) (paymentMethod : String) (db : Store) :
    (∀ e ∈ (runCart cs { st with cart := [] }).cart, 1 ≤ e.quantity) ∧
    ((runCart cs { st with cart := [] }).cart.map (fun e => e.id)).Nodup ∧
    ∀ i ∈ (createOrder net rnd paymentMethod
        ⟨db, runCart cs { st with cart := [] }⟩).1.db.order_items,
      i ∈ db.order_items ∨ 1 ≤ i.quantity := by
  obtain ⟨hn, hq⟩ := cartOk_runCart cs { st with cart := [] } List.nodup_nil
    (fun e he => by cases he)
  refine ⟨hq, hn, ?_⟩
  intro i hi
  unfold createOrder at hi
  split at hi
  · split at hi
    · simp only at hi
      split at hi
      · simp only [List.mem_append] at hi
        rcases hi with hi | hi
        · exact Or.inl hi
        · exact Or.inr (newItems_quantity _ _ _ hq i hi)
      · exact Or.inl hi
    · exact Or.inl hi
  · exact Or.inl hi

/-! ## Wallet balances stay non-negative -/

theorem mem_of_single_filter {α : Type} (l : List α) (q : α → Bool) (x : α)
    (h : single (l.filter q) = some x) : x ∈ l := by
  have hl := single_eq_some h
  have : x ∈ l.filter q := by rw [hl]; simp
  exact List.mem_of_mem_filter this

theorem balance_read_nonneg (db : Store) (h : ∀ p ∈ db.profiles, 0 ≤ orZero p.wallet_balance)
    (user : Option Nat) (r : Bool) :
    0 ≤ orZero ((if r = true then selectProfile db user else none).bind
      (fun p => p.wallet_balance)) := by
  cases r
  · simp [orZero]
  · cases user with
    | none => simp [selectProfile, orZero]
    | some u =>
      simp only [if_true, selectProfile]
      cases hs : single (db.profiles.filter (fun p => p.id = u)) with
      | none => simp [orZero]
      | some p => exact h p (mem_of_single_filter _ _ _ hs)

theorem nonNegative_setWalletBalance (db : Store) (h : NonNegative db) (user : Option Nat)
    (b : ℚ) (hb : 0 ≤ b) : NonNegative (setWalletBalance db user b) := by
  cases user with
  | none => exact h
  | some u =>
    refine ⟨?_, h.2⟩
    intro p hp
    simp only [setWalletBalance, List.mem_map] at hp
    obtain ⟨q, hq, rfl⟩ := hp
    by_cases hid : q.id = u
    · simp only [hid, if_true]; exact hb
    · simp only [hid, if_false]; exact h.1 q hq

theorem nonNegative_creditWallet (r w i : Bool) (db : Store) (h : NonNegative db)
    (user order : Option Nat) (type : TxnType) (amount : ℚ) (description : String)
    (ha : 0 ≤ amount) :
    NonNegative (creditWallet r w i db user order type amount description) := by
  have hread := balance_read_nonneg db h.1 user r
  have hset := nonNegative_setWalletBalance db h user _ (binary64_nonneg (add_nonneg hread ha))
  unfold creditWallet
  cases w <;> cases i <;> simp only [Bool.false_eq_true, if_false, if_true]
  · exact h
  · exact h
  · exact hset
  · exact hset

theorem nonNegative_updateOrderStatus (ok : Bool) (db : Store) (h : NonNegative db)
    (orderId : Nat) (status : OrderStatus) (f : Order → Order)
    (hf : ∀ o, (f o).travel_fee = o.travel_fee) :
    NonNegative (updateOrderStatus ok db orderId status f).1 := by
  cases ok
  · exact h
  · refine ⟨h.1, ?_⟩
    intro o ho
    simp only [updateOrderStatus, if_true, List.mem_map] at ho
    obtain ⟨x, hx, rfl⟩ := ho
    by_cases hid : x.id = orderId
    · simp only [hid, if_true, hf]; exact h.2 x hx
    · simp only [hid, if_false]; exact h.2 x hx

theorem nonNegative_updateItemStatus (ok : Bool) (db : Store) (h : NonNegative db)
    (itemId : Nat) (status : ItemStatus) :
    NonNegative (updateItemStatus ok db itemId status).1 := by
  cases ok <;> exact h

theorem nonNegative_markItem (net : Net) (itemId : Nat) (status : ItemStatus) (a : App)
    (h : NonNegative a.db)
    (hi : (WalletCall.markItem a.st itemId status).NonNegativeItems) :
    NonNegative (markItem net itemId status a).db := by
  have h1 := nonNegative_updateItemStatus (net 0) a.db h itemId status
  unfold markItem
  simp only
  split
  · split
    · exact h1
    · rename_i v hv
      split
      · split
        · rename_i it hit
          split
          · rename_i it' hit'
            apply nonNegative_creditWallet _ _ _ _ h1
            cases hitems : v.order_items with
            | none => rw [hitems] at hit'; simp at hit'
            | some items =>
              rw [hitems] at hit'
              simp only [Option.some_bind] at hit'
              have hmem := List.mem_of_find?_eq_some hit'
              obtain ⟨hp, hq⟩ := hi v items hv hitems it' hmem
              exact binary64_nonneg (mul_nonneg hp (by exact_mod_cast hq))
          · exact h1
        · exact h1
      · exact h1
  · exact h1

theorem nonNegative_completeDelivery (net : Net) (now orderId : Nat) (a : App)
    (h : NonNegative a.db) : NonNegative (completeDelivery net now orderId a).db := by
  unfold completeDelivery
  simp only
  refine nonNegative_updateOrderStatus (net 4) _ ?_ orderId OrderStatus.delivered
    (fun o => { o with delivered_at := some now }) (fun _ => rfl)
  split
  · rename_i o ho
    apply nonNegative_creditWallet _ _ _ _ h
    have hmem : o ∈ a.db.orders := by
      cases hn : net 0
      · simp [hn] at ho
      · simp only [hn, if_true, selectOrder] at ho
        exact mem_of_single_filter _ _ _ ho
    exact binary64_nonneg (mul_nonneg (h.2 o hmem) (by rw [DRIVER_SHARE_eq]; norm_num))
  · exact h

theorem nonNegative_requestWithdrawal (net : Net) (a : App) (h : NonNegative a.db) :
    NonNegative (requestWithdrawal net a).db := by
  unfold requestWithdrawal
  cases a.st.user with
  | none => exact h
  | some uid =>
    simp only
    split_ifs <;>
      first
      | exact h
      | exact ⟨h.1, h.2⟩
      | (show NonNegative (setWalletBalance _ (some uid) 0)
         refine nonNegative_setWalletBalance _ ?_ _ 0 (le_refl _)
         exact ⟨h.1, h.2⟩)

theorem nonNegative_settleWithdrawal (ok : Bool) (db : Store) (h : NonNegative db) (id : Nat)
    (status : WithdrawalStatus) (now : Nat) :
    NonNegative (settleWithdrawal ok db id status now) := by
  cases ok <;> exact h

theorem nonNegative_runCalls (cs : List WalletCall) (db : Store) (h : NonNegative db)
    (hcs : ∀ c ∈ cs, c.NonNegativeItems) : NonNegative (runCalls cs db) := by
  induction cs generalizing db with
  | nil => exact h
  | cons c cs ih =>
    refine ih (c.run db) ?_ (fun c' hc' => hcs c' (List.mem_cons_of_mem _ hc'))
    have hc := hcs c (List.mem_cons_self _ _)
    cases c with
    | markItem st itemId status => exact nonNegative_markItem online itemId status ⟨db, st⟩ h hc
    | completeDelivery st now orderId =>
      exact nonNegative_completeDelivery online now orderId ⟨db, st⟩ h
    | requestWithdrawal st => exact nonNegative_requestWithdrawal online ⟨db, st⟩ h
    | approveWithdrawal st now id => exact nonNegative_settleWithdrawal _ db h id _ now
    | rejectWithdrawal st now id => exact nonNegative_settleWithdrawal _ db h id _ now

/-- C30: from every store whose balances and travel fees are non-negative,
after any sequence of markItem, completeDelivery, requestWithdrawal,
approveWithdrawal and rejectWithdrawal calls that go through, with non-negative
prices and quantities on the items the pickers see, every stored wallet_balance
is ≥ 0, and so is the balance read for every user (rounding to binary64 keeps a
non-negative product or sum non-negative). -/
theorem wallet_balance_never_negative (db : Store) (cs : List WalletCall)
    (h : NonNegative db) (hcs : ∀ c ∈ cs, c.NonNegativeItems) :
    (∀ p ∈ (runCalls cs db).profiles, 0 ≤ orZero p.wallet_balance) ∧
    ∀ u, 0 ≤ walletBalance (runCalls cs db) u := by
  have hn := nonNegative_runCalls cs db h hcs
  refine ⟨hn.1, fun u => ?_⟩
  have := balance_read_nonneg (runCalls cs db) hn.1 (some u) true
  simpa [walletBalance] using this

theorem wallet_balance_never_negative_witness :
    NonNegative ledgerStore ∧
    ∀ u, 0 ≤ walletBalance (runCalls ledgerCalls ledgerStore) u :=
  have h : NonNegative ledgerStore := by
    constructor
    · intro p hp
      simp only [ledgerStore, sampleStore, List.mem_cons, List.mem_singleton,
        List.not_mem_nil, or_false] at hp
      rcases hp with rfl | rfl <;> simp [sampleProfile, orZero]
    · intro o ho
      simp only [ledgerStore, sampleStore, List.mem_singleton] at ho
      subst ho
      exact binary64_nonneg (by norm_num)
  have hcs : ∀ c ∈ ledgerCalls, c.NonNegativeItems := by
    intro c hc
    simp only [ledgerCalls, List.mem_cons, List.mem_singleton, List.not_mem_nil,
      or_false] at hc
    rcases hc with rfl | rfl
    · intro v items hv hitems i hi
      simp only [pickerOnMission, sampleSession, Option.some.injEq] at hv
      subst hv
      simp only [Option.some.injEq] at hitems
      subst hitems
      simp only [List.mem_singleton] at hi
      subst hi
      simp [ledgerItem, sampleItem]
    · trivial
  ⟨h, (wallet_balance_never_negative ledgerStore ledgerCalls h hcs).2⟩

/-! ## The split of the travel fee -/

theorem map_deliver_of_absent (l : List Order) (i : Nat) (g : Order → Order)
    (h : l.filter (fun o => o.id = i) = []) :
    l.map (fun o => if o.id = i then g o else o) = l := by
  induction l with
  | nil => rfl
  | cons x xs ih =>
    by_cases hx : x.id = i
    · simp [List.filter_cons, hx] at h
    · simp only [List.filter_cons, hx, decide_False, Bool.false_eq_true, if_false] at h
      simp [hx, ih h]

theorem sum_delivered_after_deliver (f : Order → ℚ) (g : Order → Order) (i : Nat) (o : Order)
    (hg : ∀ x, (g x).status = OrderStatus.delivered) (hf : ∀ x, f (g x) = f x)
    (l : List Order) (h : l.filter (fun x => x.id = i) = [o])
    (hnd : o.status ≠ OrderStatus.delivered) :
    (((l.map (fun x => if x.id = i then g x else x)).filter
        (fun x => x.status = OrderStatus.delivered)).map f).sum =
      ((l.filter (fun x => x.status = OrderStatus.delivered)).map f).sum + f o := by
  induction l with
  | nil => simp at h
  | cons x xs ih =>
    by_cases hx : x.id = i
    · have h' : x = o ∧ xs.filter (fun x => x.id = i) = [] := by
        simpa [List.filter_cons, hx] using h
      obtain ⟨hxo, hxs⟩ := h'
      have hmap := map_deliver_of_absent xs i g hxs
      have hsx : ¬ x.status = OrderStatus.delivered := hxo ▸ hnd
      rw [List.map_cons, if_pos hx, hmap, List.filter_cons, List.filter_cons]
      simp only [hg, decide_True, if_true, hsx, decide_False, Bool.false_eq_true, if_false,
        List.map_cons, List.sum_cons, hf]
      rw [hxo]; ring
    · have h' : xs.filter (fun x => x.id = i) = [o] := by
        simpa [List.filter_cons, hx] using h
      have ih' := ih h'
      rw [List.map_cons, if_neg hx, List.filter_cons, List.filter_cons]
      by_cases hs : x.status = OrderStatus.delivered
      · simp only [hs, decide_True, if_true, List.map_cons, List.sum_cons, ih']
        ring
      · simp only [hs, decide_False, Bool.false_eq_true, if_false, ih']

theorem earningSum_creditWallet (db : Store) (user order : Option Nat) (type : TxnType)
    (amount : ℚ) (description : String) :
    earningSum (creditWallet true true true db user order type amount description) =
      earningSum db + if type = TxnType.earning then amount else 0 := by
  by_cases ht : type = TxnType.earning <;> cases user <;>
    simp [earningSum, creditWallet, insertTransaction, setWalletBalance, List.filter_append, ht]

theorem binary64_27_7 :
    binary64 27.7 = 7796856854885171 / 281474976710656 := by
  exact binary64_eq_near _ _ (4) 7796856854885171 (by norm_num) (by norm_num) (by norm_num)
    (by norm_num [abs_lt]) (by norm_num)

theorem earning_of_27_7 :
    jsMul (binary64 27.7) DRIVER_SHARE = 5457799798419619 / 281474976710656 := by
  rw [binary64_27_7, DRIVER_SHARE_eq]
  exact binary64_eq_near _ _ (4) 5457799798419619 (by norm_num) (by norm_num) (by norm_num)
    (by norm_num [abs_lt]) (by norm_num)

theorem revenue_of_27_7 :
    jsMul (binary64 27.7) (jsSub 1 DRIVER_SHARE) = 4678114112931103 / 562949953421312 := by
  rw [platform_share, binary64_27_7]
  exact binary64_eq_near _ _ (3) 4678114112931103 (by norm_num) (by norm_num) (by norm_num)
    (by norm_num [abs_lt]) (by norm_num)

theorem lifetime_of_27_7 :
    jsAdd 0 (jsMul (binary64 27.7) (jsSub 1 DRIVER_SHARE)) =
      4678114112931103 / 562949953421312 := by
  rw [revenue_of_27_7]
  exact binary64_eq_near _ _ (3) 4678114112931103 (by norm_num) (by norm_num) (by norm_num)
    (by norm_num [abs_lt]) (by norm_num)

theorem binary64_19_389999999999997 :
    binary64 19.389999999999997 = 5457799798419619 / 281474976710656 := by
  exact binary64_eq_near _ _ (4) 5457799798419619 (by norm_num) (by norm_num) (by norm_num)
    (by norm_num [abs_lt]) (by norm_num)

theorem binary64_8_31 :
    binary64 8.31 = 4678114112931103 / 562949953421312 := by
  exact binary64_eq_near _ _ (3) 4678114112931103 (by norm_num) (by norm_num) (by norm_num)
    (by norm_num [abs_lt]) (by norm_num)

/-- The platform keeps exactly what the driver share leaves of 1. -/
theorem platform_share_exact : jsSub 1 DRIVER_SHARE = 1 - DRIVER_SHARE := by
  rw [platform_share, DRIVER_SHARE_eq]; norm_num

/-- The figure the split is stated on: the two parts of a non-negative fee add
up to the fee, up to the rounding of the two products. -/
theorem fee_split (o : Order) (h : 0 ≤ orZero o.travel_fee) :
    |jsMul (orZero o.travel_fee) DRIVER_SHARE + platformRevenue o - orZero o.travel_fee| ≤
      orZero o.travel_fee / 2 ^ 53 + 1 / 2 ^ 1074 := by
  unfold platformRevenue
  rw [platform_share_exact]
  have hs : (0 : ℚ) ≤ DRIVER_SHARE := by rw [DRIVER_SHARE_eq]; norm_num
  have ht : (0 : ℚ) ≤ 1 - DRIVER_SHARE := by rw [DRIVER_SHARE_eq]; norm_num
  have h1 := abs_binary64_sub_le (orZero o.travel_fee * DRIVER_SHARE)
  have h2 := abs_binary64_sub_le (orZero o.travel_fee * (1 - DRIVER_SHARE))
  rw [abs_of_nonneg (mul_nonneg h hs)] at h1
  rw [abs_of_nonneg (mul_nonneg h ht)] at h2
  have e : jsMul (orZero o.travel_fee) DRIVER_SHARE +
      jsMul (orZero o.travel_fee) (1 - DRIVER_SHARE) - orZero o.travel_fee =
      (binary64 (orZero o.travel_fee * DRIVER_SHARE) - orZero o.travel_fee * DRIVER_SHARE) +
      (binary64 (orZero o.travel_fee * (1 - DRIVER_SHARE)) -
        orZero o.travel_fee * (1 - DRIVER_SHARE)) := by
    simp only [jsMul]; ring
  rw [e]
  refine le_trans (abs_add _ _) ?_
  have e2 : orZero o.travel_fee / 2 ^ 53 + 1 / 2 ^ 1074 =
      (orZero o.travel_fee * DRIVER_SHARE / 2 ^ 53 + 1 / 2 ^ 1075) +
      (orZero o.travel_fee * (1 - DRIVER_SHARE) / 2 ^ 53 + 1 / 2 ^ 1075) := by
    have : (1 : ℚ) / 2 ^ 1074 = 1 / 2 ^ 1075 + 1 / 2 ^ 1075 := by norm_num
    rw [this]; ring
  rw [e2]
  exact add_le_add h1 h2

theorem completeDelivery_orders (a : App) (now orderId : Nat) :
    (completeDelivery online now orderId a).db.orders =
      a.db.orders.map (fun x => if x.id = orderId then
        { x with status := OrderStatus.delivered, delivered_at := some now } else x) := by
  unfold completeDelivery
  simp only [online, if_true, updateOrderStatus]
  split
  · rw [creditWallet_orders]
  · rfl

theorem fees_nonneg_completeDelivery (a : App) (now orderId : Nat)
    (h : ∀ o ∈ a.db.orders, 0 ≤ orZero o.travel_fee) :
    ∀ o ∈ (completeDelivery online now orderId a).db.orders, 0 ≤ orZero o.travel_fee := by
  intro o ho
  rw [completeDelivery_orders, List.mem_map] at ho
  obtain ⟨x, hx, rfl⟩ := ho
  by_cases hid : x.id = orderId
  · rw [if_pos hid]; exact h x hx
  · rw [if_neg hid]; exact h x hx

theorem splitOk_completeDelivery (a : App) (now orderId : Nat) (o : Order)
    (h : SplitOk a.db) (hord : selectOrder a.db orderId = some o)
    (hnd : o.status ≠ OrderStatus.delivered) :
    SplitOk (completeDelivery online now orderId a).db := by
  have e := completeDelivery_online_eq a now orderId o hord
  have hl : a.db.orders.filter (fun x => x.id = orderId) = [o] := single_eq_some hord
  have hmem : o ∈ a.db.orders := by
    have : o ∈ a.db.orders.filter (fun x => x.id = orderId) := by rw [hl]; simp
    exact List.mem_of_mem_filter this
  have horders := completeDelivery_orders a now orderId
  have hE : earningSum (completeDelivery online now orderId a).db =
      earningSum a.db + jsMul (orZero o.travel_fee) DRIVER_SHARE := by
    rw [e]
    have := earningSum_creditWallet a.db o.driver_id (some orderId) TxnType.earning
      (jsMul (orZero o.travel_fee) DRIVER_SHARE) "Delivery completed"
    simpa [earningSum, updateOrderStatus] using this
  obtain ⟨hfee, hb⟩ := h
  refine ⟨fees_nonneg_completeDelivery a now orderId hfee, ?_⟩
  have hlen := sum_delivered_after_deliver (fun _ => (1 : ℚ))
      (fun x => { x with status := OrderStatus.delivered, delivered_at := some now }) orderId o
      (fun _ => rfl) (fun _ => rfl) _ hl hnd
  simp only [List.map_const', List.sum_replicate, nsmul_eq_mul, mul_one] at hlen
  unfold deliveredRevenueSum deliveredFeeSum at *
  rw [hE, horders,
    sum_delivered_after_deliver platformRevenue
      (fun x => { x with status := OrderStatus.delivered, delivered_at := some now }) orderId o
      (fun _ => rfl) (fun _ => rfl) _ hl hnd,
    sum_delivered_after_deliver (fun o => orZero o.travel_fee)
      (fun x => { x with status := OrderStatus.delivered, delivered_at := some now }) orderId o
      (fun _ => rfl) (fun _ => rfl) _ hl hnd, hlen]
  have hs := fee_split o (hfee o hmem)
  rw [abs_le] at hb hs ⊢
  constructor
  · have : (0 : ℚ) ≤ 1 / 2 ^ 1074 := by positivity
    rw [add_div, add_div]
    linarith [hb.1, hs.1]
  · rw [add_div, add_div]
    linarith [hb.2, hs.2]

theorem earningSum_creditWallet_refund (r w i : Bool) (db : Store) (user order : Option Nat)
    (amount : ℚ) (description : String) :
    earningSum (creditWallet r w i db user order TxnType.refund amount description) =
      earningSum db := by
  cases r <;> cases w <;> cases i <;> cases user <;>
    simp [earningSum, creditWallet, insertTransaction, setWalletBalance, List.filter_append]

theorem earningSum_markItem (net : Net) (itemId : Nat) (status : ItemStatus) (a : App) :
    earningSum (markItem net itemId status a).db = earningSum a.db := by
  have h1 : earningSum (updateItemStatus (net 0) a.db itemId status).1 = earningSum a.db := by
    cases net 0 <;> rfl
  unfold markItem
  simp only
  split
  · split
    · exact h1
    · split
      · split
        · split
          · simp only [earningSum_creditWallet_refund]; exact h1
          · exact h1
        · exact h1
      · exact h1
  · exact h1

theorem requestWithdrawal_orders (net : Net) (a : App) :
    (requestWithdrawal net a).db.orders = a.db.orders := by
  unfold requestWithdrawal
  cases a.st.user with
  | none => rfl
  | some uid =>
    simp only
    split_ifs <;> simp [setWalletBalance]

theorem splitOk_congr (db db' : Store) (h : SplitOk db) (ho : db'.orders = db.orders)
    (he : earningSum db' = earningSum db) : SplitOk db' := by
  unfold SplitOk deliveredRevenueSum deliveredFeeSum at *
  rw [ho, he]; exact h

theorem splitOk_runCalls (cs : List WalletCall) (db : Store) (h : SplitOk db)
    (hc : DeliversOnce cs db) : SplitOk (runCalls cs db) := by
  induction cs generalizing db with
  | nil => exact h
  | cons c cs ih =>
    obtain ⟨hc1, hc2⟩ := hc
    refine ih (c.run db) ?_ hc2
    cases c with
    | markItem st itemId status =>
      exact splitOk_congr db _ h (markItem_orders online itemId status ⟨db, st⟩)
        (earningSum_markItem online itemId status ⟨db, st⟩)
    | completeDelivery st now orderId =>
      obtain ⟨o, ho, hnd⟩ := hc1
      exact splitOk_completeDelivery ⟨db, st⟩ now orderId o h ho hnd
    | requestWithdrawal st =>
      refine splitOk_congr db _ h (requestWithdrawal_orders online ⟨db, st⟩) ?_
      simp only [earningSum, WalletCall.run, requestWithdrawal_wallet_transactions]
    | approveWithdrawal st now id =>
      exact splitOk_congr db _ h
        (by simp [WalletCall.run, approveWithdrawal, settleWithdrawal, online])
        (by simp [earningSum, WalletCall.run, approveWithdrawal, settleWithdrawal, online])
    | rejectWithdrawal st now id =>
      exact splitOk_congr db _ h
        (by simp [WalletCall.run, rejectWithdrawal, settleWithdrawal, online])
        (by simp [earningSum, WalletCall.run, rejectWithdrawal, settleWithdrawal, online])

/-- C29, as stated, fails: for an order with a travel fee of 27.70 delivered
once, `completeDelivery` credits the driver 19.389999999999997 and the revenue
`loadAdminStats` derives is 8.31; together they fall short of the fee. -/
theorem travel_fee_split_loses_last_digit :
    orderStatus feeSplitStore 10 = some OrderStatus.in_transit ∧
    earningSum (runCalls [WalletCall.completeDelivery (sampleSession (some 4)) 9 10]
      feeSplitStore) = binary64 19.389999999999997 ∧
    (loadAdminStats online 0
      (runCalls [WalletCall.completeDelivery (sampleSession (some 4)) 9 10]
        feeSplitStore)).lifetimeRevenue = binary64 8.31 ∧
    deliveredFeeSum (runCalls [WalletCall.completeDelivery (sampleSession (some 4)) 9 10]
      feeSplitStore) = binary64 27.7 ∧
    binary64 19.389999999999997 + binary64 8.31 < binary64 27.7 ∧
    jsMul (binary64 27.7) DRIVER_SHARE + platformRevenue
        (sampleOrder 10 (some 1) (some 2) (some 4) OrderStatus.in_transit (binary64 27.7)) <
      binary64 27.7 := by
  have ht : (runCalls [WalletCall.completeDelivery (sampleSession (some 4)) 9 10]
      feeSplitStore).wallet_transactions =
      List.cons { id := 100, user_id := some 4, order_id := some 10, type := TxnType.earning,
                  amount := jsMul (binary64 27.7) DRIVER_SHARE,
                  description := "Delivery completed" } [] := rfl
  have h1 : earningSum (runCalls [WalletCall.completeDelivery (sampleSession (some 4)) 9 10]
      feeSplitStore) = jsMul (binary64 27.7) DRIVER_SHARE := by
    rw [earningSum, ht]
    simp only [List.filter_cons, List.filter_nil, decide_True, if_true, List.map_cons,
      List.map_nil, List.sum_cons, List.sum_nil, add_zero]
  have h2 : (loadAdminStats online 0
      (runCalls [WalletCall.completeDelivery (sampleSession (some 4)) 9 10]
        feeSplitStore)).lifetimeRevenue =
      jsAdd 0 (jsMul (binary64 27.7) (jsSub 1 DRIVER_SHARE)) := rfl
  have h3 : deliveredFeeSum
      (runCalls [WalletCall.completeDelivery (sampleSession (some 4)) 9 10]
        feeSplitStore) = binary64 27.7 + 0 := rfl
  have h4 : platformRevenue
      (sampleOrder 10 (some 1) (some 2) (some 4) OrderStatus.in_transit (binary64 27.7)) =
      jsMul (binary64 27.7) (jsSub 1 DRIVER_SHARE) := rfl
  refine ⟨by decide, ?_, ?_, ?_, ?_, ?_⟩
  · rw [h1, earning_of_27_7, binary64_19_389999999999997]
  · rw [h2, lifetime_of_27_7, binary64_8_31]
  · rw [h3]; norm_num
  · rw [binary64_19_389999999999997, binary64_8_31, binary64_27_7]; norm_num
  · rw [h4, earning_of_27_7, revenue_of_27_7, binary64_27_7]; norm_num

/-- C29, amended: the travel fee is split without loss only up to rounding.
For every order with a non-negative travel fee, the driver earning that
`completeDelivery` credits, travel_fee × 0.70, plus the platform revenue that
`loadAdminStats` derives for the order, travel_fee × (1 − 0.70), differs from
the travel fee by at most a part in 2 ^ 53 of it and 2 ^ -1074, and need not
equal it.  From a store without earnings and delivered orders and with no
negative fee, after any sequence of calls that go through in which every
`completeDelivery` names an order not yet delivered, the sum of the driver
earnings plus the sum of the platform revenues of the delivered orders differs
from the sum of their travel fees by at most a part in 2 ^ 53 of that sum and
2 ^ -1074 for each delivered order; lifetimeRevenue is the sum of these
revenues formed from left to right in binary64. -/
theorem travel_fee_split_up_to_rounding (db : Store) (cs : List WalletCall) (today : Nat)
    (hE : db.wallet_transactions.filter (fun t => t.type = TxnType.earning) = [])
    (hD : db.orders.filter (fun o => o.status = OrderStatus.delivered) = [])
    (hfee : ∀ o ∈ db.orders, 0 ≤ orZero o.travel_fee)
    (hc : DeliversOnce cs db) :
    (∀ o : Order, 0 ≤ orZero o.travel_fee →
      |jsMul (orZero o.travel_fee) DRIVER_SHARE + platformRevenue o - orZero o.travel_fee| ≤
        orZero o.travel_fee / 2 ^ 53 + 1 / 2 ^ 1074) ∧
    |earningSum (runCalls cs db) + deliveredRevenueSum (runCalls cs db) -
        deliveredFeeSum (runCalls cs db)| ≤
      deliveredFeeSum (runCalls cs db) / 2 ^ 53 +
        (((runCalls cs db).orders.filter
          (fun o => o.status = OrderStatus.delivered)).length : ℚ) / 2 ^ 1074 ∧
    (loadAdminStats online today (runCalls cs db)).lifetimeRevenue =
      ((runCalls cs db).orders.filter (fun o => o.status = OrderStatus.delivered)).foldl
        (fun s o => jsAdd s (platformRevenue o)) 0 := by
  refine ⟨fee_split, ?_, by simp only [loadAdminStats, online, if_true]⟩
  exact (splitOk_runCalls cs db
    ⟨hfee, by simp [earningSum, deliveredRevenueSum, deliveredFeeSum, hE, hD]⟩ hc).2

theorem travel_fee_split_up_to_rounding_witness :
    (∀ o ∈ feeSplitStore.orders, 0 ≤ orZero o.travel_fee) ∧
    |jsMul (binary64 27.7) DRIVER_SHARE + platformRevenue
          (sampleOrder 10 (some 1) (some 2) (some 4) OrderStatus.in_transit (binary64 27.7)) -
        binary64 27.7| ≤ binary64 27.7 / 2 ^ 53 + 1 / 2 ^ 1074 ∧
    |earningSum (runCalls [WalletCall.completeDelivery (sampleSession (some 4)) 9 10]
          feeSplitStore) +
        deliveredRevenueSum
          (runCalls [WalletCall.completeDelivery (sampleSession (some 4)) 9 10]
            feeSplitStore) -
        deliveredFeeSum (runCalls [WalletCall.completeDelivery (sampleSession (some 4)) 9 10]
          feeSplitStore)| ≤
      deliveredFeeSum (runCalls [WalletCall.completeDelivery (sampleSession (some 4)) 9 10]
          feeSplitStore) / 2 ^ 53 +
        (((runCalls [WalletCall.completeDelivery (sampleSession (some 4)) 9 10]
            feeSplitStore).orders.filter
          (fun o => o.status = OrderStatus.delivered)).length : ℚ) / 2 ^ 1074 :=
  have h27 : (0 : ℚ) ≤ binary64 27.7 := binary64_nonneg (by norm_num)
  have hfee : ∀ o ∈ feeSplitStore.orders, 0 ≤ orZero o.travel_fee := by
    intro o ho
    have e : feeSplitStore.orders = List.cons
      (sampleOrder 10 (some 1) (some 2) (some 4) OrderStatus.in_transit (binary64 27.7))
      [] := rfl
    rw [e] at ho
    simp only [List.mem_singleton] at ho
    subst ho
    exact h27
  have h := travel_fee_split_up_to_rounding feeSplitStore
    [WalletCall.completeDelivery (sampleSession (some 4)) 9 10] 0 rfl rfl hfee
    ⟨⟨sampleOrder 10 (some 1) (some 2) (some 4) OrderStatus.in_transit (binary64 27.7), rfl,
      by decide⟩, trivial⟩
  ⟨hfee,
   h.1 (sampleOrder 10 (some 1) (some 2) (some 4) OrderStatus.in_transit (binary64 27.7)) h27,
   h.2.1⟩

end Siyathumeka
